import Mathlib

/-!
# GitOps add-on client of EKS Anywhere (`pkg/addonmanager/addonclients/fluxaddonclient.go`)

A shallow embedding of `FluxAddonClient` and `fluxForCluster`.

* The collaborators of the client (the `git.Provider`, the `filewriter.FileWriter`, the
  templater, the cluster marshaller, the local file system seen through
  `validations.FileExists`, and the `Flux` executable) are interfaces whose implementations
  are not part of the client.  They are represented by one environment `Env` that answers
  every call; the answer may depend on all the calls made before it, so a collaborator can
  fail on a first attempt and succeed on a later one.
* A computation `M α` is run against an environment and the history of calls made so far.
  It yields an outcome (a returned value, or a Go run-time panic) and the list of the calls
  it made, each with the answer it got, oldest first.
* Logging and the waiting time between two attempts of a retry have no effect on the control
  flow and are left out.
-/

namespace addonclients

/-! ## Go values -/

/-- Go `error` values that are not nil.  `wraps` is an error with an `Unwrap` method
(`fmt.Errorf` with the verb `%w`, or a wrapping error made by a collaborator); `formats` is
`fmt.Errorf` with the verb `%v`, which keeps the text of the cause and not the cause itself. -/
inductive GoError where
  | external (msg : String)
  | RepositoryIsEmptyError (msg : String)
  | wraps (msg : String) (cause : GoError)
  | formats (msg : String) (cause : GoError)
  | Errorf (msg : String)
  | ConfigVersionControlFailedError (Err : GoError)
deriving DecidableEq, Repr

/-- A Go `error`: `none` is nil. -/
abbrev Error := Option GoError

/-- The method `Error()` of an error value. -/
def GoError.Error : GoError → String
  | .external msg => msg
  | .RepositoryIsEmptyError msg => msg
  | .wraps msg cause => msg ++ cause.Error
  | .formats msg cause => msg ++ cause.Error
  | .Errorf msg => msg
  | .ConfigVersionControlFailedError e =>
      "Encountered an error when attempting to version control cluster config: " ++ e.Error

/-- The test `errors.As(err, &repoEmptyErr)` with `repoEmptyErr` a `*git.RepositoryIsEmptyError`:
the chain of `Unwrap` is followed until an error of that type is met.
`ConfigVersionControlFailedError` has no `Unwrap` method. -/
def GoError.asRepositoryIsEmptyError : GoError → Bool
  | .RepositoryIsEmptyError _ => true
  | .wraps _ cause => cause.asRepositoryIsEmptyError
  | _ => false

/-- Whether an error is a `*ConfigVersionControlFailedError`. -/
def GoError.isConfigVersionControlFailed : GoError → Bool
  | .ConfigVersionControlFailedError _ => true
  | _ => false

/-! ## Standard library: package `path` -/

namespace path

/-- The elements of a path between its slashes. -/
def elements : List Char → List (List Char)
  | [] => [[]]
  | c :: cs =>
    match elements cs with
    | [] => [[]]
    | x :: xs => if c = '/' then [] :: x :: xs else (c :: x) :: xs

/-- One step of `Clean`: the elements kept so far (last one first) and the next element. -/
def cleanStep (rooted : Bool) (kept : List (List Char)) (elem : List Char) : List (List Char) :=
  if elem = [] ∨ elem = ['.'] then kept
  else if elem = ['.', '.'] then
    match kept with
    | top :: rest =>
      if top = ['.', '.'] then (if rooted then kept else elem :: kept) else rest
    | [] => if rooted then [] else [elem]
  else elem :: kept

/-- Go `path.Clean`: empty and `.` elements are dropped, `..` removes the element before it
(and is dropped at the root, kept at the start of a relative path), the empty result is `.`. -/
def Clean (p : String) : String :=
  if p.data = [] then "."
  else
    let rooted := p.data.head? == some '/'
    let kept := (elements p.data).foldl (cleanStep rooted) []
    let body := String.mk (List.intercalate ['/'] kept.reverse)
    if rooted then "/" ++ body
    else if kept = [] then "." else body

/-- Go `path.Join`: the elements are joined with slashes, empty elements at the start being
skipped, and the result is cleaned; the result is empty when every element is empty. -/
def Join (elem : List String) : String :=
  if elem.all (fun e => e.data = []) then ""
  else
    Clean (elem.foldl
      (fun buf e =>
        if buf.data ≠ [] ∨ e.data ≠ [] then (if buf.data ≠ [] then buf ++ "/" else buf) ++ e
        else buf) "")

/-- Go `path.Dir`: everything up to the last slash, cleaned. -/
def Dir (p : String) : String :=
  Clean (String.mk (p.data.reverse.dropWhile (fun c => c ≠ '/')).reverse)

end path

/-! ## Configuration types (packages `v1alpha1`, `types`, `cluster`, `providers`, `git`) -/

namespace v1alpha1

/-- The fields of `v1alpha1.Github` the client reads. -/
structure Github where
  Owner : String
  Repository : String
  FluxSystemNamespace : String
  Branch : String
  ClusterConfigPath : String
  Personal : Bool
deriving DecidableEq, Repr

/-- The type `v1alpha1.Flux`. -/
structure Flux where
  Github : Github
deriving DecidableEq, Repr

/-- The type `v1alpha1.GitOpsConfigSpec`. -/
structure GitOpsConfigSpec where
  Flux : Flux
deriving DecidableEq, Repr

/-- The type `v1alpha1.GitOpsConfig`. -/
structure GitOpsConfig where
  Spec : GitOpsConfigSpec
deriving DecidableEq, Repr

/-- Modelled from the spec: the type `v1alpha1.Cluster` and its methods `IsSelfManaged` and
`IsManaged` are not among the sources.  A self-managed cluster manages its own lifecycle, a
managed one is managed by a separate management cluster; the flag is kept as a field. -/
structure Cluster where
  Name : String
  selfManaged : Bool
deriving DecidableEq, Repr

/-- The method `GetName` of a cluster object. -/
def Cluster.GetName (c : Cluster) : String := c.Name

/-- The method `IsSelfManaged`. -/
def Cluster.IsSelfManaged (c : Cluster) : Bool := c.selfManaged

/-- The method `IsManaged`: the cluster is not self-managed. -/
def Cluster.IsManaged (c : Cluster) : Bool := !c.IsSelfManaged

end v1alpha1

namespace types

/-- The type `types.Cluster`: the handle of a running cluster. -/
structure Cluster where
  Name : String
  KubeconfigFile : String
  ExistingManagement : Bool
deriving DecidableEq, Repr

end types

/-- The images of the Flux controllers in a versions bundle, each as the text its
`VersionedImage()` gives. -/
structure FluxBundle where
  SourceController : String
  KustomizeController : String
  HelmController : String
  NotificationController : String
deriving DecidableEq, Repr

/-- The part of `cluster.VersionsBundle` the client reads. -/
structure VersionsBundle where
  Flux : FluxBundle
deriving DecidableEq, Repr

/-- The part of `cluster.Spec` the client reads.  `GitOpsConfig` is a pointer that is nil when
no GitOps target is configured. -/
structure ClusterSpec where
  Cluster : v1alpha1.Cluster
  GitOpsConfig : Option v1alpha1.GitOpsConfig
  VersionsBundle : VersionsBundle
deriving DecidableEq, Repr

namespace providers

/-- A `providers.DatacenterConfig`, known by its name only. -/
structure DatacenterConfig where
  Name : String
deriving DecidableEq, Repr

/-- A `providers.MachineConfig`, known by its name only. -/
structure MachineConfig where
  Name : String
deriving DecidableEq, Repr

end providers

namespace git

/-- The type `git.Repository`. -/
structure Repository where
  Name : String
deriving DecidableEq, Repr

/-- The type `git.CreateRepoOpts`. -/
structure CreateRepoOpts where
  Name : String
  Owner : String
  Description : String
  Personal : Bool
  Privacy : Bool
deriving DecidableEq, Repr

end git

/-- A `filewriter.FileWriter`, known by the directory its method `Dir()` gives. -/
structure FileWriter where
  dir : String
deriving DecidableEq, Repr

/-- The method `Dir()` of a file writer. -/
def FileWriter.Dir (w : FileWriter) : String := w.dir

/-! ## Calls on the collaborators -/

/-- A call on a collaborator, with its arguments (the context argument is left out). -/
inductive Call where
  -- git.Provider
  | GetRepo
  | Clone
  | CreateRepo (opts : git.CreateRepoOpts)
  | Init
  | Commit (msg : String)
  | Branch (name : String)
  | Add (filename : String)
  | Push
  | Pull (branch : String)
  | Remove (filename : String)
  | PathExists (owner repo branch path : String)
  | Validate
  -- git provider factory
  | BuildProvider (spec : v1alpha1.GitOpsConfigSpec) (repositoryDirectory : String)
  -- filewriter.FileWriter
  | WithDir (w : FileWriter) (dir : String)
  | CleanUpTemp (w : FileWriter)
  | Write (w : FileWriter) (fileName : String) (content : String)
  -- templater.Templater
  | WriteToFile (w : FileWriter) (templateContent : String) (values : List (String × String))
      (fileName : String)
  -- clustermarshaller
  | MarshalClusterSpec (clusterSpec : ClusterSpec) (datacenterConfig : Option providers.DatacenterConfig)
      (machineConfigs : List providers.MachineConfig)
  -- validations.FileExists
  | FileExists (path : String)
  -- Flux
  | BootstrapToolkitsComponents (cluster : types.Cluster) (gitOpsConfig : Option v1alpha1.GitOpsConfig)
  | UninstallToolkitsComponents (cluster : types.Cluster) (gitOpsConfig : Option v1alpha1.GitOpsConfig)
  | PauseKustomization (cluster : types.Cluster) (gitOpsConfig : Option v1alpha1.GitOpsConfig)
  | ResumeKustomization (cluster : types.Cluster) (gitOpsConfig : Option v1alpha1.GitOpsConfig)
  | ForceReconcileGitRepo (cluster : types.Cluster) (ns : String)
deriving DecidableEq, Repr

/-- What a collaborator hands back.  A call reads the parts its Go signature has: `err` for
the error, `repo` for the repository of `GetRepo`, `found` for the boolean of `PathExists`
and `FileExists`, `writer` for the writer of `WithDir`, `text` for the file path of a write
and for the bytes of the marshaller. -/
structure Reply where
  err : Error
  repo : Option git.Repository
  found : Bool
  writer : Option FileWriter
  text : String
deriving DecidableEq, Repr

/-- A call that was made, with the answer it got. -/
structure Event where
  call : Call
  reply : Reply
deriving DecidableEq, Repr

/-- The collaborators: the answer to a call, given the calls made before it. -/
abbrev Env := List Event → Call → Reply

/-- How a computation ends: it returns a value, or it panics (nil pointer dereference). -/
inductive Outcome (α : Type) where
  | ret (a : α)
  | panics
deriving DecidableEq, Repr

/-- A computation: run against the collaborators and the history of calls, it gives its outcome
and the calls it made itself, oldest first. -/
def M (α : Type) : Type := Env → List Event → Outcome α × List Event

/-- A computation that returns a value and calls nothing. -/
def M.pure {α : Type} (a : α) : M α := fun _ _ => (.ret a, [])

/-- Sequencing: the second computation sees the calls of the first in its history; a panic
ends the run. -/
def M.bind {α β : Type} (m : M α) (f : α → M β) : M β := fun env t =>
  match m env t with
  | (.ret a, es) =>
    match f a env (t ++ es) with
    | (o, es') => (o, es ++ es')
  | (.panics, es) => (.panics, es)

instance : Monad M where
  pure := M.pure
  bind := M.bind

/-- A call on a collaborator. -/
def call (c : Call) : M Reply := fun env t => (.ret (env t c), [⟨c, env t c⟩])

/-- A call on a collaborator whose Go signature returns an error only. -/
def callErr (c : Call) : M Error := fun env t => (.ret (env t c).err, [⟨c, env t c⟩])

/-- A run-time panic. -/
def throwPanic {α : Type} : M α := fun _ _ => (.panics, [])

/-- Dereferencing a pointer: a nil pointer panics. -/
def deref {α : Type} : Option α → M α
  | some a => M.pure a
  | none => throwPanic

/-! ## Retry policy (package `retrier`) -/

namespace retrier

/-- Modelled from the spec: the package `retrier` (`Retrier`, `NewWithMaxRetries`, `Retry`) is
not among the sources.  A retry policy is an immutable value: the maximum attempt count and
the fixed delay between attempts (in seconds). -/
structure Retrier where
  maxAttempts : Nat
  delay : Nat
deriving DecidableEq, Repr

/-- Modelled from the spec: `retrier.NewWithMaxRetries` is not among the sources; it builds the
policy with the given maximum attempt count and delay. -/
def NewWithMaxRetries (maxRetries : Nat) (backOffPeriod : Nat) : Retrier :=
  { maxAttempts := maxRetries, delay := backOffPeriod }

/-- Modelled from the spec: the loop of `Retrier.Retry`, not among the sources.  The operation
is invoked up to the given number of times; the first success is returned immediately; when
the attempts are exhausted the last observed failure is returned.  The operation is a Go
closure: next to its error it gives the value it leaves in the variables it captures. -/
def retryLoop {α : Type} (fn : M (α × Error)) : Nat → α × Error → M (α × Error)
  | 0, last => M.pure last
  | n + 1, _ =>
    M.bind fn fun res =>
      match res.2 with
      | none => M.pure res
      | some _ => retryLoop fn n res

/-- Modelled from the spec: `Retrier.Retry` for a closure that assigns a captured variable
(whose value before the first attempt is `init`). -/
def Retrier.RetryCapturing {α : Type} (r : Retrier) (init : α) (fn : M (α × Error)) :
    M (α × Error) :=
  retryLoop fn r.maxAttempts (init, none)

/-- Modelled from the spec: `Retrier.Retry` for a closure that only returns an error. -/
def Retrier.Retry (r : Retrier) (fn : M Error) : M Error :=
  M.bind (r.RetryCapturing () (M.bind fn fun e => M.pure ((), e))) fun res => M.pure res.2

end retrier

/-! ## The client -/

/-- The constant `maxRetries`. -/
def maxRetries : Nat := 5

/-- The constant `backOffPeriod`, in seconds. -/
def backOffPeriod : Nat := 5

/-- The constant `defaultRemote`. -/
def defaultRemote : String := "origin"

/-- The constant `eksaSystemDirName`. -/
def eksaSystemDirName : String := "eksa-system"

/-- The constant `kustomizeFileName`. -/
def kustomizeFileName : String := "kustomization.yaml"

/-- The constant `clusterConfigFileName`. -/
def clusterConfigFileName : String := "eksa-cluster.yaml"

/-- The constant `fluxSyncFileName`. -/
def fluxSyncFileName : String := "gotk-sync.yaml"

/-- The constant `fluxPatchFileName`. -/
def fluxPatchFileName : String := "gotk-patches.yaml"

/-- The constant `initialClusterconfigCommitMessage`. -/
def initialClusterconfigCommitMessage : String :=
  "Initial commit of cluster configuration; generated by EKS-A CLI"

/-- The constant `updateClusterconfigCommitMessage`. -/
def updateClusterconfigCommitMessage : String :=
  "Update commit of cluster configuration; generated by EKS-A CLI"

/-- The constant `deleteClusterconfigCommitMessage`. -/
def deleteClusterconfigCommitMessage : String :=
  "Delete commit of cluster configuration; generated by EKS-A CLI"

/-- The embedded template `manifests/eksa-system/kustomization.yaml`; the file is not among the
sources and is named by its path. -/
def eksaKustomizeContent : String := "manifests/eksa-system/kustomization.yaml"

/-- The embedded template `manifests/flux-system/kustomization.yaml`, named by its path. -/
def fluxKustomizeContent : String := "manifests/flux-system/kustomization.yaml"

/-- The embedded template `manifests/flux-system/gotk-sync.yaml`, named by its path. -/
def fluxSyncContent : String := "manifests/flux-system/gotk-sync.yaml"

/-- The embedded template `manifests/flux-system/gotk-patches.yaml`, named by its path. -/
def fluxPatchContent : String := "manifests/flux-system/gotk-patches.yaml"

/-- The type `GitOptions`.  The field `Git` is a collaborator and lives in the environment. -/
structure GitOptions where
  Writer : FileWriter
deriving DecidableEq, Repr

/-- The type `FluxAddonClient`.  The field `flux` is a collaborator and lives in the
environment; `gitOpts` is a pointer, nil when GitOps is not configured. -/
structure FluxAddonClient where
  gitOpts : Option GitOptions
  retrier : retrier.Retrier
deriving DecidableEq, Repr

/-- The function `NewGitOptions`.  `filepath.Join` is taken with the slash as separator, and
the construction of the git provider by the factory is one call on the collaborators. -/
def NewGitOptions (cluster : v1alpha1.Cluster) (gitOpsConfig : Option v1alpha1.GitOpsConfig)
    (writer : FileWriter) : M (Option GitOptions × Error) :=
  match gitOpsConfig with
  | none => M.pure (none, none)
  | some cfg =>
    let localGitRepoPath := path.Join [cluster.Name, "git", cfg.Spec.Flux.Github.Repository]
    M.bind (call (.BuildProvider cfg.Spec localGitRepoPath)) fun built =>
    match built.err with
    | some err => M.pure (none, some (.formats "error creating Git provider: " err))
    | none =>
      M.bind (callErr .Validate) fun err =>
      match err with
      | some err => M.pure (none, some err)
      | none =>
        let localGitWriterPath := path.Join ["git", cfg.Spec.Flux.Github.Repository]
        M.bind (call (.WithDir writer localGitWriterPath)) fun made =>
        match made.err with
        | some err => M.pure (none, some (.formats "error creating file writer: " err))
        | none =>
          M.bind (deref made.writer) fun gitwriter =>
          M.bind (call (.CleanUpTemp gitwriter)) fun _ =>
          M.pure (some { Writer := gitwriter }, none)

/-- The function `NewFluxAddonClient`. -/
def NewFluxAddonClient (gitOpts : Option GitOptions) : FluxAddonClient :=
  { gitOpts := gitOpts, retrier := retrier.NewWithMaxRetries maxRetries backOffPeriod }

/-- The method `SetRetier`. -/
def FluxAddonClient.SetRetier (f : FluxAddonClient) (retrier : retrier.Retrier) : FluxAddonClient :=
  { f with retrier := retrier }

/-- The method `shouldSkipFlux`. -/
def FluxAddonClient.shouldSkipFlux (f : FluxAddonClient) : Bool := f.gitOpts.isNone

/-- A call of a method of `f.gitOpts.Git` that returns an error only: `f.gitOpts` is
dereferenced first. -/
def FluxAddonClient.Git (f : FluxAddonClient) (c : Call) : M Error :=
  M.bind (deref f.gitOpts) fun _ => callErr c

/-- The expression `f.gitOpts.Writer`. -/
def FluxAddonClient.Writer (f : FluxAddonClient) : M FileWriter :=
  M.bind (deref f.gitOpts) fun g => M.pure g.Writer

/-- The method `pushToRemoteRepo`. -/
def FluxAddonClient.pushToRemoteRepo (f : FluxAddonClient) (path msg : String) : M Error :=
  M.bind (f.Git (.Commit msg)) fun err =>
  match err with
  | some err =>
    M.pure (some (.ConfigVersionControlFailedError
      (.formats ("error when committing " ++ path ++ " to git:  ") err)))
  | none =>
    M.bind (f.retrier.Retry (f.Git .Push)) fun err =>
    match err with
    | some err =>
      M.pure (some (.ConfigVersionControlFailedError
        (.formats ("error when pushing " ++ path ++ " to git: ") err)))
    | none => M.pure none

/-- The type `fluxForCluster`: the client with the per-call fields. -/
structure fluxForCluster where
  FluxAddonClient : FluxAddonClient
  clusterSpec : ClusterSpec
  datacenterConfig : Option providers.DatacenterConfig
  machineConfigs : List providers.MachineConfig
deriving DecidableEq, Repr

/-- The expression `fc.clusterSpec.GitOpsConfig.Spec.Flux.Github`, which dereferences the
pointer `GitOpsConfig`. -/
def fluxForCluster.github (fc : fluxForCluster) : M v1alpha1.Github :=
  M.bind (deref fc.clusterSpec.GitOpsConfig) fun cfg => M.pure cfg.Spec.Flux.Github

/-- The method `namespace`. -/
def fluxForCluster.namespace (fc : fluxForCluster) : M String :=
  M.bind fc.github fun g => M.pure g.FluxSystemNamespace

/-- The method `repository`. -/
def fluxForCluster.repository (fc : fluxForCluster) : M String :=
  M.bind fc.github fun g => M.pure g.Repository

/-- The method `owner`. -/
def fluxForCluster.owner (fc : fluxForCluster) : M String :=
  M.bind fc.github fun g => M.pure g.Owner

/-- The method `branch`. -/
def fluxForCluster.branch (fc : fluxForCluster) : M String :=
  M.bind fc.github fun g => M.pure g.Branch

/-- The method `personal`. -/
def fluxForCluster.personal (fc : fluxForCluster) : M Bool :=
  M.bind fc.github fun g => M.pure g.Personal

/-- The method `path`. -/
def fluxForCluster.path (fc : fluxForCluster) : M String :=
  M.bind fc.github fun g => M.pure g.ClusterConfigPath

/-- The method `eksaSystemDir`. -/
def fluxForCluster.eksaSystemDir (fc : fluxForCluster) : M String :=
  M.bind fc.path fun p =>
  M.pure (path.Join [p, fc.clusterSpec.Cluster.GetName, eksaSystemDirName])

/-- The method `fluxSystemDir`. -/
def fluxForCluster.fluxSystemDir (fc : fluxForCluster) : M String :=
  M.bind fc.path fun p =>
  M.bind fc.namespace fun ns =>
  M.pure (path.Join [p, ns])

/-- The first statement of `clone`: `GetRepo` under the retry policy.  The closure assigns the
captured variable `r`, which ends up holding the repository of the last attempt. -/
def fluxForCluster.describeRepo (fc : fluxForCluster) : M (Option git.Repository × Error) :=
  fc.FluxAddonClient.retrier.RetryCapturing none
    (M.bind (deref fc.FluxAddonClient.gitOpts) fun _ =>
     M.bind (call .GetRepo) fun got => M.pure (got.repo, got.err))

/-- The method `clone`. -/
def fluxForCluster.clone (fc : fluxForCluster) : M (Option git.Repository × Error) :=
  M.bind fc.describeRepo fun probe =>
  match probe.2 with
  | some err => M.pure (none, some (.wraps "failed to describe repo: " err))
  | none =>
    match probe.1 with
    | some r =>
      M.bind (fc.FluxAddonClient.retrier.Retry (fc.FluxAddonClient.Git .Clone)) fun err =>
      match err with
      | some err => M.pure (none, some err)
      | none =>
        M.bind (deref fc.FluxAddonClient.gitOpts) fun _ =>
        M.bind fc.branch fun b =>
        M.bind (callErr (.Branch b)) fun err =>
        match err with
        | some err => M.pure (none, some err)
        | none => M.pure (some r, none)
    | none => M.pure (none, none)

/-- The method `createRemoteRepository`. -/
def fluxForCluster.createRemoteRepository (fc : fluxForCluster) : M Error :=
  M.bind fc.repository fun n =>
  M.bind fc.owner fun o =>
  M.bind fc.personal fun p =>
  let d := "EKS-A cluster configuration repository"
  let opts : git.CreateRepoOpts :=
    { Name := n, Owner := o, Description := d, Personal := p, Privacy := true }
  M.bind (fc.FluxAddonClient.retrier.Retry (fc.FluxAddonClient.Git (.CreateRepo opts))) fun err =>
  match err with
  | some err => M.pure (some (.wraps "could not create repo: " err))
  | none => M.pure none

/-- The method `initializeLocalRepository`. -/
def fluxForCluster.initializeLocalRepository (fc : fluxForCluster) : M Error :=
  M.bind (fc.FluxAddonClient.Git .Init) fun err =>
  match err with
  | some err => M.pure (some (.wraps "could not initialize repo: " err))
  | none =>
    M.bind (fc.FluxAddonClient.Git (.Commit "initializing repository")) fun err =>
    match err with
    | some err => M.pure (some (.formats "error when initializing repository: " err))
    | none =>
      M.bind (deref fc.FluxAddonClient.gitOpts) fun _ =>
      M.bind fc.branch fun b =>
      M.bind (callErr (.Branch b)) fun err =>
      match err with
      | some err => M.pure (some (.formats "error when creating branch: " err))
      | none => M.pure none

/-- The method `setupRepository`. -/
def fluxForCluster.setupRepository (fc : fluxForCluster) : M Error :=
  M.bind fc.clone fun cloned =>
  match cloned.2 with
  | some err =>
    if err.asRepositoryIsEmptyError then
      M.bind fc.initializeLocalRepository fun err =>
      match err with
      | some err => M.pure (some (.ConfigVersionControlFailedError err))
      | none => M.pure none
    else M.pure (some (.ConfigVersionControlFailedError err))
  | none =>
    match cloned.1 with
    | none =>
      M.bind fc.createRemoteRepository fun err =>
      match err with
      | some err => M.pure (some (.ConfigVersionControlFailedError err))
      | none =>
        M.bind fc.initializeLocalRepository fun err =>
        match err with
        | some err => M.pure (some (.ConfigVersionControlFailedError err))
        | none => M.pure none
    | some _ => M.pure none

/-- The method `validateLocalConfigPathDoesNotExist`. -/
def fluxForCluster.validateLocalConfigPathDoesNotExist (fc : fluxForCluster) : M Error :=
  if fc.clusterSpec.Cluster.IsSelfManaged then
    M.bind fc.FluxAddonClient.Writer fun w =>
    M.bind fc.path fun cfgPath =>
    let p := path.Join [w.Dir, cfgPath]
    M.bind (call (.FileExists p)) fun r =>
    if r.found then
      M.pure (some (.Errorf ("a cluster configuration file already exists at path " ++ p)))
    else M.pure none
  else M.pure none

/-- The method `validateRemoteConfigPathDoesNotExist`. -/
def fluxForCluster.validateRemoteConfigPathDoesNotExist (fc : fluxForCluster) : M Error :=
  if fc.clusterSpec.Cluster.IsSelfManaged then
    M.bind (deref fc.FluxAddonClient.gitOpts) fun _ =>
    M.bind fc.owner fun o =>
    M.bind fc.repository fun n =>
    M.bind fc.branch fun b =>
    M.bind fc.path fun p =>
    M.bind (call (.PathExists o n b p)) fun r =>
    match r.err with
    | some err => M.pure (some (.formats "failed validating remote flux config path: " err))
    | none =>
      if r.found then
        M.bind fc.path fun p' =>
        M.pure (some (.Errorf ("flux path " ++ p' ++ " already exists in remote repository")))
      else M.pure none
  else M.pure none

/-- The method `initEksaWriter`.  `CleanUpTemp` is called on the writer `WithDir` gave back
whether or not `WithDir` failed; on a nil writer that call panics. -/
def fluxForCluster.initEksaWriter (fc : fluxForCluster) : M (FileWriter × Error) :=
  M.bind fc.eksaSystemDir fun eksaSystemDir =>
  M.bind fc.FluxAddonClient.Writer fun parent =>
  M.bind (call (.WithDir parent eksaSystemDir)) fun made =>
  let err : Error :=
    match made.err with
    | some err => some (.formats ("error creating " ++ eksaSystemDir ++ " directory: ") err)
    | none => none
  M.bind (deref made.writer) fun w =>
  M.bind (call (.CleanUpTemp w)) fun _ =>
  M.pure (w, err)

/-- The method `generateClusterConfigFile`. -/
def fluxForCluster.generateClusterConfigFile (fc : fluxForCluster) (w : FileWriter) : M Error :=
  M.bind (call (.MarshalClusterSpec fc.clusterSpec fc.datacenterConfig fc.machineConfigs))
    fun marshalled =>
  match marshalled.err with
  | some err => M.pure (some err)
  | none =>
    M.bind (call (.Write w clusterConfigFileName marshalled.text)) fun written =>
    match written.err with
    | some err =>
      M.pure (some (.formats
        ("error writing eks-a cluster config file into " ++ written.text ++ ": ") err))
    | none => M.pure none

/-- The method `generateEksaKustomizeFile`. -/
def fluxForCluster.generateEksaKustomizeFile (_fc : fluxForCluster) (w : FileWriter) : M Error :=
  let values := [("ConfigFileName", clusterConfigFileName)]
  M.bind (call (.WriteToFile w eksaKustomizeContent values kustomizeFileName)) fun written =>
  match written.err with
  | some err =>
    M.pure (some (.formats
      ("error writing eks-a kustomization manifest file into " ++ written.text ++ ": ") err))
  | none => M.pure none

/-- The method `writeEksaSystemFiles`. -/
def fluxForCluster.writeEksaSystemFiles (fc : fluxForCluster) : M Error :=
  M.bind fc.initEksaWriter fun made =>
  match made.2 with
  | some err => M.pure (some err)
  | none =>
    M.bind (fc.generateClusterConfigFile made.1) fun err =>
    match err with
    | some err => M.pure (some err)
    | none => fc.generateEksaKustomizeFile made.1

/-- The method `initFluxWriter`. -/
def fluxForCluster.initFluxWriter (fc : fluxForCluster) : M (FileWriter × Error) :=
  M.bind fc.FluxAddonClient.Writer fun parent =>
  M.bind fc.fluxSystemDir fun dir =>
  M.bind (call (.WithDir parent dir)) fun made =>
  M.bind
    (match made.err with
     | some err =>
       M.bind fc.fluxSystemDir fun dir' =>
       M.pure (some (GoError.formats ("error creating " ++ dir' ++ " directory: ") err))
     | none => M.pure none) fun err =>
  M.bind (deref made.writer) fun w =>
  M.bind (call (.CleanUpTemp w)) fun _ =>
  M.pure (w, err)

/-- The method `generateFluxKustomizeFile`. -/
def fluxForCluster.generateFluxKustomizeFile (fc : fluxForCluster) (w : FileWriter) : M Error :=
  M.bind fc.namespace fun ns =>
  let values := [("Namespace", ns)]
  M.bind (call (.WriteToFile w fluxKustomizeContent values kustomizeFileName)) fun written =>
  match written.err with
  | some err =>
    M.pure (some (.formats
      ("error creating flux-system kustomization manifest file into " ++ written.text ++ ": ") err))
  | none => M.pure none

/-- The method `generateFluxSyncFile`. -/
def FluxAddonClient.generateFluxSyncFile (_f : FluxAddonClient) (w : FileWriter) : M Error :=
  M.bind (call (.WriteToFile w fluxSyncContent [] fluxSyncFileName)) fun written =>
  match written.err with
  | some err =>
    M.pure (some (.formats
      ("error creating flux-system sync manifest file into " ++ written.text ++ ": ") err))
  | none => M.pure none

/-- The method `generateFluxPatchFile`. -/
def fluxForCluster.generateFluxPatchFile (fc : fluxForCluster) (w : FileWriter) : M Error :=
  let bundle := fc.clusterSpec.VersionsBundle
  M.bind fc.namespace fun ns =>
  let values := [
    ("Namespace", ns),
    ("SourceControllerImage", bundle.Flux.SourceController),
    ("KustomizeControllerImage", bundle.Flux.KustomizeController),
    ("HelmControllerImage", bundle.Flux.HelmController),
    ("NotificationControllerImage", bundle.Flux.NotificationController)]
  M.bind (call (.WriteToFile w fluxPatchContent values fluxPatchFileName)) fun written =>
  match written.err with
  | some err =>
    M.pure (some (.formats
      ("error creating flux-system patch manifest file into " ++ written.text ++ ": ") err))
  | none => M.pure none

/-- The method `writeFluxSystemFiles`. -/
def fluxForCluster.writeFluxSystemFiles (fc : fluxForCluster) : M Error :=
  M.bind fc.initFluxWriter fun made =>
  match made.2 with
  | some err => M.pure (some err)
  | none =>
    M.bind (fc.generateFluxKustomizeFile made.1) fun err =>
    match err with
    | some err => M.pure (some err)
    | none =>
      M.bind (fc.FluxAddonClient.generateFluxSyncFile made.1) fun err =>
      match err with
      | some err => M.pure (some err)
      | none =>
        M.bind (fc.generateFluxPatchFile made.1) fun err =>
        match err with
        | some err => M.pure (some err)
        | none => M.pure none

/-- The method `commitFluxAndClusterConfigToGit`. -/
def fluxForCluster.commitFluxAndClusterConfigToGit (fc : fluxForCluster) : M Error :=
  let config := fc.clusterSpec.GitOpsConfig
  M.bind (deref config) fun cfg =>
  M.bind fc.setupRepository fun err =>
  match err with
  | some err => M.pure (some err)
  | none =>
    M.bind fc.validateLocalConfigPathDoesNotExist fun err =>
    match err with
    | some err => M.pure (some (.ConfigVersionControlFailedError err))
    | none =>
      M.bind fc.writeEksaSystemFiles fun err =>
      match err with
      | some err => M.pure (some (.ConfigVersionControlFailedError err))
      | none =>
        M.bind
          (if fc.clusterSpec.Cluster.IsSelfManaged then fc.writeFluxSystemFiles
           else M.pure none) fun err =>
        match err with
        | some err => M.pure (some (.ConfigVersionControlFailedError err))
        | none =>
          let p := path.Dir cfg.Spec.Flux.Github.ClusterConfigPath
          M.bind (fc.FluxAddonClient.Git (.Add p)) fun err =>
          match err with
          | some err =>
            M.pure (some (.ConfigVersionControlFailedError
              (.formats ("error when adding " ++ p ++ " to git: ") err)))
          | none => fc.FluxAddonClient.pushToRemoteRepo p initialClusterconfigCommitMessage

/-- The method `syncGitRepo`. -/
def fluxForCluster.syncGitRepo (fc : fluxForCluster) : M Error :=
  let f := fc.FluxAddonClient
  M.bind f.Writer fun w =>
  M.bind (call (.FileExists (path.Join [w.Dir, ".git"]))) fun r =>
  if !r.found then
    M.bind fc.clone fun cloned =>
    match cloned.2 with
    | some err => M.pure (some (.formats "failed cloning git repo: " err))
    | none =>
      match cloned.1 with
      | none =>
        M.bind fc.repository fun n =>
        M.pure (some (.Errorf ("failed to find remote git repo: " ++ n)))
      | some _ => M.pure none
  else
    M.bind (deref fc.FluxAddonClient.gitOpts) fun _ =>
    M.bind fc.branch fun b =>
    M.bind (callErr (.Branch b)) fun err =>
    match err with
    | some err =>
      M.bind fc.branch fun b' =>
      M.pure (some (.formats ("failed to switch to git branch " ++ b' ++ ": ") err))
    | none => M.pure none

/-- The method `uninstallGitOpsToolkits`. -/
def FluxAddonClient.uninstallGitOpsToolkits (f : FluxAddonClient) (cluster : types.Cluster)
    (clusterSpec : ClusterSpec) : M Error :=
  f.retrier.Retry (callErr (.UninstallToolkitsComponents cluster clusterSpec.GitOpsConfig))

/-- The method `ForceReconcileGitRepo`. -/
def FluxAddonClient.ForceReconcileGitRepo (f : FluxAddonClient) (cluster : types.Cluster)
    (clusterSpec : ClusterSpec) : M Error :=
  if f.shouldSkipFlux then M.pure none
  else
    let fc : fluxForCluster :=
      { FluxAddonClient := f, clusterSpec := clusterSpec, datacenterConfig := none,
        machineConfigs := [] }
    M.bind fc.namespace fun ns =>
    callErr (.ForceReconcileGitRepo cluster ns)

/-- The method `InstallGitOps`. -/
def FluxAddonClient.InstallGitOps (f : FluxAddonClient) (cluster : types.Cluster)
    (clusterSpec : ClusterSpec) (datacenterConfig : Option providers.DatacenterConfig)
    (machineConfigs : List providers.MachineConfig) : M Error :=
  if f.shouldSkipFlux then M.pure none
  else
    let fc : fluxForCluster :=
      { FluxAddonClient := f, clusterSpec := clusterSpec, datacenterConfig := datacenterConfig,
        machineConfigs := machineConfigs }
    -- the statements after the bootstrap: the pull, whose failure is only logged
    let pull : M Error :=
      M.bind fc.branch fun _ =>
      M.bind (f.retrier.Retry
        (M.bind (deref f.gitOpts) fun _ =>
         M.bind fc.branch fun b => callErr (.Pull b))) fun _ =>
      M.pure none
    M.bind fc.commitFluxAndClusterConfigToGit fun err =>
    match err with
    | some err => M.pure (some err)
    | none =>
      if !cluster.ExistingManagement then
        M.bind (f.retrier.Retry
          (callErr (.BootstrapToolkitsComponents cluster clusterSpec.GitOpsConfig))) fun err =>
        match err with
        | some err =>
          M.bind (f.uninstallGitOpsToolkits cluster clusterSpec) fun _ =>
          M.pure (some err)
        | none => pull
      else pull

/-- The method `PauseGitOpsKustomization`. -/
def FluxAddonClient.PauseGitOpsKustomization (f : FluxAddonClient) (cluster : types.Cluster)
    (clusterSpec : ClusterSpec) : M Error :=
  if f.shouldSkipFlux then M.pure none
  else
    let fc : fluxForCluster :=
      { FluxAddonClient := f, clusterSpec := clusterSpec, datacenterConfig := none,
        machineConfigs := [] }
    M.bind fc.namespace fun _ =>
    f.retrier.Retry (callErr (.PauseKustomization cluster clusterSpec.GitOpsConfig))

/-- The method `ResumeGitOpsKustomization`. -/
def FluxAddonClient.ResumeGitOpsKustomization (f : FluxAddonClient) (cluster : types.Cluster)
    (clusterSpec : ClusterSpec) : M Error :=
  if f.shouldSkipFlux then M.pure none
  else
    let fc : fluxForCluster :=
      { FluxAddonClient := f, clusterSpec := clusterSpec, datacenterConfig := none,
        machineConfigs := [] }
    M.bind fc.namespace fun _ =>
    f.retrier.Retry (callErr (.ResumeKustomization cluster clusterSpec.GitOpsConfig))

/-- The method `UpdateGitEksaSpec`. -/
def FluxAddonClient.UpdateGitEksaSpec (f : FluxAddonClient) (clusterSpec : ClusterSpec)
    (datacenterConfig : Option providers.DatacenterConfig)
    (machineConfigs : List providers.MachineConfig) : M Error :=
  if f.shouldSkipFlux then M.pure none
  else
    let fc : fluxForCluster :=
      { FluxAddonClient := f, clusterSpec := clusterSpec, datacenterConfig := datacenterConfig,
        machineConfigs := machineConfigs }
    M.bind fc.syncGitRepo fun err =>
    match err with
    | some err => M.pure (some err)
    | none =>
      M.bind fc.writeEksaSystemFiles fun err =>
      match err with
      | some err => M.pure (some err)
      | none =>
        M.bind fc.eksaSystemDir fun path =>
        M.bind (f.Git (.Add path)) fun err =>
        match err with
        | some err =>
          M.pure (some (.ConfigVersionControlFailedError
            (.formats ("error when adding " ++ path ++ " to git: ") err)))
        | none =>
          M.bind (f.pushToRemoteRepo path updateClusterconfigCommitMessage) fun err =>
          match err with
          | some err => M.pure (some err)
          | none =>
            M.bind fc.repository fun _ =>
            M.pure none

/-- The type `validations.ValidationResult`. -/
structure ValidationResult where
  Name : String
  Remediation : String
  Err : Error
deriving DecidableEq, Repr

/-- The method `Validations`: the list of validations, each a computation run later by the
caller. -/
def FluxAddonClient.Validations (f : FluxAddonClient) (clusterSpec : ClusterSpec) :
    List (M ValidationResult) :=
  if f.shouldSkipFlux then []
  else
    let fc : fluxForCluster :=
      { FluxAddonClient := f, clusterSpec := clusterSpec, datacenterConfig := none,
        machineConfigs := [] }
    [M.bind fc.validateRemoteConfigPathDoesNotExist fun err =>
      M.pure
        { Name := "Flux path",
          Remediation := "Please provide a different path or different cluster name",
          Err := err }]

/-- The method `CleanupGitRepo`. -/
def FluxAddonClient.CleanupGitRepo (f : FluxAddonClient) (clusterSpec : ClusterSpec) : M Error :=
  if f.shouldSkipFlux then M.pure none
  else
    let fc : fluxForCluster :=
      { FluxAddonClient := f, clusterSpec := clusterSpec, datacenterConfig := none,
        machineConfigs := [] }
    M.bind fc.syncGitRepo fun err =>
    match err with
    | some err => M.pure (some err)
    | none =>
      M.bind
        (if clusterSpec.Cluster.IsManaged then fc.eksaSystemDir else fc.path) fun p =>
      M.bind f.Writer fun w =>
      M.bind (call (.FileExists (path.Join [w.Dir, p]))) fun r =>
      if !r.found then M.pure none
      else
        M.bind (f.Git (.Remove p)) fun err =>
        match err with
        | some err =>
          M.pure (some (.ConfigVersionControlFailedError
            (.formats ("error when removing " ++ p ++ " in git: ") err)))
        | none =>
          M.bind (f.pushToRemoteRepo p deleteClusterconfigCommitMessage) fun err =>
          match err with
          | some err => M.pure (some err)
          | none =>
            M.bind fc.repository fun _ =>
            M.pure none

/-! ## Vocabulary for the properties -/

/-- Every call a computation makes, in every run, satisfies `P`. -/
@[irreducible] def Emits {α : Type} (P : Call → Prop) (m : M α) : Prop :=
  ∀ env t, ∀ e ∈ (m env t).2, P e.call

/-- The error of the last of a list of attempts (nil when there was no attempt). -/
def lastErr (es : List Event) : Error := es.getLast?.bind (fun e => e.reply.err)

/-- A call of `CreateRepo`. -/
def Call.isCreateRepo : Call → Bool
  | .CreateRepo _ => true
  | _ => false

/-- A call of `Commit`. -/
def Call.isCommit : Call → Bool
  | .Commit _ => true
  | _ => false

/-- A call of `Add`. -/
def Call.isAdd : Call → Bool
  | .Add _ => true
  | _ => false

/-- A call of `Pull`. -/
def Call.isPull : Call → Bool
  | .Pull _ => true
  | _ => false

/-- A write of a file, by the file writer or through the templater. -/
def Call.isWrite : Call → Bool
  | .Write _ _ _ => true
  | .WriteToFile _ _ _ _ => true
  | _ => false

/-- A call of `BootstrapToolkitsComponents`. -/
def Call.isBootstrap : Call → Bool
  | .BootstrapToolkitsComponents _ _ => true
  | _ => false

/-- A call of `UninstallToolkitsComponents`. -/
def Call.isUninstall : Call → Bool
  | .UninstallToolkitsComponents _ _ => true
  | _ => false

/-- The calls `setupRepository` can make: the probe, the clone, the creation of the remote
repository and the three steps of the local initialisation. -/
def Call.isSetup : Call → Bool
  | .GetRepo => true
  | .Clone => true
  | .CreateRepo _ => true
  | .Init => true
  | .Commit msg => msg == "initializing repository"
  | .Branch _ => true
  | _ => false

/-- A reply without error and without payload. -/
def okReply : Reply := { err := none, repo := none, found := false, writer := none, text := "" }

/-- A reply that carries an error. -/
def failReply (msg : String) : Reply := { okReply with err := some (.external msg) }

/-- Collaborators that always succeed; the probe reports the repository absent and `WithDir`
gives a writer for the sub-directory. -/
def envAbsent : Env := fun _ c =>
  match c with
  | .WithDir w dir => { okReply with writer := some { dir := path.Join [w.dir, dir] } }
  | _ => okReply

/-- Collaborators as in `envAbsent`, with a repository that is present. -/
def envPresent : Env := fun t c =>
  match c with
  | .GetRepo => { okReply with repo := some { Name := "fleet" } }
  | _ => envAbsent t c

/-- A configuration: owner `acme`, repository `fleet`, branch `main`, path `clusters`. -/
def sampleConfig : v1alpha1.GitOpsConfig :=
  { Spec := { Flux := { Github :=
      { Owner := "acme", Repository := "fleet", FluxSystemNamespace := "flux-system",
        Branch := "main", ClusterConfigPath := "clusters", Personal := false } } } }

/-- A self-managed cluster `prod1` with the sample configuration. -/
def sampleSpec : ClusterSpec :=
  { Cluster := { Name := "prod1", selfManaged := true },
    GitOpsConfig := some sampleConfig,
    VersionsBundle := { Flux :=
      { SourceController := "source:v1", KustomizeController := "kustomize:v1",
        HelmController := "helm:v1", NotificationController := "notification:v1" } } }

/-- A handle of the cluster `prod1`, which is not part of an existing management cluster. -/
def sampleCluster : types.Cluster :=
  { Name := "prod1", KubeconfigFile := "prod1.kubeconfig", ExistingManagement := false }

/-- The git options of a configured client. -/
def sampleGitOpts : GitOptions := { Writer := { dir := "prod1/git/fleet" } }

/-- A configured client, as `NewFluxAddonClient` builds it. -/
def sampleClient : FluxAddonClient := NewFluxAddonClient (some sampleGitOpts)

/-- Collaborators as in `envAbsent`, except that the first attempt of `CreateRepo` fails. -/
def envCreateFailsOnce : Env := fun t c =>
  match c with
  | .CreateRepo _ =>
    if t.any (fun e => e.call.isCreateRepo) then okReply else failReply "remote not reachable"
  | _ => envAbsent t c

/-- The calls of the branch of `setupRepository` that clones: the probe, the clone and the
checkout of the branch. -/
def Call.isCloneStep : Call → Bool
  | .GetRepo => true
  | .Clone => true
  | .Branch _ => true
  | _ => false

/-- The calls `commitFluxAndClusterConfigToGit` can make once the repository is set up: the
check of the local path, the writing of the manifests, and the staging, commit and push of the
cluster files. -/
def Call.isPublish : Call → Bool
  | .FileExists _ => true
  | .WithDir _ _ => true
  | .CleanUpTemp _ => true
  | .MarshalClusterSpec _ _ _ => true
  | .Write _ _ _ => true
  | .WriteToFile _ _ _ _ => true
  | .Add _ => true
  | .Commit msg => msg == initialClusterconfigCommitMessage
  | .Push => true
  | _ => false

/-- The calls `InstallGitOps` can make after the commit-and-push phase. -/
def Call.isToolkit : Call → Bool
  | .BootstrapToolkitsComponents _ _ => true
  | .UninstallToolkitsComponents _ _ => true
  | .Pull _ => true
  | _ => false

/-- Collaborators as in `envAbsent`, for a remote repository that exists and is empty:
`GetRepo` gives the repository and every attempt of `Clone` fails with a
`RepositoryIsEmptyError`. -/
def envEmpty : Env := fun t c =>
  match c with
  | .GetRepo => { okReply with repo := some { Name := "fleet" } }
  | .Clone => { okReply with err := some (.RepositoryIsEmptyError "repository is empty") }
  | _ => envAbsent t c

/-- Collaborators as in `envAbsent`, except that the first two attempts of `Push` fail. -/
def envPushFailsTwice : Env := fun t c =>
  match c with
  | .Push =>
    if 2 ≤ t.countP (fun e => e.call == .Push) then okReply else failReply "connection reset"
  | _ => envAbsent t c

/-- Collaborators as in `envPresent`, with a local working copy in which every path that is
looked up exists. -/
def envPathTaken : Env := fun t c =>
  match c with
  | .FileExists _ => { okReply with found := true }
  | _ => envPresent t c

/-- Collaborators as in `envAbsent`, with a local directory in which every path that is looked
up exists: the repository is absent from the remote while files are left on disk. -/
def envAbsentPathTaken : Env := fun t c =>
  match c with
  | .FileExists _ => { okReply with found := true }
  | _ => envAbsent t c

/-- Collaborators as in `envPresent`, except that the bootstrap of the toolkit always fails,
and so does its uninstall. -/
def envBootstrapFails : Env := fun t c =>
  match c with
  | .BootstrapToolkitsComponents _ _ => failReply "flux bootstrap failed"
  | .UninstallToolkitsComponents _ _ => failReply "flux uninstall failed"
  | _ => envPresent t c

/-- Collaborators as in `envPresent`, except that every attempt of `Pull` fails. -/
def envPullFails : Env := fun t c =>
  match c with
  | .Pull _ => failReply "could not pull"
  | _ => envPresent t c

/-- The calls of the sample run up to the end of the commit-and-push phase, for collaborators
that answer like `env`. -/
def sampleCommitEvents (env : Env) : List Event :=
  ((fluxForCluster.mk sampleClient sampleSpec none []).commitFluxAndClusterConfigToGit env []).2

/-- A call of `Remove`. -/
def Call.isRemove : Call → Bool
  | .Remove _ => true
  | _ => false

/-- A staging call: `Add` or `Remove`. -/
def Call.isStage (c : Call) : Bool := c.isAdd || c.isRemove

/-- A call that is neither a staging call, nor a `Commit`, nor a `Push`. -/
def Call.isPrepare (c : Call) : Bool := !c.isStage && !c.isCommit && !(c == .Push)

/-- A call that is allowed before the staging of `InstallGitOps`: a call of `isPrepare`, or the
placeholder commit of the local initialisation. -/
def Call.isPrepareInstall (c : Call) : Bool :=
  c.isPrepare || c == .Commit "initializing repository"

/-- What is left of a run from its staging call on, for an operation that stages, commits with
the message `msg` and pushes.  Either the run never reached the staging call; or the staging
call failed, is the last call and the outcome is a `ConfigVersionControlFailedError`; or it
succeeded and the commit with the message `msg` follows, and when that commit failed it is the
last call and the outcome is a `ConfigVersionControlFailedError`.  The calls after the commit
are neither staging calls nor commits. -/
def TailOK (msg : String) (o : Outcome Error) (tail : List Event) : Prop :=
  tail = [] ∨
  ∃ stage : Event, stage.call.isStage = true ∧
    ((stage.reply.err ≠ none ∧ tail = [stage] ∧
        ∃ e, o = .ret (some (.ConfigVersionControlFailedError e))) ∨
     (stage.reply.err = none ∧ ∃ (commit : Event) (more : List Event),
        tail = stage :: commit :: more ∧ commit.call = .Commit msg ∧
        (∀ e ∈ more, e.call.isStage = false ∧ e.call.isCommit = false) ∧
        (commit.reply.err ≠ none →
          more = [] ∧ ∃ e, o = .ret (some (.ConfigVersionControlFailedError e)))))

/-- Every run of the computation makes calls that satisfy `N`, and then a tail as `TailOK`
describes. -/
def Staged (N : Call → Prop) (msg : String) (m : M Error) : Prop :=
  ∀ env t, ∃ pre tail : List Event,
    (m env t).2 = pre ++ tail ∧ (∀ e ∈ pre, N e.call) ∧ TailOK msg (m env t).1 tail

/-- Every failed call `c` of a run of the computation is the last call of that run, and the run
then returns an error that satisfies `Q`. -/
def FailsLast (c : Call) (Q : GoError → Prop) (m : M Error) : Prop :=
  ∀ env t, ∀ e ∈ (m env t).2, e.call = c → e.reply.err ≠ none →
    (∃ err, (m env t).1 = .ret (some err) ∧ Q err) ∧ ∃ pre, (m env t).2 = pre ++ [e]

/-- What the code keeps of the contract on staging, commit and push, read on the outcome `o` and
the calls `es` of a run; `early` are the commits that may precede the staging call.  A staging
call (`Add` or `Remove`) that failed is the last call of the run, the outcome is a
`ConfigVersionControlFailedError`, and the calls before it hold no `Push` and no `Commit` other
than those of `early`.  A `Commit` that failed, whatever its message, is the last call of the
run, the outcome is a `ConfigVersionControlFailedError`, and the calls before it hold no
`Push`. -/
def StagingContract (early : Call → Prop) (o : Outcome Error) (es : List Event) : Prop :=
  (∀ e ∈ es, e.call.isStage = true → e.reply.err ≠ none →
    (∃ err, o = .ret (some (.ConfigVersionControlFailedError err))) ∧
    ∃ pre, es = pre ++ [e] ∧
      ∀ e' ∈ pre, e'.call ≠ .Push ∧ (e'.call.isCommit = true → early e'.call)) ∧
  (∀ e ∈ es, e.call.isCommit = true → e.reply.err ≠ none →
    (∃ err, o = .ret (some (.ConfigVersionControlFailedError err))) ∧
    ∃ pre, es = pre ++ [e] ∧ ∀ e' ∈ pre, e'.call ≠ .Push)

/-- Collaborators as in `envAbsent`, except that every attempt of `Add` fails. -/
def envAddFails : Env := fun t c =>
  match c with
  | .Add _ => failReply "index is locked"
  | _ => envAbsent t c

/-- Collaborators as in `envAbsent`, except that every attempt of `Commit` fails. -/
def envCommitFails : Env := fun t c =>
  match c with
  | .Commit _ => failReply "author identity unknown"
  | _ => envAbsent t c

/-- The cluster `prod1` managed by a separate management cluster, with the sample
configuration. -/
def sampleManagedSpec : ClusterSpec :=
  { sampleSpec with Cluster := { Name := "prod1", selfManaged := false } }

/-- Collaborators for a local working copy that is already cloned and from which the cluster
configuration is gone: only the `.git` directory is found. -/
def envCleaned : Env := fun t c =>
  match c with
  | .FileExists p => { okReply with found := p == "prod1/git/fleet/.git" }
  | _ => envPresent t c

/-- A call of `Init`. -/
def Call.isInit : Call → Bool
  | .Init => true
  | _ => false

/-- A call that only reads: the check of a local path or the probe of the remote repository. -/
def Call.isLookup : Call → Bool
  | .FileExists _ => true
  | .GetRepo => true
  | _ => false

/-- A call of `Branch`. -/
def Call.isBranch : Call → Bool
  | .Branch _ => true
  | _ => false

/-- Collaborators as in `envPresent`, except that the first attempt of `Branch` fails; any later
attempt succeeds. -/
def envBranchFailsOnce : Env := fun t c =>
  match c with
  | .Branch _ =>
    if t.any (fun e => e.call.isBranch) then okReply else failReply "cannot lock ref"
  | _ => envPresent t c

/-- The file a write call produces, with the directory of its writer. -/
def Call.writtenFile : Call → Option String
  | .Write w fileName _ => some (path.Join [w.Dir, fileName])
  | .WriteToFile w _ _ fileName => some (path.Join [w.Dir, fileName])
  | _ => none

/-- A write of one of the three manifests of the flux directory. -/
def Call.isFluxManifest : Call → Bool
  | .WriteToFile _ templateContent _ _ =>
    templateContent == fluxKustomizeContent || templateContent == fluxSyncContent ||
      templateContent == fluxPatchContent
  | _ => false

/-- The options the sample configuration asks for when the remote repository is created. -/
def sampleCreateRepoOpts : git.CreateRepoOpts :=
  { Name := "fleet", Owner := "acme", Description := "EKS-A cluster configuration repository",
    Personal := false, Privacy := true }

end addonclients

namespace cloudstack

/-! # Package `cloudstack`: the validator of the cluster and machine configurations

An embedding of `pkg/providers/cloudstack/validator.go` and `spec.go`.  The objects behind the
pointers the validator receives (the spec, the validator, the machine configurations) live in
a state that every computation threads.  The maps of the spec and of the validator hold
pointers to machine configurations, and the machine configurations are kept apart, by address,
so that a write through a pointer of one map is seen through every pointer to the same object.
The `ProviderCmkClient` is an oracle that answers a call from the calls made so far.  An error
is known by the text `Error()` gives: the validator builds its errors with `fmt.Errorf` and the
verbs `%s` and `%v` only. -/

/-- A Go `error`, known by its message; `none` is the nil error. -/
abbrev Error := Option String

namespace anywherev1

/-- The type `CloudStackResourceRef`; the field `Type` is `ResourceType` here. -/
structure CloudStackResourceRef where
  ResourceType : String
  Value : String
deriving DecidableEq, Repr

/-- The type `Ref`: a reference to a machine configuration. -/
structure Ref where
  Kind : String
  Name : String
deriving DecidableEq, Repr

/-- The type `Endpoint`. -/
structure Endpoint where
  Host : String
deriving DecidableEq, Repr

/-- The type `ControlPlaneConfiguration`, with the fields the validator reads. -/
structure ControlPlaneConfiguration where
  Endpoint : Endpoint
  MachineGroupRef : Option Ref
deriving DecidableEq, Repr

/-- The type `WorkerNodeGroupConfiguration`, with the field the validator reads. -/
structure WorkerNodeGroupConfiguration where
  MachineGroupRef : Option Ref
deriving DecidableEq, Repr

/-- The type `ExternalEtcdConfiguration`, with the field the validator reads. -/
structure ExternalEtcdConfiguration where
  MachineGroupRef : Option Ref
deriving DecidableEq, Repr

/-- The type `ClusterSpec`, with the fields the validator reads. -/
structure ClusterSpec where
  ControlPlaneConfiguration : ControlPlaneConfiguration
  WorkerNodeGroupConfigurations : List WorkerNodeGroupConfiguration
  ExternalEtcdConfiguration : Option ExternalEtcdConfiguration
deriving DecidableEq, Repr

/-- The type `Cluster`: the namespace of the object and its spec. -/
structure Cluster where
  Namespace : String
  Spec : ClusterSpec
deriving DecidableEq, Repr

/-- The type `UserConfiguration`. -/
structure UserConfiguration where
  Name : String
  SshAuthorizedKeys : List String
deriving DecidableEq, Repr

/-- The type `CloudStackMachineConfigSpec`. -/
structure CloudStackMachineConfigSpec where
  Template : CloudStackResourceRef
  ComputeOffering : CloudStackResourceRef
  Users : List UserConfiguration
  AffinityGroupIds : List String
deriving DecidableEq, Repr

/-- The type `CloudStackMachineConfig`. -/
structure CloudStackMachineConfig where
  Name : String
  Namespace : String
  Spec : CloudStackMachineConfigSpec
deriving DecidableEq, Repr

/-- The type `CloudStackDatacenterConfigSpec`. -/
structure CloudStackDatacenterConfigSpec where
  Domain : String
  Zone : CloudStackResourceRef
  Account : String
  Network : CloudStackResourceRef
deriving DecidableEq, Repr

/-- The type `CloudStackDatacenterConfig`. -/
structure CloudStackDatacenterConfig where
  Namespace : String
  Spec : CloudStackDatacenterConfigSpec
deriving DecidableEq, Repr

end anywherev1

namespace cluster

/-- The type `cluster.Spec`, which embeds the `Cluster` object: `Namespace` and `Spec` are
promoted from it. -/
structure Spec where
  Cluster : anywherev1.Cluster
deriving DecidableEq, Repr

/-- The promoted field `Namespace`. -/
def Spec.Namespace (s : Spec) : String := s.Cluster.Namespace

end cluster

/-- A pointer of type `*anywherev1.CloudStackMachineConfig` that is not nil: the address of a
machine configuration.  Two pointers are the same pointer when they hold the same address. -/
abbrev Pointer := Nat

/-- A Go map from names to pointers to machine configurations: the entries in the order the
`range` statement visits them; a nil pointer is `none`. -/
abbrev MachineConfigMap := List (String × Option Pointer)

/-- The index expression `m[key]` of one result: the nil pointer when the key is absent. -/
def MachineConfigMap.index (m : MachineConfigMap) (key : String) : Option Pointer :=
  (m.lookup key).join

set_option linter.dupNamespace false in
/-- The type `Spec`.  The embedded `*cluster.Spec` is taken non-nil, as `NewSpec` needs it. -/
structure Spec where
  Spec : cluster.Spec
  datacenterConfig : Option anywherev1.CloudStackDatacenterConfig
  machineConfigsLookup : MachineConfigMap
deriving DecidableEq, Repr

/-- The type `Validator`, without the client `cmk`, which is the oracle of a run. -/
structure Validator where
  machineConfigs : MachineConfigMap
deriving DecidableEq, Repr

/-- A call of a method of `ProviderCmkClient`. -/
inductive CmkCall where
  | ValidateCloudStackConnection
  | ValidateServiceOfferingPresent (domain : String) (zone : anywherev1.CloudStackResourceRef)
      (account : String) (serviceOffering : anywherev1.CloudStackResourceRef)
  | ValidateTemplatePresent (domain : String) (zone : anywherev1.CloudStackResourceRef)
      (account : String) (template : anywherev1.CloudStackResourceRef)
  | ValidateAffinityGroupsPresent (domain : String) (zone : anywherev1.CloudStackResourceRef)
      (account : String) (affinityGroupIds : List String)
  | ValidateZonePresent (zone : anywherev1.CloudStackResourceRef)
deriving DecidableEq, Repr

/-- A call with the error it returned. -/
structure CmkEvent where
  call : CmkCall
  reply : Error
deriving DecidableEq, Repr

/-- The client `cmk`: it answers a call from the calls made so far. -/
abbrev CmkEnv := List CmkEvent → CmkCall → Error

/-- The objects a run reads and writes: the spec behind the pointer `cloudStackClusterSpec`,
the validator behind the receiver `v`, the machine configuration at each address, and the calls
of the client made so far.  The map of the spec and the map of the validator may hold the same
pointers, as they do when both are built from one map of machine configurations.  The slice
`Users` of a machine configuration is held by value: no two machine configurations share the
array behind it. -/
structure State where
  spec : Spec
  validator : Validator
  objects : Pointer → anywherev1.CloudStackMachineConfig
  calls : List CmkEvent

/-- The result of a run: a returned value, or a run-time panic. -/
inductive Outcome (α : Type) where
  | ret (a : α)
  | panics
deriving DecidableEq, Repr

/-- A computation: from the client and the state to an outcome and the state it leaves. -/
def V (α : Type) : Type := CmkEnv → State → Outcome α × State

/-- Return a value. -/
def V.pure {α : Type} (a : α) : V α := fun _ st => (.ret a, st)

/-- Sequence two computations; a panic ends the run. -/
def V.bind {α β : Type} (m : V α) (f : α → V β) : V β := fun env st =>
  match m env st with
  | (.ret a, st') => f a env st'
  | (.panics, st') => (.panics, st')

/-- A run-time panic. -/
def V.throwPanic {α : Type} : V α := fun _ st => (.panics, st)

/-- The dereference of a pointer: a nil pointer panics. -/
def V.deref {α : Type} : Option α → V α
  | some a => V.pure a
  | none => V.throwPanic

/-- Read the state. -/
def V.get : V State := fun _ st => (.ret st, st)

/-- Write the state. -/
def V.set (st : State) : V Unit := fun _ _ => (.ret (), st)

/-- A call of the client `cmk`. -/
def V.cmk (c : CmkCall) : V Error := fun env st =>
  (.ret (env st.calls c), { st with calls := st.calls ++ [⟨c, env st.calls c⟩] })

/-- The read of the machine configuration behind a pointer. -/
def V.load (p : Pointer) : V anywherev1.CloudStackMachineConfig := fun _ st =>
  (.ret (st.objects p), st)

/-- The write of the machine configuration behind a pointer: every pointer to that address
sees the new value. -/
def V.store (p : Pointer) (machineConfig : anywherev1.CloudStackMachineConfig) : V Unit :=
  fun _ st =>
    (.ret (), { st with objects := fun q => if q = p then machineConfig else st.objects q })

/-! ## The functions of the Go standard library the validator calls

Strings are handled as lists of characters.  The standard library works on bytes; the bytes it
looks for (`:`, `[`, `]`, the sign and the digits) are ASCII, and in UTF-8 no byte of a longer
character is ASCII, so positions and slices by character give the same strings. -/

namespace strings

/-- The function `strings.Contains` on lists of characters. -/
def containsChars (s substr : List Char) : Bool :=
  s.tails.any (fun rest => substr.isPrefixOf rest)

/-- The function `strings.Contains`. -/
def Contains (s substr : String) : Bool := containsChars s.data substr.data

end strings

namespace net

/-- The type `net.AddrError`. -/
structure AddrError where
  Err : String
  Addr : String
deriving DecidableEq, Repr

/-- The method `AddrError.Error`. -/
def AddrError.Error (e : AddrError) : String :=
  if e.Addr ≠ "" then "address " ++ e.Addr ++ ": " ++ e.Err else e.Err

/-- The constant `missingPort` of `SplitHostPort`. -/
def missingPort : String := "missing port in address"

/-- The constant `tooManyColons` of `SplitHostPort`. -/
def tooManyColons : String := "too many colons in address"

/-- The position of the last occurrence of a character (`bytealg.LastIndexByteString`). -/
def lastIndexByte (s : List Char) (c : Char) : Option Nat :=
  match s.reverse.indexOf? c with
  | some r => some (s.length - 1 - r)
  | none => none

/-- The end of `SplitHostPort`, after the host is known: `j` and `k` are the positions from
which no `[`, respectively no `]`, may occur, and the port starts after the colon at `i`. -/
def splitTail (hostport : String) (host : List Char) (i j k : Nat) :
    Except AddrError (String × String) :=
  if (hostport.data.drop j).contains '[' then
    .error { Err := "unexpected '[' in address", Addr := hostport }
  else if (hostport.data.drop k).contains ']' then
    .error { Err := "unexpected ']' in address", Addr := hostport }
  else .ok (String.mk host, String.mk (hostport.data.drop (i + 1)))

/-- The function `net.SplitHostPort`. -/
def SplitHostPort (hostport : String) : Except AddrError (String × String) :=
  let s := hostport.data
  match lastIndexByte s ':' with
  | none => .error { Err := missingPort, Addr := hostport }
  | some i =>
    if s.head? = some '[' then
      match s.indexOf? ']' with
      | none => .error { Err := "missing ']' in address", Addr := hostport }
      | some close =>
        if close + 1 = s.length then .error { Err := missingPort, Addr := hostport }
        else if close + 1 = i then
          splitTail hostport ((s.take close).drop 1) i 1 (close + 1)
        else if s.get? (close + 1) = some ':' then
          .error { Err := tooManyColons, Addr := hostport }
        else .error { Err := missingPort, Addr := hostport }
    else
      let host := s.take i
      if host.contains ':' then .error { Err := tooManyColons, Addr := hostport }
      else splitTail hostport host i 0 0

end net

namespace strconv

/-- The value of a decimal digit, when the character is one. -/
def digit (c : Char) : Option Nat :=
  if '0' ≤ c ∧ c ≤ '9' then some (c.toNat - '0'.toNat) else none

/-- The loop of `ParseUint` for base 10 and 64 bits: a character that is no digit is a syntax
error, a value over `2^64 - 1` a range error, whichever is met first. -/
def parseDigits : List Char → Nat → Except String Nat
  | [], n => .ok n
  | c :: rest, n =>
    match digit c with
    | none => .error "invalid syntax"
    | some d =>
      if 2 ^ 64 ≤ n * 10 + d then .error "value out of range"
      else parseDigits rest (n * 10 + d)

/-- A hexadecimal digit in lower case. -/
def lowerHex (n : Nat) : Char :=
  if n < 10 then Char.ofNat (48 + n) else Char.ofNat (87 + n)

/-- What `strconv.Quote` writes for one character.  The double quote (34) and the backslash
(92) get a backslash before them; a control character is written as its escape, `a`, `b`, `f`,
`n`, `r`, `t` or `v` after a backslash, or `x` and two hexadecimal digits after a backslash;
the other characters of ASCII are printable and are written as they are.  So are, here, the
characters beyond ASCII: the table of `unicode.IsPrint`, which tells those of them that Go
writes as an escape, is not part of the embedding. -/
def quoteChar (c : Char) : List Char :=
  if c.toNat = 34 ∨ c.toNat = 92 then [Char.ofNat 92, c]
  else if 32 ≤ c.toNat ∧ c.toNat ≠ 127 then [c]
  else if c.toNat = 7 then [Char.ofNat 92, 'a']
  else if c.toNat = 8 then [Char.ofNat 92, 'b']
  else if c.toNat = 12 then [Char.ofNat 92, 'f']
  else if c.toNat = 10 then [Char.ofNat 92, 'n']
  else if c.toNat = 13 then [Char.ofNat 92, 'r']
  else if c.toNat = 9 then [Char.ofNat 92, 't']
  else if c.toNat = 11 then [Char.ofNat 92, 'v']
  else [Char.ofNat 92, 'x', lowerHex (c.toNat / 16), lowerHex (c.toNat % 16)]

/-- The function `strconv.Quote`: the string between double quotes, its characters written
as `quoteChar` tells. -/
def Quote (s : String) : String :=
  String.mk (Char.ofNat 34 :: (s.data.map quoteChar).flatten ++ [Char.ofNat 34])

/-- The text of a `NumError` of `Atoi`: the number is quoted by `strconv.Quote`. -/
def numError (s why : String) : String :=
  "strconv.Atoi: parsing " ++ Quote s ++ ": " ++ why

/-- The function `strconv.Atoi` on a 64-bit platform: an optional sign, then at least one
digit, and a value of the range of `int`.  The fast path of `Atoi` for short strings gives the
results of `ParseInt`, which this follows. -/
def Atoi (s : String) : Except String Int :=
  if s.data = [] then .error (numError s "invalid syntax")
  else
    let neg := s.data.head? = some '-'
    let digits := if s.data.head? = some '+' ∨ s.data.head? = some '-' then s.data.drop 1
      else s.data
    if digits = [] then .error (numError s "invalid syntax")
    else
      match parseDigits digits 0 with
      | .error why => .error (numError s why)
      | .ok un =>
        if ¬ neg ∧ 2 ^ 63 ≤ un then .error (numError s "value out of range")
        else if neg ∧ 2 ^ 63 < un then .error (numError s "value out of range")
        else .ok (if neg then - (un : Int) else (un : Int))

end strconv

/-! ## The spec (`spec.go`) -/

/-- The method `controlPlaneMachineConfig`: the reference of the control plane is
dereferenced. -/
def Spec.controlPlaneMachineConfig (s : cloudstack.Spec) : V (Option Pointer) :=
  V.bind (V.deref s.Spec.Cluster.Spec.ControlPlaneConfiguration.MachineGroupRef) fun ref =>
  V.pure (s.machineConfigsLookup.index ref.Name)

/-- The method `workerMachineConfig`. -/
def Spec.workerMachineConfig (s : cloudstack.Spec) (c : anywherev1.WorkerNodeGroupConfiguration) :
    V (Option Pointer) :=
  V.bind (V.deref c.MachineGroupRef) fun ref =>
  V.pure (s.machineConfigsLookup.index ref.Name)

/-- The method `etcdMachineConfig`. -/
def Spec.etcdMachineConfig (s : cloudstack.Spec) : Option Pointer :=
  match s.Spec.Cluster.Spec.ExternalEtcdConfiguration with
  | none => none
  | some etcd =>
    match etcd.MachineGroupRef with
    | none => none
    | some ref => s.machineConfigsLookup.index ref.Name

/-! ## The validator (`validator.go`) -/

/-- The constant `controlEndpointDefaultPort`. -/
def controlEndpointDefaultPort : String := "6443"

/-- The function `NewValidator`. -/
def NewValidator (machineConfigs : MachineConfigMap) : Validator :=
  { machineConfigs := machineConfigs }

/-- The method `validateCloudStackAccess`. -/
def validateCloudStackAccess : V Error :=
  V.bind (V.cmk .ValidateCloudStackConnection) fun err =>
  match err with
  | some err => V.pure (some ("failed validating connection to vCenter: " ++ err))
  | none => V.pure none

/-- The method `ValidateCloudStackDatacenterConfig`. -/
def ValidateCloudStackDatacenterConfig
    (datacenterConfig : Option anywherev1.CloudStackDatacenterConfig) : V Error :=
  V.bind (V.deref datacenterConfig) fun dc =>
  V.bind (V.cmk (.ValidateZonePresent dc.Spec.Zone)) fun err =>
  match err with
  | some err => V.pure (some err)
  | none => V.pure none

/-- The method `validateMachineConfig`: the pointer `machineConfig` is dereferenced at its
first use, in the arguments of `ValidateTemplatePresent`.  The calls of the client write no
machine configuration, so the fields read after a call are those read before it. -/
def validateMachineConfig (datacenterConfigSpec : anywherev1.CloudStackDatacenterConfigSpec)
    (machineConfig : Option Pointer) : V Error :=
  let domain := datacenterConfigSpec.Domain
  let zone := datacenterConfigSpec.Zone
  let account := datacenterConfigSpec.Account
  V.bind (V.deref machineConfig) fun pointer =>
  V.bind (V.load pointer) fun mc =>
  V.bind (V.cmk (.ValidateTemplatePresent domain zone account mc.Spec.Template)) fun err =>
  match err with
  | some err => V.pure (some ("validating template: " ++ err))
  | none =>
    V.bind (V.cmk (.ValidateServiceOfferingPresent domain zone account mc.Spec.ComputeOffering))
      fun err =>
    match err with
    | some err => V.pure (some ("validating service offering: " ++ err))
    | none =>
      if 0 < mc.Spec.AffinityGroupIds.length then
        V.bind (V.cmk (.ValidateAffinityGroupsPresent domain zone account
          mc.Spec.AffinityGroupIds)) fun err =>
        match err with
        | some err => V.pure (some ("validating affinity group ids: " ++ err))
        | none => V.pure none
      else V.pure none

/-- The method `validateControlPlaneHostAndApplyDefaultPort`: the host with its port, or an
error. -/
def validateControlPlaneHostAndApplyDefaultPort (pHost : String) : String × Error :=
  let split : Except String (String × String) :=
    match net.SplitHostPort pHost with
    | .ok (_, port) => .ok (port, pHost)
    | .error err =>
      if strings.Contains err.Error "missing port" then
        .ok (controlEndpointDefaultPort, pHost ++ ":" ++ controlEndpointDefaultPort)
      else .error ("host " ++ pHost ++ " is invalid: " ++ err.Error)
  match split with
  | .error msg => ("", some msg)
  | .ok (port, portWithHost) =>
    match strconv.Atoi port with
    | .error err => ("", some ("host " ++ pHost ++ " has an invalid port: " ++ err))
    | .ok _ => (portWithHost, none)

/-- The loop `for _, machineConfig := range v.machineConfigs`, from the entry the list heads
on.  The writes to the machine configuration (the default user, the default key) go through
the pointer `machineConfig` and reach the object at once, so they stay when a later check
fails.  `validateMachineConfig` receives `etcdMachineConfig`, as in the source. -/
def rangeMachineConfigs (etcdMachineConfig : Option Pointer) : MachineConfigMap → V Error
  | [] => V.pure none
  | (_, pointer) :: todo =>
    V.bind V.get fun st =>
    V.bind (V.deref pointer) fun machineConfig =>
    V.bind (V.load machineConfig) fun mc =>
    if mc.Namespace ≠ st.spec.Spec.Namespace then
      V.pure (some ("CloudStackMachineConfig and Cluster objects must have the same namespace: " ++
        "CloudStackMachineConfig namespace=" ++ mc.Namespace ++
        "; Cluster namespace=" ++ st.spec.Spec.Namespace))
    else
      V.bind (if mc.Spec.Users.length ≤ 0 then
          V.store machineConfig { mc with Spec := { mc.Spec with
            Users := [{ Name := "", SshAuthorizedKeys := [] }] } }
        else V.pure ()) fun _ =>
      V.bind (V.load machineConfig) fun mc =>
      match mc.Spec.Users with
      | [] => V.throwPanic
      | first :: others =>
        V.bind (if first.SshAuthorizedKeys.length ≤ 0 then
            V.store machineConfig { mc with Spec := { mc.Spec with
              Users := { first with SshAuthorizedKeys := [""] } :: others } }
          else V.pure ()) fun _ =>
        V.bind (V.load machineConfig) fun mc =>
        if mc.Spec.Template.Value = "" then
          V.pure (some ("template is not set for CloudStackMachineConfig " ++ mc.Name ++
            ". Default template is not supported in CloudStack, please provide a template name"))
        else
          V.bind (V.deref st.spec.datacenterConfig) fun dc =>
          V.bind (validateMachineConfig dc.Spec etcdMachineConfig) fun err =>
          match err with
          | some err =>
            V.bind (V.load machineConfig) fun mc =>
            V.pure (some ("machine config " ++ mc.Name ++ " validation failed: " ++ err))
          | none => rangeMachineConfigs etcdMachineConfig todo

/-- The statements of `ValidateClusterMachineConfigs` on the external etcd configuration:
the error to return, if any, and the value of the variable `etcdMachineConfig`. -/
def validateEtcd (s : Spec) (controlPlaneMachineConfig : Pointer) :
    V (Error × Option Pointer) :=
  match s.Spec.Cluster.Spec.ExternalEtcdConfiguration with
  | none => V.pure (none, none)
  | some etcd =>
    match etcd.MachineGroupRef with
    | none => V.pure (some "must specify machineGroupRef for etcd machines", none)
    | some ref =>
      match s.etcdMachineConfig with
      | none =>
        V.pure (some ("cannot find CloudStackMachineConfig " ++ ref.Name ++ " for etcd machines"),
          none)
      | some etcdMachineConfig =>
        V.bind (V.load etcdMachineConfig) fun etcdConfig =>
        V.bind (V.load controlPlaneMachineConfig) fun controlPlaneConfig =>
        if etcdConfig.Spec.Template ≠ controlPlaneConfig.Spec.Template then
          V.pure (some "control plane and etcd machines must have the same template specified",
            some etcdMachineConfig)
        else V.pure (none, some etcdMachineConfig)

/-- The statements of `ValidateClusterMachineConfigs` from the check of the namespaces on. -/
def validateRest (controlPlaneMachineConfig : Pointer) (etcdMachineConfig : Option Pointer) :
    V Error :=
  V.bind V.get fun st =>
  let s := st.spec
  V.bind (V.deref s.datacenterConfig) fun dc =>
  if dc.Namespace ≠ s.Spec.Namespace then
    V.pure (some ("CloudStackDatacenterConfig and Cluster objects must have the same namespace: " ++
      "CloudstackDatacenterConfig namespace=" ++ dc.Namespace ++
      "; Cluster namespace=" ++ s.Spec.Namespace))
  else
    match s.Spec.Cluster.Spec.WorkerNodeGroupConfigurations.head? with
    | none => V.throwPanic
    | some worker =>
      V.bind (V.deref worker.MachineGroupRef) fun workerRef =>
      match st.validator.machineConfigs.lookup workerRef.Name with
      | none =>
        V.pure (some ("cannot find CloudStackMachineConfig " ++ workerRef.Name ++
          " for worker nodes"))
      | some workerPointer =>
        V.bind (V.load controlPlaneMachineConfig) fun controlPlaneConfig =>
        V.bind (V.deref workerPointer) fun workerNodeGroupMachineConfig =>
        V.bind (V.load workerNodeGroupMachineConfig) fun workerConfig =>
        if controlPlaneConfig.Spec.Template ≠ workerConfig.Spec.Template
        then V.pure (some "control plane and worker nodes must have the same template specified")
        else
          match validateControlPlaneHostAndApplyDefaultPort
            s.Spec.Cluster.Spec.ControlPlaneConfiguration.Endpoint.Host with
          | (_, some err) =>
            V.pure (some ("failed to validate controlPlaneConfiguration.Endpoint.Host: " ++ err))
          | (hostWithPort, none) =>
            V.bind (V.set { st with spec := { s with Spec := { Cluster := { s.Spec.Cluster with
              Spec := { s.Spec.Cluster.Spec with ControlPlaneConfiguration :=
                { s.Spec.Cluster.Spec.ControlPlaneConfiguration with
                  Endpoint := { Host := hostWithPort } } } } } } }) fun _ =>
            rangeMachineConfigs etcdMachineConfig st.validator.machineConfigs

/-- The method `ValidateClusterMachineConfigs`. -/
def ValidateClusterMachineConfigs : V Error :=
  V.bind V.get fun st =>
  let s := st.spec
  if s.Spec.Cluster.Spec.ControlPlaneConfiguration.Endpoint.Host.length ≤ 0 then
    V.pure (some "cluster controlPlaneConfiguration.Endpoint.Host is not set or is empty")
  else
    V.bind (V.deref s.datacenterConfig) fun dc =>
    if dc.Spec.Domain.length ≤ 0 then
      V.pure (some "CloudStackDatacenterConfig domain is not set or is empty")
    else if dc.Spec.Zone.Value.length ≤ 0 then
      V.pure (some "CloudStackDatacenterConfig zone is not set or is empty")
    else if dc.Spec.Network.Value.length ≤ 0 then
      V.pure (some "CloudStackDatacenterConfig network is not set or is empty")
    else
      match s.Spec.Cluster.Spec.ControlPlaneConfiguration.MachineGroupRef with
      | none => V.pure (some "must specify machineGroupRef for control plane")
      | some controlPlaneRef =>
        match s.Spec.Cluster.Spec.WorkerNodeGroupConfigurations.head? with
        | none => V.throwPanic
        | some worker =>
          match worker.MachineGroupRef with
          | none => V.pure (some "must specify machineGroupRef for worker nodes")
          | some _ =>
            V.bind s.controlPlaneMachineConfig fun found =>
            match found with
            | none =>
              V.pure (some ("cannot find CloudStackMachineConfig " ++ controlPlaneRef.Name ++
                " for control plane"))
            | some controlPlaneMachineConfig =>
              V.bind (validateEtcd s controlPlaneMachineConfig) fun etcd =>
              match etcd.1 with
              | some err => V.pure (some err)
              | none => validateRest controlPlaneMachineConfig etcd.2

/-! ## Sample data -/

/-- The zone of the sample datacenter. -/
def testZone : anywherev1.CloudStackResourceRef := { ResourceType := "name", Value := "zone1" }

/-- The template of the sample machine configurations. -/
def testTemplate : anywherev1.CloudStackResourceRef :=
  { ResourceType := "name", Value := "centos7-k8s-118" }

/-- The compute offering of the sample machine configurations. -/
def testOffering : anywherev1.CloudStackResourceRef :=
  { ResourceType := "name", Value := "m4-large" }

/-- A datacenter configuration with every field set. -/
def sampleDatacenter : anywherev1.CloudStackDatacenterConfig :=
  { Namespace := "default",
    Spec := { Domain := "domain1", Zone := testZone, Account := "admin",
              Network := { ResourceType := "name", Value := "net1" } } }

/-- A machine configuration of the given name, with one user who has one key. -/
def sampleMachineConfig (name : String) : anywherev1.CloudStackMachineConfig :=
  { Name := name, Namespace := "default",
    Spec := { Template := testTemplate, ComputeOffering := testOffering,
              Users := [{ Name := "mySshUsername", SshAuthorizedKeys := ["mySshAuthorizedKey"] }],
              AffinityGroupIds := [] } }

/-- The map of the machine configurations of the sample cluster: the names of the machine
configurations of the control plane, the workers and the etcd machines, with pointers to the
addresses 0, 1 and 2. -/
def sampleMachineConfigs : MachineConfigMap :=
  [("test-cp", some 0), ("test-md-0", some 1), ("test-etcd", some 2)]

/-- The machine configurations of the sample cluster, in the order of their addresses. -/
def sampleObjects : List anywherev1.CloudStackMachineConfig :=
  [sampleMachineConfig "test-cp", sampleMachineConfig "test-md-0", sampleMachineConfig "test-etcd"]

/-- The machine configurations of a list at the addresses 0, 1, 2 and so on; an address beyond
the list, to which no pointer of the samples points, holds an empty machine configuration. -/
def objectsOf (configs : List anywherev1.CloudStackMachineConfig) :
    Pointer → anywherev1.CloudStackMachineConfig :=
  fun p => configs.getD p
    { Name := "", Namespace := "",
      Spec := { Template := { ResourceType := "", Value := "" },
                ComputeOffering := { ResourceType := "", Value := "" },
                Users := [], AffinityGroupIds := [] } }

/-- A reference to the machine configuration of the given name. -/
def sampleRef (name : String) : anywherev1.Ref :=
  { Kind := "CloudStackMachineConfig", Name := name }

/-- A cluster with its three references set and the host `1.2.3.4`. -/
def sampleCluster : anywherev1.Cluster :=
  { Namespace := "default",
    Spec :=
      { ControlPlaneConfiguration :=
          { Endpoint := { Host := "1.2.3.4" }, MachineGroupRef := some (sampleRef "test-cp") },
        WorkerNodeGroupConfigurations := [{ MachineGroupRef := some (sampleRef "test-md-0") }],
        ExternalEtcdConfiguration := some { MachineGroupRef := some (sampleRef "test-etcd") } } }

/-- The state before a validation: the given cluster and datacenter, the spec and the
validator built from one map of machine configurations, as `NewSpec` and `NewValidator` build
them, so that both hold the same pointers; the sample machine configurations behind those
pointers, and no call made. -/
def stateOf (c : anywherev1.Cluster) (dc : Option anywherev1.CloudStackDatacenterConfig) :
    State :=
  { spec := { Spec := { Cluster := c }, datacenterConfig := dc,
              machineConfigsLookup := sampleMachineConfigs },
    validator := NewValidator sampleMachineConfigs,
    objects := objectsOf sampleObjects,
    calls := [] }

/-- A client whose every call succeeds. -/
def cmkOk : CmkEnv := fun _ _ => none

/-- The sample cluster with the given control-plane host. -/
def clusterWithHost (host : String) : anywherev1.Cluster :=
  { sampleCluster with Spec := { sampleCluster.Spec with
      ControlPlaneConfiguration := { sampleCluster.Spec.ControlPlaneConfiguration with
        Endpoint := { Host := host } } } }

/-- The sample datacenter with an empty network value. -/
def datacenterNoNetwork : anywherev1.CloudStackDatacenterConfig :=
  { sampleDatacenter with Spec := { sampleDatacenter.Spec with
      Network := { ResourceType := "id", Value := "" } } }

/-- The sample cluster whose external etcd configuration has no machine group reference. -/
def clusterEtcdRefNil : anywherev1.Cluster :=
  { sampleCluster with Spec := { sampleCluster.Spec with
      ExternalEtcdConfiguration := some { MachineGroupRef := none } } }

/-- The checks of the external etcd configuration pass in the state `st` for the pointer
`controlPlaneMachineConfig` to the machine configuration of the control plane, and leave
`etcdMachineConfig` in the variable of that name: either there is no external etcd
configuration (the variable stays nil), or its reference names a machine configuration of the
spec with the template of the control plane. -/
def EtcdAccepted (st : State) (controlPlaneMachineConfig : Pointer)
    (etcdMachineConfig : Option Pointer) : Prop :=
  (st.spec.Spec.Cluster.Spec.ExternalEtcdConfiguration = none ∧ etcdMachineConfig = none) ∨
  ∃ etcd ref found, st.spec.Spec.Cluster.Spec.ExternalEtcdConfiguration = some etcd ∧
    etcd.MachineGroupRef = some ref ∧
    st.spec.machineConfigsLookup.index ref.Name = some found ∧
    (st.objects found).Spec.Template = (st.objects controlPlaneMachineConfig).Spec.Template ∧
    etcdMachineConfig = some found

/-- The sample cluster with other names in its three references. -/
def clusterWithRefs (controlPlane worker etcd : String) : anywherev1.Cluster :=
  { sampleCluster with Spec :=
    { ControlPlaneConfiguration :=
        { Endpoint := { Host := "1.2.3.4" }, MachineGroupRef := some (sampleRef controlPlane) },
      WorkerNodeGroupConfigurations := [{ MachineGroupRef := some (sampleRef worker) }],
      ExternalEtcdConfiguration := some { MachineGroupRef := some (sampleRef etcd) } } }

/-- A sample machine configuration with another template. -/
def machineConfigWithTemplate (name template : String) : anywherev1.CloudStackMachineConfig :=
  { sampleMachineConfig name with Spec :=
    { (sampleMachineConfig name).Spec with
      Template := { ResourceType := "name", Value := template } } }

/-- The state before a validation of the sample cluster and datacenter, with the given
machine configurations behind the pointers of the spec and of the validator. -/
def stateWith (configs : List anywherev1.CloudStackMachineConfig) : State :=
  { stateOf sampleCluster (some sampleDatacenter) with objects := objectsOf configs }

/-- The sample machine configurations, the one of the workers with another template. -/
def workerTemplateDiffers : List anywherev1.CloudStackMachineConfig :=
  [sampleMachineConfig "test-cp", machineConfigWithTemplate "test-md-0" "different",
   sampleMachineConfig "test-etcd"]

/-- A machine configuration has at least one user, and its first user at least one entry of
`SshAuthorizedKeys`. -/
def HasUserAndKey (mc : anywherev1.CloudStackMachineConfig) : Prop :=
  ∃ first others, mc.Spec.Users = first :: others ∧ first.SshAuthorizedKeys ≠ []

/-- Two machine configurations that differ at most in their users. -/
def SameButUsers (a b : anywherev1.CloudStackMachineConfig) : Prop :=
  a.Name = b.Name ∧ a.Namespace = b.Namespace ∧ a.Spec.Template = b.Spec.Template ∧
  a.Spec.ComputeOffering = b.Spec.ComputeOffering ∧
  a.Spec.AffinityGroupIds = b.Spec.AffinityGroupIds

/-- Two assignments of machine configurations to the addresses that differ at most in the
users of the machine configurations. -/
def ObjectsSameButUsers (a b : Pointer → anywherev1.CloudStackMachineConfig) : Prop :=
  ∀ p, SameButUsers (a p) (b p)

/-- Two states with the same spec, the same validator and the same calls, whose machine
configurations differ at most in their users. -/
def StatesSameButUsers (a b : State) : Prop :=
  a.spec = b.spec ∧ a.validator = b.validator ∧ a.calls = b.calls ∧
  ObjectsSameButUsers a.objects b.objects

/-- A machine configuration as a turn of the loop leaves it: a machine configuration without
users has got one user, and a first user without keys has got the key `""`. -/
def withDefaultUsers (mc : anywherev1.CloudStackMachineConfig) :
    anywherev1.CloudStackMachineConfig :=
  match mc.Spec.Users with
  | [] => { mc with Spec := { mc.Spec with
      Users := [{ Name := "", SshAuthorizedKeys := [""] }] } }
  | first :: others =>
    if first.SshAuthorizedKeys = [] then
      { mc with Spec := { mc.Spec with
        Users := { first with SshAuthorizedKeys := [""] } :: others } }
    else mc

/-- A sample machine configuration with the given users. -/
def machineConfigWithUsers (name : String) (users : List anywherev1.UserConfiguration) :
    anywherev1.CloudStackMachineConfig :=
  { sampleMachineConfig name with Spec := { (sampleMachineConfig name).Spec with Users := users } }

/-- The sample machine configurations: the one of the control plane without users, the one of
the workers with a first user without keys. -/
def usersMissing : List anywherev1.CloudStackMachineConfig :=
  [machineConfigWithUsers "test-cp" [],
   machineConfigWithUsers "test-md-0" [{ Name := "mySshUsername", SshAuthorizedKeys := [] }],
   sampleMachineConfig "test-etcd"]

/-- A sample machine configuration with another compute offering. -/
def machineConfigWithOffering (name offering : String) : anywherev1.CloudStackMachineConfig :=
  { sampleMachineConfig name with Spec :=
    { (sampleMachineConfig name).Spec with
      ComputeOffering := { ResourceType := "name", Value := offering } } }

/-- Three machine configurations, each with a compute offering of its own. -/
def offeringsDiffer : List anywherev1.CloudStackMachineConfig :=
  [machineConfigWithOffering "test-cp" "cp-large",
   machineConfigWithOffering "test-md-0" "md-large",
   machineConfigWithOffering "test-etcd" "etcd-small"]

/-- The sample cluster without an external etcd configuration. -/
def clusterWithoutEtcd : anywherev1.Cluster :=
  { sampleCluster with Spec := { sampleCluster.Spec with ExternalEtcdConfiguration := none } }

/-- The sample cluster without a worker node group configuration. -/
def clusterWithoutWorkers : anywherev1.Cluster :=
  { sampleCluster with Spec := { sampleCluster.Spec with WorkerNodeGroupConfigurations := [] } }

end cloudstack

namespace cluster

/-! # Package `cluster`: the processor of the AWS IAM configurations

An embedding of `processAWSIam` of `pkg/cluster/awsiam.go`.  The function writes to the
`Config` behind its pointer; a run gives how it ended and the `Config` it left. -/

namespace anywherev1

/-- The constant `AWSIamConfigKind`. -/
def AWSIamConfigKind : String := "AWSIamConfig"

/-- The type `Ref`. -/
structure Ref where
  Kind : String
  Name : String
deriving DecidableEq, Repr

/-- The type `AWSIamConfig`, whose declaration is not among the sources: the name of the
object, and its content, of which nothing is read here, as one value. -/
structure AWSIamConfig where
  Name : String
  Spec : String
deriving DecidableEq, Repr

/-- The type `ClusterSpec`, with the field the processor reads. -/
structure ClusterSpec where
  IdentityProviderRefs : List Ref
deriving DecidableEq, Repr

/-- The type `Cluster`, with the fields the processor reads. -/
structure Cluster where
  APIVersion : String
  Spec : ClusterSpec
deriving DecidableEq, Repr

end anywherev1

/-- A value of the interface `APIObject`, by its dynamic type: a pointer to an `AWSIamConfig`,
or an object of another kind, known by its kind and name. -/
inductive APIObject where
  | AWSIamConfig (config : anywherev1.AWSIamConfig)
  | other (kind name : String)
deriving DecidableEq, Repr

/-- The method `GetName`. -/
def APIObject.GetName : APIObject → String
  | .AWSIamConfig config => config.Name
  | .other _ name => name

/-- The type `ObjectLookup`, whose declaration is not among the sources: known by its method
`GetFromRef`, which gives the object a reference resolves to, or nil. -/
structure ObjectLookup where
  GetFromRef : String → anywherev1.Ref → Option APIObject

/-- A Go map from names to `AWSIamConfig` objects, each key once. -/
abbrev AWSIamConfigMap := List (String × anywherev1.AWSIamConfig)

/-- The assignment `m[key] = value`: an entry of that key is replaced. -/
def AWSIamConfigMap.assign (m : AWSIamConfigMap) (key : String)
    (value : anywherev1.AWSIamConfig) : AWSIamConfigMap :=
  (key, value) :: m.filter (fun entry => entry.1 != key)

/-- The type `Config`, with the fields the processor reads and writes; a nil map is `none`. -/
structure Config where
  Cluster : Option anywherev1.Cluster
  AWSIAMConfigs : Option AWSIamConfigMap
deriving DecidableEq, Repr

/-- How a run ended. -/
inductive Outcome where
  | returns
  | panics
deriving DecidableEq, Repr

/-- The loop of `processAWSIam` over the identity provider references.  The first reference
that resolves to nil ends the function; the object of a reference of the kind `AWSIamConfig`
is stored under its name, the type assertion panicking on an object of another type. -/
def processIdentityProviderRefs (apiVersion : String) (objects : ObjectLookup) :
    List anywherev1.Ref → Config → Outcome × Config
  | [], c => (.returns, c)
  | idr :: rest, c =>
    match objects.GetFromRef apiVersion idr with
    | none => (.returns, c)
    | some idp =>
      if idr.Kind = anywherev1.AWSIamConfigKind then
        match idp with
        | .AWSIamConfig config =>
          match c.AWSIAMConfigs with
          | none => (.panics, c)
          | some m =>
            processIdentityProviderRefs apiVersion objects rest
              { c with AWSIAMConfigs := some (m.assign idp.GetName config) }
        | .other _ _ => (.panics, c)
      else processIdentityProviderRefs apiVersion objects rest c

/-- The function `processAWSIam`. -/
def processAWSIam (c : Config) (objects : ObjectLookup) : Outcome × Config :=
  let c : Config :=
    match c.AWSIAMConfigs with
    | none => { c with AWSIAMConfigs := some [] }
    | some _ => c
  match c.Cluster with
  | none => (.panics, c)
  | some cluster =>
    processIdentityProviderRefs cluster.APIVersion objects cluster.Spec.IdentityProviderRefs c

/-! ## Vocabulary for the properties -/

/-- The references that come before the first one the lookup cannot resolve. -/
def refsBeforeFirstUnresolved (apiVersion : String) (objects : ObjectLookup)
    (refs : List anywherev1.Ref) : List anywherev1.Ref :=
  refs.takeWhile (fun idr => (objects.GetFromRef apiVersion idr).isSome)

/-- The `AWSIamConfig` objects the references of the kind `AWSIamConfig` of a list resolve to,
in the order of the references. -/
def resolvedAWSIamConfigs (apiVersion : String) (objects : ObjectLookup)
    (refs : List anywherev1.Ref) : List anywherev1.AWSIamConfig :=
  refs.filterMap fun idr =>
    if idr.Kind = anywherev1.AWSIamConfigKind then
      match objects.GetFromRef apiVersion idr with
      | some (.AWSIamConfig config) => some config
      | _ => none
    else none

/-- The object named `iam` that is in the map before the run. -/
def earlierIam : anywherev1.AWSIamConfig := { Name := "iam", Spec := "earlier" }

/-- The object named `iam` the lookup resolves the reference to. -/
def parsedIam : anywherev1.AWSIamConfig := { Name := "iam", Spec := "parsed" }

/-- An object of another name that is in the map before the run. -/
def keptOther : anywherev1.AWSIamConfig := { Name := "other", Spec := "kept" }

/-- A cluster with one identity provider reference, to the `AWSIamConfig` named `iam`. -/
def sampleCluster : anywherev1.Cluster :=
  { APIVersion := "anywhere.eks.amazonaws.com/v1alpha1",
    Spec := { IdentityProviderRefs := [{ Kind := "AWSIamConfig", Name := "iam" }] } }

/-- A configuration of the sample cluster with the entries `iam` and `other` already in its
map. -/
def sampleConfig : Config :=
  { Cluster := some sampleCluster,
    AWSIAMConfigs := some [("iam", earlierIam), ("other", keptOther)] }

/-- A lookup that resolves the reference to `iam` to a parsed object of that name. -/
def sampleObjects : ObjectLookup :=
  { GetFromRef := fun _ idr =>
      if idr.Kind = "AWSIamConfig" ∧ idr.Name = "iam" then some (.AWSIamConfig parsedIam)
      else none }

end cluster

namespace addonclients

/-! ## Runs of computations -/

theorem M.pure_run {α : Type} (a : α) (env : Env) (t : List Event) :
    M.pure a env t = (.ret a, []) := rfl

theorem M.bind_run_ret {α β : Type} {m : M α} {env : Env} {t : List Event} {a : α}
    {es : List Event} (h : m env t = (.ret a, es)) (f : α → M β) :
    M.bind m f env t = ((f a env (t ++ es)).1, es ++ (f a env (t ++ es)).2) := by
  simp [M.bind, h]

theorem M.bind_run_panics {α β : Type} {m : M α} {env : Env} {t : List Event}
    {es : List Event} (h : m env t = (.panics, es)) (f : α → M β) :
    M.bind m f env t = (.panics, es) := by
  simp [M.bind, h]

@[simp] theorem M.pure_bind {α β : Type} (a : α) (f : α → M β) : M.bind (M.pure a) f = f a := by
  funext env t
  simp [M.bind, M.pure]

@[simp] theorem M.throwPanic_bind {α β : Type} (f : α → M β) :
    M.bind (throwPanic : M α) f = throwPanic := by
  funext env t
  simp [M.bind, throwPanic]

@[simp] theorem M.bind_assoc {α β γ : Type} (m : M α) (f : α → M β) (g : β → M γ) :
    M.bind (M.bind m f) g = M.bind m (fun a => M.bind (f a) g) := by
  funext env t
  simp only [M.bind]
  rcases m env t with ⟨o, es⟩
  cases o with
  | panics => rfl
  | ret a =>
    simp only
    rcases f a env (t ++ es) with ⟨o', es'⟩
    cases o' with
    | panics => simp
    | ret b => simp [List.append_assoc]

@[simp] theorem deref_some {α : Type} (a : α) : deref (some a) = M.pure a := rfl

@[simp] theorem deref_none {α : Type} : deref (none : Option α) = throwPanic := rfl

/-! ## Calls made by a computation -/

theorem Emits.iff {α : Type} (P : Call → Prop) (m : M α) :
    Emits P m ↔ ∀ env t, ∀ e ∈ (m env t).2, P e.call := by
  unfold Emits
  rfl

theorem Emits.pure {α : Type} {P : Call → Prop} (a : α) : Emits P (M.pure a) := by
  rw [Emits.iff]
  intro env t e he
  simp [M.pure] at he

theorem Emits.throwPanic {α : Type} {P : Call → Prop} : Emits P (throwPanic : M α) := by
  rw [Emits.iff]
  intro env t e he
  simp [addonclients.throwPanic] at he

theorem Emits.deref {α : Type} {P : Call → Prop} (o : Option α) : Emits P (deref o) := by
  cases o
  · exact Emits.throwPanic
  · exact Emits.pure _

theorem Emits.call {P : Call → Prop} {c : Call} (h : P c) : Emits P (call c) := by
  rw [Emits.iff]
  intro env t e he
  simp [addonclients.call] at he
  simpa [he] using h

theorem Emits.callErr {P : Call → Prop} {c : Call} (h : P c) : Emits P (callErr c) := by
  rw [Emits.iff]
  intro env t e he
  simp [addonclients.callErr] at he
  simpa [he] using h

theorem Emits.bind {α β : Type} {P : Call → Prop} {m : M α} {f : α → M β}
    (hm : Emits P m) (hf : ∀ a, Emits P (f a)) : Emits P (M.bind m f) := by
  rw [Emits.iff] at hm ⊢
  intro env t e he
  have h1 := hm env t
  simp only [M.bind] at he
  rcases hrun : m env t with ⟨o, es⟩
  rw [hrun] at he h1
  cases o with
  | panics => exact h1 e he
  | ret a =>
    simp only [List.mem_append] at he
    rcases he with he | he
    · exact h1 e he
    · exact (Emits.iff _ _).1 (hf a) env (t ++ es) e he

theorem Emits.retryLoop {α : Type} {P : Call → Prop} {fn : M (α × Error)} (h : Emits P fn)
    (n : Nat) (last : α × Error) : Emits P (retrier.retryLoop fn n last) := by
  induction n generalizing last with
  | zero => exact Emits.pure _
  | succ n ih =>
    unfold retrier.retryLoop
    apply Emits.bind h
    intro res
    split
    · exact Emits.pure _
    · exact ih res

theorem Emits.RetryCapturing {α : Type} {P : Call → Prop} {fn : M (α × Error)} (h : Emits P fn)
    (r : retrier.Retrier) (init : α) : Emits P (r.RetryCapturing init fn) :=
  Emits.retryLoop h _ _

theorem Emits.Retry {P : Call → Prop} {fn : M Error} (h : Emits P fn)
    (r : retrier.Retrier) : Emits P (r.Retry fn) := by
  unfold retrier.Retrier.Retry
  apply Emits.bind
  · apply Emits.RetryCapturing
    apply Emits.bind h
    intro e
    exact Emits.pure _
  · intro res
    exact Emits.pure _

theorem Emits.mono {α : Type} {P Q : Call → Prop} {m : M α} (h : Emits P m)
    (hPQ : ∀ c, P c → Q c) : Emits Q m := by
  rw [Emits.iff] at h ⊢
  exact fun env t e he => hPQ _ (h env t e he)

theorem Emits.mem {α : Type} {P : Call → Prop} {m : M α} (h : Emits P m) (env : Env)
    (t : List Event) {e : Event} (he : e ∈ (m env t).2) : P e.call :=
  (Emits.iff P m).1 h env t e he

/-! ## The retry policy on a single call -/

theorem retryLoop_callErr (c : Call) (env : Env) (n : Nat) :
    ∀ (t : List Event) (last : Unit × Error), ∃ es : List Event,
      retrier.retryLoop (M.bind (callErr c) fun e => M.pure ((), e)) n last env t
        = (.ret ((), if es = [] then last.2 else lastErr es), es) ∧
      es.length ≤ n ∧ (0 < n → es ≠ []) ∧ (∀ e ∈ es, e.call = c) ∧
      (∀ e ∈ es.dropLast, e.reply.err ≠ none) ∧
      ((∀ e ∈ es, e.reply.err ≠ none) → es.length = n) := by
  induction n with
  | zero =>
    intro t last
    exact ⟨[], by simp [retrier.retryLoop, M.pure]⟩
  | succ n ih =>
    intro t last
    unfold retrier.retryLoop
    cases herr : (env t c).err with
    | none =>
      refine ⟨[⟨c, env t c⟩], ?_⟩
      simp [M.bind, callErr, M.pure, herr, lastErr]
    | some err =>
      obtain ⟨es, hrun, hlen, hne, hcall, hfail, hall⟩ := ih (t ++ [⟨c, env t c⟩]) ((), some err)
      refine ⟨⟨c, env t c⟩ :: es, ?_, ?_, ?_, ?_, ?_, ?_⟩
      · simp only [M.bind, callErr, M.pure, herr, List.append_nil, hrun]
        by_cases hes : es = []
        · simp [hes, lastErr, herr]
        · simp [hes, lastErr, List.getLast?_cons_cons, List.getLast?_eq_getLast,
            List.getLast_cons hes]
      · simpa using hlen
      · simp
      · simpa using hcall
      · intro e he
        cases es with
        | nil => simp at he
        | cons x xs =>
          simp only [List.dropLast_cons₂, List.mem_cons] at he
          rcases he with rfl | he
          · simp [herr]
          · exact hfail e he
      · intro h
        have := hall (fun e he => h e (List.mem_cons_of_mem _ he))
        simp [this]

/-- The retry policy on a single call: the call is made at most `maxAttempts` times (at least
once when `maxAttempts` is positive), every attempt but the last failed, the error returned is
the one of the last attempt, and when every attempt failed all the attempts were used. -/
theorem Retry_callErr (r : retrier.Retrier) (c : Call) (env : Env) (t : List Event) :
    ∃ es : List Event,
      r.Retry (callErr c) env t = (.ret (lastErr es), es) ∧
      es.length ≤ r.maxAttempts ∧ (0 < r.maxAttempts → es ≠ []) ∧ (∀ e ∈ es, e.call = c) ∧
      (∀ e ∈ es.dropLast, e.reply.err ≠ none) ∧
      ((∀ e ∈ es, e.reply.err ≠ none) → es.length = r.maxAttempts) := by
  obtain ⟨es, hrun, hrest⟩ := retryLoop_callErr c env r.maxAttempts t ((), none)
  refine ⟨es, ?_, hrest⟩
  unfold retrier.Retrier.Retry retrier.Retrier.RetryCapturing
  rw [M.bind_run_ret hrun]
  by_cases hes : es = []
  · simp [hes, M.pure, lastErr]
  · simp [hes, M.pure]

theorem lastErr_eq_some {es : List Event} {err : GoError} (h : lastErr es = some err) :
    es ≠ [] := by
  intro hes
  simp [hes, lastErr] at h

theorem Git_of_gitOpts {f : FluxAddonClient} {g : GitOptions} (hg : f.gitOpts = some g)
    (c : Call) : f.Git c = callErr c := by
  simp [FluxAddonClient.Git, hg]

/-! ## C1 -/

/-- C1: a client built with no git options (GitOps unconfigured) makes every operation a no-op:
`InstallGitOps`, `UpdateGitEksaSpec`, `CleanupGitRepo`, `PauseGitOpsKustomization`,
`ResumeGitOpsKustomization` and `ForceReconcileGitRepo` return nil and `Validations` returns
the empty list, for every input and whatever the collaborators would answer, and the list of
calls made on the git provider, the file writer and Flux is empty. -/
theorem noop_when_gitops_unconfigured (f : FluxAddonClient) (h : f.gitOpts = none)
    (env : Env) (t : List Event) (cluster : types.Cluster) (clusterSpec : ClusterSpec)
    (datacenterConfig : Option providers.DatacenterConfig)
    (machineConfigs : List providers.MachineConfig) :
    f.InstallGitOps cluster clusterSpec datacenterConfig machineConfigs env t = (.ret none, []) ∧
    f.UpdateGitEksaSpec clusterSpec datacenterConfig machineConfigs env t = (.ret none, []) ∧
    f.CleanupGitRepo clusterSpec env t = (.ret none, []) ∧
    f.PauseGitOpsKustomization cluster clusterSpec env t = (.ret none, []) ∧
    f.ResumeGitOpsKustomization cluster clusterSpec env t = (.ret none, []) ∧
    f.ForceReconcileGitRepo cluster clusterSpec env t = (.ret none, []) ∧
    f.Validations clusterSpec = [] := by
  simp [FluxAddonClient.InstallGitOps, FluxAddonClient.UpdateGitEksaSpec,
    FluxAddonClient.CleanupGitRepo, FluxAddonClient.PauseGitOpsKustomization,
    FluxAddonClient.ResumeGitOpsKustomization, FluxAddonClient.ForceReconcileGitRepo,
    FluxAddonClient.Validations, FluxAddonClient.shouldSkipFlux, h, M.pure]

theorem noop_when_gitops_unconfigured_witness :
    (NewFluxAddonClient none).gitOpts = none ∧
    ((NewFluxAddonClient none).InstallGitOps sampleCluster sampleSpec none [] envAbsent []
        = (.ret none, []) ∧
      (NewFluxAddonClient none).UpdateGitEksaSpec sampleSpec none [] envAbsent []
        = (.ret none, []) ∧
      (NewFluxAddonClient none).CleanupGitRepo sampleSpec envAbsent [] = (.ret none, []) ∧
      (NewFluxAddonClient none).PauseGitOpsKustomization sampleCluster sampleSpec envAbsent []
        = (.ret none, []) ∧
      (NewFluxAddonClient none).ResumeGitOpsKustomization sampleCluster sampleSpec envAbsent []
        = (.ret none, []) ∧
      (NewFluxAddonClient none).ForceReconcileGitRepo sampleCluster sampleSpec envAbsent []
        = (.ret none, []) ∧
      (NewFluxAddonClient none).Validations sampleSpec = []) :=
  ⟨rfl, noop_when_gitops_unconfigured (NewFluxAddonClient none) rfl envAbsent [] sampleCluster
    sampleSpec none []⟩

theorem M.bind_events {α β : Type} {m : M α} {env : Env} {t : List Event} {a : α}
    {es : List Event} (h : m env t = (.ret a, es)) (f : α → M β) :
    (M.bind m f env t).2 = es ++ (f a env (t ++ es)).2 := by
  rw [M.bind_run_ret h]

theorem M.bind_outcome {α β : Type} {m : M α} {env : Env} {t : List Event} {a : α}
    {es : List Event} (h : m env t = (.ret a, es)) (f : α → M β) :
    (M.bind m f env t).1 = (f a env (t ++ es)).1 := by
  rw [M.bind_run_ret h]

/-- The probe makes `GetRepo` calls only. -/
theorem describeRepo_emits (fc : fluxForCluster) :
    Emits (fun c => c = .GetRepo) fc.describeRepo := by
  unfold fluxForCluster.describeRepo
  apply Emits.RetryCapturing
  apply Emits.bind (Emits.deref _)
  intro _
  apply Emits.bind
  · exact Emits.call rfl
  · intro _
    exact Emits.pure _

/-! ## C2 -/

/-- C2 (as stated, refuted): the probe reports the repository absent, the first attempt of
`CreateRepo` fails and the second succeeds; `InstallGitOps` returns nil and `CreateRepo` has
been called twice, not exactly once. -/
theorem createRepo_retried_not_once :
    (fluxForCluster.mk sampleClient sampleSpec none []).describeRepo envCreateFailsOnce []
      = (.ret (none, none), [⟨.GetRepo, okReply⟩]) ∧
    (sampleClient.InstallGitOps sampleCluster sampleSpec none [] envCreateFailsOnce []).1
      = .ret none ∧
    ((sampleClient.InstallGitOps sampleCluster sampleSpec none [] envCreateFailsOnce []).2.countP
      (fun e => e.call.isCreateRepo)) = 2 := by
  decide!

/-- C2 (amended): in every run of `InstallGitOps` in which the probe reports the repository
absent, the calls are the `GetRepo` calls of the probe, then the `CreateRepo` calls, then the
rest.  `CreateRepo` is called at least once and at most `maxAttempts` times, a further call
being made only after a failed one, so exactly once when its first attempt succeeds.  `Clone`
is never called, and `Init` can only occur in the rest, after every `CreateRepo` call. -/
theorem install_probe_absent_creates_remote (f : FluxAddonClient) (g : GitOptions)
    (hg : f.gitOpts = some g) (hr : 0 < f.retrier.maxAttempts)
    (cluster : types.Cluster) (clusterSpec : ClusterSpec)
    (datacenterConfig : Option providers.DatacenterConfig)
    (machineConfigs : List providers.MachineConfig)
    (cfg : v1alpha1.GitOpsConfig) (hcfg : clusterSpec.GitOpsConfig = some cfg)
    (env : Env) (t probe : List Event)
    (hprobe : (fluxForCluster.mk f clusterSpec datacenterConfig machineConfigs).describeRepo env t
      = (.ret (none, none), probe)) :
    ∃ creates rest : List Event,
      (f.InstallGitOps cluster clusterSpec datacenterConfig machineConfigs env t).2
        = probe ++ creates ++ rest ∧
      (∀ e ∈ probe, e.call = .GetRepo) ∧
      creates ≠ [] ∧ creates.length ≤ f.retrier.maxAttempts ∧
      (∀ e ∈ creates, e.call.isCreateRepo = true) ∧
      (∀ e ∈ creates.dropLast, e.reply.err ≠ none) ∧
      ((∀ e ∈ creates, e.reply.err = none) → creates.length = 1) ∧
      (∀ e ∈ rest, e.call.isCreateRepo = false) ∧
      (∀ e ∈ probe ++ creates, e.call ≠ .Init) ∧
      (∀ e ∈ probe ++ creates ++ rest, e.call ≠ .Clone) := by
  have hprobeCalls : ∀ e ∈ probe, e.call = .GetRepo := by
    intro e he
    have := Emits.mem (describeRepo_emits _) env t (e := e) (by rw [hprobe]; exact he)
    exact this
  obtain ⟨creates, hrun, hlen, hne, hcall, hfail, -⟩ := Retry_callErr f.retrier
    (.CreateRepo { Name := cfg.Spec.Flux.Github.Repository, Owner := cfg.Spec.Flux.Github.Owner,
                   Description := "EKS-A cluster configuration repository",
                   Personal := cfg.Spec.Flux.Github.Personal, Privacy := true }) env (t ++ probe)
  have hcreateCalls : ∀ e ∈ creates, e.call.isCreateRepo = true := by
    intro e he
    rw [hcall e he]
    rfl
  have key : ∃ rest : List Event,
      (f.InstallGitOps cluster clusterSpec datacenterConfig machineConfigs env t).2
        = probe ++ (creates ++ rest) ∧
      ∀ e ∈ rest, e.call.isCreateRepo = false ∧ e.call ≠ .Clone := by
    simp only [FluxAddonClient.InstallGitOps, FluxAddonClient.shouldSkipFlux, hg,
      Option.isNone_some, fluxForCluster.commitFluxAndClusterConfigToGit,
      fluxForCluster.setupRepository, fluxForCluster.clone, hcfg, deref_some, M.pure_bind,
      M.bind_assoc, Bool.false_eq_true, if_false]
    rw [M.bind_events hprobe]
    simp only [fluxForCluster.createRemoteRepository, fluxForCluster.repository,
      fluxForCluster.owner, fluxForCluster.personal, fluxForCluster.github, hcfg, deref_some,
      M.pure_bind, M.bind_assoc, Git_of_gitOpts hg]
    rw [M.bind_events hrun]
    refine ⟨_, rfl, ?_⟩
    intro e he
    refine Emits.mem (P := fun c => c.isCreateRepo = false ∧ c ≠ .Clone) ?_ env _ he
    simp only [fluxForCluster.initializeLocalRepository,
      fluxForCluster.validateLocalConfigPathDoesNotExist, fluxForCluster.writeEksaSystemFiles,
      fluxForCluster.initEksaWriter, fluxForCluster.eksaSystemDir,
      fluxForCluster.generateClusterConfigFile, fluxForCluster.generateEksaKustomizeFile,
      fluxForCluster.writeFluxSystemFiles, fluxForCluster.initFluxWriter,
      fluxForCluster.fluxSystemDir, fluxForCluster.generateFluxKustomizeFile,
      FluxAddonClient.generateFluxSyncFile, fluxForCluster.generateFluxPatchFile,
      FluxAddonClient.pushToRemoteRepo, FluxAddonClient.uninstallGitOpsToolkits,
      FluxAddonClient.Git, FluxAddonClient.Writer, fluxForCluster.namespace,
      fluxForCluster.repository, fluxForCluster.owner, fluxForCluster.branch,
      fluxForCluster.personal, fluxForCluster.path, fluxForCluster.github]
    repeat' first
      | apply Emits.pure
      | apply Emits.throwPanic
      | apply Emits.deref
      | apply Emits.Retry
      | apply Emits.RetryCapturing
      | exact Emits.callErr (by simp [Call.isCreateRepo])
      | exact Emits.call (by simp [Call.isCreateRepo])
      | apply Emits.bind
      | intro _
      | split
  obtain ⟨rest, hEq, hrest⟩ := key
  refine ⟨creates, rest, by rw [hEq, List.append_assoc], hprobeCalls, hne hr, hlen,
    hcreateCalls, hfail, ?_, fun e he => (hrest e he).1, ?_, ?_⟩
  · intro hall
    cases creates with
    | nil => exact absurd rfl (hne hr)
    | cons x xs =>
      cases xs with
      | nil => rfl
      | cons y ys =>
        exact absurd (hall x (List.mem_cons_self _ _))
          (hfail x (by simp [List.dropLast_cons₂]))
  · intro e he
    rcases List.mem_append.1 he with he | he
    · simp [hprobeCalls e he]
    · rw [hcall e he]
      simp
  · intro e he
    rcases List.mem_append.1 he with he | he
    · rcases List.mem_append.1 he with he | he
      · simp [hprobeCalls e he]
      · rw [hcall e he]
        simp
    · exact (hrest e he).2

theorem install_probe_absent_creates_remote_witness :
    ∃ creates rest : List Event,
      (sampleClient.InstallGitOps sampleCluster sampleSpec none [] envCreateFailsOnce []).2
        = [⟨.GetRepo, okReply⟩] ++ creates ++ rest ∧
      (∀ e ∈ [(⟨.GetRepo, okReply⟩ : Event)], e.call = .GetRepo) ∧
      creates ≠ [] ∧ creates.length ≤ sampleClient.retrier.maxAttempts ∧
      (∀ e ∈ creates, e.call.isCreateRepo = true) ∧
      (∀ e ∈ creates.dropLast, e.reply.err ≠ none) ∧
      ((∀ e ∈ creates, e.reply.err = none) → creates.length = 1) ∧
      (∀ e ∈ rest, e.call.isCreateRepo = false) ∧
      (∀ e ∈ [(⟨.GetRepo, okReply⟩ : Event)] ++ creates, e.call ≠ .Init) ∧
      (∀ e ∈ [(⟨.GetRepo, okReply⟩ : Event)] ++ creates ++ rest, e.call ≠ .Clone) :=
  install_probe_absent_creates_remote sampleClient sampleGitOpts rfl (by decide) sampleCluster
    sampleSpec none [] sampleConfig rfl envCreateFailsOnce [] [⟨.GetRepo, okReply⟩] (by decide!)

theorem M.bind_events_emits {α β : Type} {m : M α} {f : α → M β} {P : Call → Prop}
    (hf : ∀ a, Emits P (f a)) (env : Env) (t : List Event) :
    ∃ rest : List Event, (M.bind m f env t).2 = (m env t).2 ++ rest ∧ ∀ e ∈ rest, P e.call := by
  rcases hrun : m env t with ⟨o, es⟩
  cases o with
  | panics => exact ⟨[], by simp [M.bind, hrun]⟩
  | ret a =>
    refine ⟨(f a env (t ++ es)).2, by rw [M.bind_events hrun], ?_⟩
    intro e he
    exact Emits.mem (hf a) env _ he

/-- The calls of `setupRepository`. -/
theorem setupRepository_emits (fc : fluxForCluster) :
    Emits (fun c => c.isSetup = true) fc.setupRepository := by
  simp only [fluxForCluster.setupRepository, fluxForCluster.clone,
    fluxForCluster.describeRepo, fluxForCluster.createRemoteRepository,
    fluxForCluster.initializeLocalRepository, FluxAddonClient.Git, fluxForCluster.repository,
    fluxForCluster.owner, fluxForCluster.branch, fluxForCluster.personal, fluxForCluster.github]
  repeat' first
    | apply Emits.pure
    | apply Emits.throwPanic
    | apply Emits.deref
    | apply Emits.Retry
    | apply Emits.RetryCapturing
    | exact Emits.callErr (by simp [Call.isSetup])
    | exact Emits.call (by simp [Call.isSetup])
    | apply Emits.bind
    | intro _
    | split

/-- After `setupRepository`, the commit-and-push phase makes only the calls of `isPublish`. -/
theorem commit_events_after_setup (fc : fluxForCluster) (cfg : v1alpha1.GitOpsConfig)
    (hcfg : fc.clusterSpec.GitOpsConfig = some cfg) (env : Env) (t : List Event) :
    ∃ rest : List Event,
      (fc.commitFluxAndClusterConfigToGit env t).2 = (fc.setupRepository env t).2 ++ rest ∧
      ∀ e ∈ rest, e.call.isPublish = true := by
  simp only [fluxForCluster.commitFluxAndClusterConfigToGit, hcfg, deref_some, M.pure_bind]
  refine M.bind_events_emits (P := fun c => c.isPublish = true) ?_ env t
  intro a
  simp only [fluxForCluster.validateLocalConfigPathDoesNotExist,
    fluxForCluster.writeEksaSystemFiles,
    fluxForCluster.initEksaWriter, fluxForCluster.eksaSystemDir,
    fluxForCluster.generateClusterConfigFile, fluxForCluster.generateEksaKustomizeFile,
    fluxForCluster.writeFluxSystemFiles, fluxForCluster.initFluxWriter,
    fluxForCluster.fluxSystemDir, fluxForCluster.generateFluxKustomizeFile,
    FluxAddonClient.generateFluxSyncFile, fluxForCluster.generateFluxPatchFile,
    FluxAddonClient.pushToRemoteRepo,
    FluxAddonClient.Git, FluxAddonClient.Writer, fluxForCluster.namespace,
    fluxForCluster.path, fluxForCluster.github]
  repeat' first
    | apply Emits.pure
    | apply Emits.throwPanic
    | apply Emits.deref
    | apply Emits.Retry
    | apply Emits.RetryCapturing
    | exact Emits.callErr (by simp [Call.isPublish])
    | exact Emits.call (by simp [Call.isPublish])
    | apply Emits.bind
    | intro _
    | split

/-- After the commit-and-push phase, `InstallGitOps` makes only the calls of `isToolkit`. -/
theorem install_events_after_commit (f : FluxAddonClient) (g : GitOptions)
    (hg : f.gitOpts = some g) (cluster : types.Cluster) (clusterSpec : ClusterSpec)
    (datacenterConfig : Option providers.DatacenterConfig)
    (machineConfigs : List providers.MachineConfig) (env : Env) (t : List Event) :
    ∃ rest : List Event,
      (f.InstallGitOps cluster clusterSpec datacenterConfig machineConfigs env t).2
        = ((fluxForCluster.mk f clusterSpec datacenterConfig
            machineConfigs).commitFluxAndClusterConfigToGit env t).2 ++ rest ∧
      ∀ e ∈ rest, e.call.isToolkit = true := by
  simp only [FluxAddonClient.InstallGitOps, FluxAddonClient.shouldSkipFlux, hg,
    Option.isNone_some, Bool.false_eq_true, if_false]
  refine M.bind_events_emits (P := fun c => c.isToolkit = true) ?_ env t
  intro a
  simp only [FluxAddonClient.uninstallGitOpsToolkits, fluxForCluster.branch,
    fluxForCluster.github]
  repeat' first
    | apply Emits.pure
    | apply Emits.throwPanic
    | apply Emits.deref
    | apply Emits.Retry
    | apply Emits.RetryCapturing
    | exact Emits.callErr (by simp [Call.isToolkit])
    | exact Emits.call (by simp [Call.isToolkit])
    | apply Emits.bind
    | intro _
    | split

/-- The calls of `InstallGitOps` are those of `setupRepository`, followed by calls of
`isPublish` or `isToolkit`. -/
theorem install_events_after_setup (f : FluxAddonClient) (g : GitOptions)
    (hg : f.gitOpts = some g) (cluster : types.Cluster) (clusterSpec : ClusterSpec)
    (datacenterConfig : Option providers.DatacenterConfig)
    (machineConfigs : List providers.MachineConfig)
    (cfg : v1alpha1.GitOpsConfig) (hcfg : clusterSpec.GitOpsConfig = some cfg)
    (env : Env) (t : List Event) :
    ∃ rest : List Event,
      (f.InstallGitOps cluster clusterSpec datacenterConfig machineConfigs env t).2
        = ((fluxForCluster.mk f clusterSpec datacenterConfig
            machineConfigs).setupRepository env t).2 ++ rest ∧
      ∀ e ∈ rest, e.call.isPublish = true ∨ e.call.isToolkit = true := by
  obtain ⟨r1, h1, hr1⟩ := install_events_after_commit f g hg cluster clusterSpec
    datacenterConfig machineConfigs env t
  obtain ⟨r2, h2, hr2⟩ := commit_events_after_setup
    (fluxForCluster.mk f clusterSpec datacenterConfig machineConfigs) cfg hcfg env t
  refine ⟨r2 ++ r1, by rw [h1, h2, List.append_assoc], ?_⟩
  intro e he
  rcases List.mem_append.1 he with he | he
  · exact Or.inl (hr2 e he)
  · exact Or.inr (hr1 e he)

/-- The runs of `setupRepository` in which `clone` fails with an error that `errors.As`
recognises as a `RepositoryIsEmptyError`: after the calls of `clone` come the steps of the
local initialisation, cut after the first that fails. -/
theorem setupRepository_probe_empty (f : FluxAddonClient) (g : GitOptions)
    (hg : f.gitOpts = some g) (clusterSpec : ClusterSpec)
    (datacenterConfig : Option providers.DatacenterConfig)
    (machineConfigs : List providers.MachineConfig)
    (cfg : v1alpha1.GitOpsConfig) (hcfg : clusterSpec.GitOpsConfig = some cfg)
    (env : Env) (t probe : List Event) (r : Option git.Repository) (err : GoError)
    (hclone : (fluxForCluster.mk f clusterSpec datacenterConfig machineConfigs).clone env t
      = (.ret (r, some err), probe))
    (hempty : err.asRepositoryIsEmptyError = true) :
    ∃ steps : List Event,
      (fluxForCluster.mk f clusterSpec datacenterConfig machineConfigs).setupRepository env t
        = (if steps.length = 3 ∧ lastErr steps = none then .ret none
           else .ret ((lastErr steps).map fun e => .ConfigVersionControlFailedError
             (match steps.length with
              | 1 => .wraps "could not initialize repo: " e
              | 2 => .formats "error when initializing repository: " e
              | _ => .formats "error when creating branch: " e)), probe ++ steps) ∧
      steps ≠ [] ∧
      steps.map Event.call <+:
        [.Init, .Commit "initializing repository", .Branch cfg.Spec.Flux.Github.Branch] ∧
      (∀ e ∈ steps.dropLast, e.reply.err = none) ∧
      (steps.length < 3 → lastErr steps ≠ none) := by
  simp only [fluxForCluster.setupRepository]
  rw [M.bind_run_ret hclone]
  simp only [M.pure_bind, hempty, if_true,
    fluxForCluster.initializeLocalRepository, Git_of_gitOpts hg, hg, deref_some,
    fluxForCluster.branch, fluxForCluster.github, hcfg, M.bind_assoc]
  cases h1 : (env (t ++ probe) .Init).err with
  | some e1 =>
    refine ⟨[⟨.Init, env (t ++ probe) .Init⟩], ?_⟩
    simp [M.bind, callErr, M.pure, lastErr, h1, List.prefix_iff_eq_take]
  | none =>
    cases h2 : (env (t ++ (probe ++ [⟨.Init, env (t ++ probe) .Init⟩]))
        (.Commit "initializing repository")).err with
    | some e2 =>
      refine ⟨[⟨.Init, env (t ++ probe) .Init⟩, ⟨.Commit "initializing repository",
        env (t ++ (probe ++ [⟨.Init, env (t ++ probe) .Init⟩]))
          (.Commit "initializing repository")⟩], ?_⟩
      simp [M.bind, callErr, M.pure, lastErr, h1, h2, List.prefix_iff_eq_take]
    | none =>
      refine ⟨[⟨.Init, env (t ++ probe) .Init⟩, ⟨.Commit "initializing repository",
        env (t ++ (probe ++ [⟨.Init, env (t ++ probe) .Init⟩]))
          (.Commit "initializing repository")⟩,
        ⟨.Branch cfg.Spec.Flux.Github.Branch,
          env (t ++ (probe ++ [⟨.Init, env (t ++ probe) .Init⟩,
            ⟨.Commit "initializing repository",
              env (t ++ (probe ++ [⟨.Init, env (t ++ probe) .Init⟩]))
                (.Commit "initializing repository")⟩]))
            (.Branch cfg.Spec.Flux.Github.Branch)⟩], ?_⟩
      cases h3 : (env (t ++ (probe ++ [⟨.Init, env (t ++ probe) .Init⟩,
            ⟨.Commit "initializing repository",
              env (t ++ (probe ++ [⟨.Init, env (t ++ probe) .Init⟩]))
                (.Commit "initializing repository")⟩]))
            (.Branch cfg.Spec.Flux.Github.Branch)).err with
      | some e3 => simp [M.bind, callErr, M.pure, lastErr, h1, h2, h3]
      | none => simp [M.bind, callErr, M.pure, lastErr, h1, h2, h3]


theorem afterSetup_not_setup (c : Call) (h : c.isPublish = true ∨ c.isToolkit = true) :
    c.isCreateRepo = false ∧ c ≠ .Init ∧ c ≠ .Clone ∧ c ≠ .GetRepo ∧
      c ≠ .Commit "initializing repository" := by
  cases c <;> simp [Call.isPublish, Call.isToolkit, Call.isCreateRepo] at h ⊢
  subst h
  decide

/-- The calls of `clone`. -/
theorem clone_emits (fc : fluxForCluster) : Emits (fun c => c.isCloneStep = true) fc.clone := by
  simp only [fluxForCluster.clone, fluxForCluster.describeRepo, FluxAddonClient.Git,
    fluxForCluster.branch, fluxForCluster.github]
  repeat' first
    | apply Emits.pure
    | apply Emits.throwPanic
    | apply Emits.deref
    | apply Emits.Retry
    | apply Emits.RetryCapturing
    | exact Emits.callErr (by simp [Call.isCloneStep])
    | exact Emits.call (by simp [Call.isCloneStep])
    | apply Emits.bind
    | intro _
    | split

theorem cloneStep_not_create (c : Call) (h : c.isCloneStep = true) :
    c.isCreateRepo = false ∧ c ≠ .Init ∧ c.isCommit = false ∧ c.isAdd = false ∧ c ≠ .Push := by
  cases c <;> simp [Call.isCloneStep, Call.isCreateRepo, Call.isCommit, Call.isAdd] at h ⊢

/-! ## C3 -/

/-- C3: in every run of `InstallGitOps` in which the probe (`clone`, which describes the remote
repository and clones it) fails with an error that is, or wraps, a `RepositoryIsEmptyError`,
`setupRepository` then performs the local initialisation in the order `Init`,
`Commit "initializing repository"`, `Branch` of the target branch, each step being taken when
the one before succeeded; setup returns nil exactly when the three steps were taken and
succeeded; and `CreateRepo` is never called in the whole run. -/
theorem install_probe_empty_initialises_locally (f : FluxAddonClient) (g : GitOptions)
    (hg : f.gitOpts = some g) (cluster : types.Cluster) (clusterSpec : ClusterSpec)
    (datacenterConfig : Option providers.DatacenterConfig)
    (machineConfigs : List providers.MachineConfig)
    (cfg : v1alpha1.GitOpsConfig) (hcfg : clusterSpec.GitOpsConfig = some cfg)
    (env : Env) (t probe : List Event) (r : Option git.Repository) (err : GoError)
    (hclone : (fluxForCluster.mk f clusterSpec datacenterConfig machineConfigs).clone env t
      = (.ret (r, some err), probe))
    (hempty : err.asRepositoryIsEmptyError = true) :
    ∃ steps rest : List Event,
      ((fluxForCluster.mk f clusterSpec datacenterConfig machineConfigs).setupRepository env t).2
        = probe ++ steps ∧
      steps ≠ [] ∧
      steps.map Event.call <+:
        [.Init, .Commit "initializing repository", .Branch cfg.Spec.Flux.Github.Branch] ∧
      (∀ e ∈ steps.dropLast, e.reply.err = none) ∧
      (steps.length < 3 → lastErr steps ≠ none) ∧
      (((fluxForCluster.mk f clusterSpec datacenterConfig machineConfigs).setupRepository env t).1
          = .ret none ↔ steps.length = 3 ∧ ∀ e ∈ steps, e.reply.err = none) ∧
      (f.InstallGitOps cluster clusterSpec datacenterConfig machineConfigs env t).2
        = probe ++ steps ++ rest ∧
      (∀ e ∈ (f.InstallGitOps cluster clusterSpec datacenterConfig machineConfigs env t).2,
        e.call.isCreateRepo = false) := by
  obtain ⟨steps, hsetup, hne, hpre, hdrop, hshort⟩ := setupRepository_probe_empty f g hg
    clusterSpec datacenterConfig machineConfigs cfg hcfg env t probe r err hclone hempty
  obtain ⟨rest, hinstall, hrest⟩ := install_events_after_setup f g hg cluster clusterSpec
    datacenterConfig machineConfigs cfg hcfg env t
  have hsetup2 : ((fluxForCluster.mk f clusterSpec datacenterConfig
      machineConfigs).setupRepository env t).2 = probe ++ steps := by rw [hsetup]
  have hlen : steps.length ≤ 3 := by
    have := hpre.length_le
    simpa using this
  refine ⟨steps, rest, hsetup2, hne, hpre, hdrop, hshort, ?_, by rw [hinstall, hsetup2], ?_⟩
  · rw [hsetup]
    rcases steps with _ | ⟨a, _ | ⟨b, _ | ⟨c, _ | ⟨d, l⟩⟩⟩⟩
    · exact absurd rfl hne
    · simpa [lastErr] using hshort
    · simpa [lastErr] using hshort
    · have hab := hdrop
      simp [List.dropLast] at hab
      simp [lastErr, hab]
    · simp at hlen
  · intro e he
    rw [hinstall, hsetup2] at he
    rcases List.mem_append.1 he with he | he
    · rcases List.mem_append.1 he with he | he
      · have := Emits.mem (clone_emits _) env t (e := e) (by rw [hclone]; exact he)
        exact (cloneStep_not_create _ this).1
      · have hmem : e.call ∈ steps.map Event.call := List.mem_map_of_mem _ he
        have := hpre.subset hmem
        simp at this
        rcases this with h | h | h <;> rw [h] <;> rfl
    · exact (afterSetup_not_setup _ (hrest e he)).1

theorem install_probe_empty_initialises_locally_witness :
    ∃ steps rest : List Event,
      ((fluxForCluster.mk sampleClient sampleSpec none []).setupRepository envEmpty []).2
        = (⟨.GetRepo, envEmpty [] .GetRepo⟩ :: List.replicate 5 ⟨.Clone, envEmpty [] .Clone⟩)
          ++ steps ∧
      steps ≠ [] ∧
      steps.map Event.call <+:
        [.Init, .Commit "initializing repository", .Branch sampleConfig.Spec.Flux.Github.Branch] ∧
      (∀ e ∈ steps.dropLast, e.reply.err = none) ∧
      (steps.length < 3 → lastErr steps ≠ none) ∧
      (((fluxForCluster.mk sampleClient sampleSpec none []).setupRepository envEmpty []).1
          = .ret none ↔ steps.length = 3 ∧ ∀ e ∈ steps, e.reply.err = none) ∧
      (sampleClient.InstallGitOps sampleCluster sampleSpec none [] envEmpty []).2
        = (⟨.GetRepo, envEmpty [] .GetRepo⟩ :: List.replicate 5 ⟨.Clone, envEmpty [] .Clone⟩)
          ++ steps ++ rest ∧
      (∀ e ∈ (sampleClient.InstallGitOps sampleCluster sampleSpec none [] envEmpty []).2,
        e.call.isCreateRepo = false) :=
  install_probe_empty_initialises_locally sampleClient sampleGitOpts rfl sampleCluster
    sampleSpec none [] sampleConfig rfl envEmpty []
    (⟨.GetRepo, envEmpty [] .GetRepo⟩ :: List.replicate 5 ⟨.Clone, envEmpty [] .Clone⟩) none
    (.RepositoryIsEmptyError "repository is empty") (by decide!) (by decide)

theorem setupRepository_of_clone_ok (fc : fluxForCluster) (env : Env) (t es : List Event)
    (r : git.Repository) (hclone : fc.clone env t = (.ret (some r, none), es)) :
    fc.setupRepository env t = (.ret none, es) := by
  simp only [fluxForCluster.setupRepository]
  rw [M.bind_run_ret hclone]
  simp [M.pure]

theorem setupRepository_of_clone_failed (fc : fluxForCluster) (env : Env) (t es : List Event)
    (r : Option git.Repository) (err : GoError) (hclone : fc.clone env t = (.ret (r, some err), es))
    (hother : err.asRepositoryIsEmptyError = false) :
    fc.setupRepository env t = (.ret (some (.ConfigVersionControlFailedError err)), es) := by
  simp only [fluxForCluster.setupRepository]
  rw [M.bind_run_ret hclone]
  simp [M.pure, hother]

/-- When the probe reports the repository present, `clone` either succeeds with that repository
or fails with the error of `Clone` or `Branch`. -/
theorem clone_probe_present (f : FluxAddonClient) (g : GitOptions) (hg : f.gitOpts = some g)
    (clusterSpec : ClusterSpec) (datacenterConfig : Option providers.DatacenterConfig)
    (machineConfigs : List providers.MachineConfig)
    (cfg : v1alpha1.GitOpsConfig) (hcfg : clusterSpec.GitOpsConfig = some cfg)
    (env : Env) (t probe : List Event) (r : git.Repository)
    (hprobe : (fluxForCluster.mk f clusterSpec datacenterConfig machineConfigs).describeRepo env t
      = (.ret (some r, none), probe)) :
    ∃ es : List Event,
      (fluxForCluster.mk f clusterSpec datacenterConfig machineConfigs).clone env t
        = (.ret (some r, none), es) ∨
      ∃ err, (fluxForCluster.mk f clusterSpec datacenterConfig machineConfigs).clone env t
        = (.ret (none, some err), es) := by
  obtain ⟨clones, hrun, -⟩ := Retry_callErr f.retrier .Clone env (t ++ probe)
  simp only [fluxForCluster.clone]
  rw [M.bind_run_ret hprobe]
  simp only [Git_of_gitOpts hg, hg, deref_some, M.pure_bind, fluxForCluster.branch,
    fluxForCluster.github, hcfg]
  rw [M.bind_run_ret hrun]
  cases hc : lastErr clones with
  | some err =>
    exact ⟨probe ++ clones, Or.inr ⟨err, by simp [M.pure]⟩⟩
  | none =>
    cases hb : (env (t ++ (probe ++ clones)) (.Branch cfg.Spec.Flux.Github.Branch)).err with
    | some err =>
      exact ⟨probe ++ (clones ++ [⟨.Branch cfg.Spec.Flux.Github.Branch,
        env (t ++ (probe ++ clones)) (.Branch cfg.Spec.Flux.Github.Branch)⟩]),
        Or.inr ⟨err, by simp [M.bind, callErr, M.pure, hb]⟩⟩
    | none =>
      exact ⟨probe ++ (clones ++ [⟨.Branch cfg.Spec.Flux.Github.Branch,
        env (t ++ (probe ++ clones)) (.Branch cfg.Spec.Flux.Github.Branch)⟩]),
        Or.inl (by simp [M.bind, callErr, M.pure, hb])⟩

/-! ## C4 -/

/-- C4 (as stated, refuted): the probe reports the repository present, the repository is empty
and every attempt of `Clone` fails with a `RepositoryIsEmptyError`; the local `Init` and the
placeholder commit are then performed. -/
theorem present_but_empty_initialises_locally :
    (fluxForCluster.mk sampleClient sampleSpec none []).describeRepo envEmpty []
      = (.ret (some { Name := "fleet" }, none), [⟨.GetRepo, envEmpty [] .GetRepo⟩]) ∧
    (⟨.Init, okReply⟩ : Event)
      ∈ (sampleClient.InstallGitOps sampleCluster sampleSpec none [] envEmpty []).2 ∧
    (⟨.Commit "initializing repository", okReply⟩ : Event)
      ∈ (sampleClient.InstallGitOps sampleCluster sampleSpec none [] envEmpty []).2 := by
  decide!

/-- C4 (amended): in every run of `InstallGitOps` in which the probe reports the repository
present, `CreateRepo` is never called; and unless the clone that follows fails with an error
that is, or wraps, a `RepositoryIsEmptyError`, neither `Init` nor the placeholder commit
`Commit "initializing repository"` is performed. -/
theorem install_probe_present_never_creates (f : FluxAddonClient) (g : GitOptions)
    (hg : f.gitOpts = some g) (cluster : types.Cluster) (clusterSpec : ClusterSpec)
    (datacenterConfig : Option providers.DatacenterConfig)
    (machineConfigs : List providers.MachineConfig)
    (cfg : v1alpha1.GitOpsConfig) (hcfg : clusterSpec.GitOpsConfig = some cfg)
    (env : Env) (t probe : List Event) (r : git.Repository)
    (hprobe : (fluxForCluster.mk f clusterSpec datacenterConfig machineConfigs).describeRepo env t
      = (.ret (some r, none), probe)) :
    (∀ e ∈ (f.InstallGitOps cluster clusterSpec datacenterConfig machineConfigs env t).2,
      e.call.isCreateRepo = false) ∧
    ((∀ r' err, ((fluxForCluster.mk f clusterSpec datacenterConfig machineConfigs).clone env t).1
        = .ret (r', some err) → err.asRepositoryIsEmptyError = false) →
      ∀ e ∈ (f.InstallGitOps cluster clusterSpec datacenterConfig machineConfigs env t).2,
        e.call ≠ .Init ∧ e.call ≠ .Commit "initializing repository") := by
  obtain ⟨rest, hinstall, hrest⟩ := install_events_after_setup f g hg cluster clusterSpec
    datacenterConfig machineConfigs cfg hcfg env t
  obtain ⟨es, hclone | ⟨err, hclone⟩⟩ := clone_probe_present f g hg clusterSpec
    datacenterConfig machineConfigs cfg hcfg env t probe r hprobe
  · -- the repository was cloned
    have hes : ∀ e ∈ es, e.call.isCloneStep = true := fun e he =>
      Emits.mem (clone_emits _) env t (e := e) (by rw [hclone]; exact he)
    have hsetup := setupRepository_of_clone_ok _ env t es r hclone
    rw [hsetup] at hinstall
    have key : ∀ e ∈ (f.InstallGitOps cluster clusterSpec datacenterConfig machineConfigs
        env t).2, e.call.isCreateRepo = false ∧ e.call ≠ .Init ∧
          e.call ≠ .Commit "initializing repository" := by
      intro e he
      rw [hinstall] at he
      rcases List.mem_append.1 he with he | he
      · have h := cloneStep_not_create _ (hes e he)
        refine ⟨h.1, h.2.1, ?_⟩
        intro hc
        have := h.2.2.1
        rw [hc] at this
        simp [Call.isCommit] at this
      · have h := afterSetup_not_setup _ (hrest e he)
        exact ⟨h.1, h.2.1, h.2.2.2.2⟩
    exact ⟨fun e he => (key e he).1, fun _ e he => (key e he).2⟩
  · -- the clone failed
    have hes : ∀ e ∈ es, e.call.isCloneStep = true := fun e he =>
      Emits.mem (clone_emits _) env t (e := e) (by rw [hclone]; exact he)
    cases hempty : err.asRepositoryIsEmptyError with
    | true =>
      obtain ⟨steps, hsetup, -, hpre, -, -⟩ := setupRepository_probe_empty f g hg
        clusterSpec datacenterConfig machineConfigs cfg hcfg env t es none err hclone hempty
      rw [hsetup] at hinstall
      refine ⟨?_, ?_⟩
      · intro e he
        rw [hinstall] at he
        rcases List.mem_append.1 he with he | he
        · rcases List.mem_append.1 he with he | he
          · exact (cloneStep_not_create _ (hes e he)).1
          · have hmem : e.call ∈ steps.map Event.call := List.mem_map_of_mem _ he
            have := hpre.subset hmem
            simp at this
            rcases this with h | h | h <;> rw [h] <;> rfl
        · exact (afterSetup_not_setup _ (hrest e he)).1
      · intro hnot
        have := hnot none err (by rw [hclone])
        rw [hempty] at this
        exact absurd this (by decide)
    | false =>
      have hsetup := setupRepository_of_clone_failed _ env t es none err hclone hempty
      rw [hsetup] at hinstall
      have key : ∀ e ∈ (f.InstallGitOps cluster clusterSpec datacenterConfig machineConfigs
          env t).2, e.call.isCreateRepo = false ∧ e.call ≠ .Init ∧
            e.call ≠ .Commit "initializing repository" := by
        intro e he
        rw [hinstall] at he
        rcases List.mem_append.1 he with he | he
        · have h := cloneStep_not_create _ (hes e he)
          refine ⟨h.1, h.2.1, ?_⟩
          intro hc
          have := h.2.2.1
          rw [hc] at this
          simp [Call.isCommit] at this
        · have h := afterSetup_not_setup _ (hrest e he)
          exact ⟨h.1, h.2.1, h.2.2.2.2⟩
      exact ⟨fun e he => (key e he).1, fun _ e he => (key e he).2⟩

theorem install_probe_present_never_creates_witness :
    (∀ e ∈ (sampleClient.InstallGitOps sampleCluster sampleSpec none [] envPresent []).2,
      e.call.isCreateRepo = false) ∧
    ((∀ r' err, ((fluxForCluster.mk sampleClient sampleSpec none []).clone envPresent []).1
        = .ret (r', some err) → err.asRepositoryIsEmptyError = false) →
      ∀ e ∈ (sampleClient.InstallGitOps sampleCluster sampleSpec none [] envPresent []).2,
        e.call ≠ .Init ∧ e.call ≠ .Commit "initializing repository") :=
  install_probe_present_never_creates sampleClient sampleGitOpts rfl sampleCluster
    sampleSpec none [] sampleConfig rfl envPresent [] [⟨.GetRepo, envPresent [] .GetRepo⟩]
    { Name := "fleet" } (by decide!)

theorem all_failed_of_lastErr {es : List Event} {err : GoError}
    (hdrop : ∀ e ∈ es.dropLast, e.reply.err ≠ none) (hlast : lastErr es = some err) :
    ∀ e ∈ es, e.reply.err ≠ none := by
  unfold lastErr at hlast
  cases hl : es.getLast? with
  | none => simp [hl] at hlast
  | some a =>
    simp only [hl, Option.some_bind] at hlast
    have hes := List.dropLast_append_getLast? (l := es) a (Option.mem_def.2 hl)
    intro e he
    rw [← hes] at he
    rcases List.mem_append.1 he with he | he
    · exact hdrop e he
    · simp only [List.mem_singleton] at he
      rw [he, hlast]
      simp

/-! ## C5 -/

/-- C5: `pushToRemoteRepo` calls `Commit` and then `Push` under the retry policy.  `Push` is
attempted at most `maxAttempts` times and every attempt but the last failed, so no attempt
follows a successful one.  The result is nil exactly when the commit succeeded and the last
push attempt succeeded.  Any other result is a `ConfigVersionControlFailedError`, and then
every push attempt made has failed: all `maxAttempts` of them when the commit succeeded, and
none was made when the commit itself failed. -/
theorem pushToRemoteRepo_retries_push (f : FluxAddonClient) (g : GitOptions)
    (hg : f.gitOpts = some g) (hr : 0 < f.retrier.maxAttempts) (path msg : String)
    (env : Env) (t : List Event) :
    ∃ (commit : Event) (pushes : List Event),
      (f.pushToRemoteRepo path msg env t).2 = commit :: pushes ∧
      commit.call = .Commit msg ∧
      (∀ e ∈ pushes, e.call = .Push) ∧
      pushes.length ≤ f.retrier.maxAttempts ∧
      (∀ e ∈ pushes.dropLast, e.reply.err ≠ none) ∧
      ((f.pushToRemoteRepo path msg env t).1 = .ret none ↔
        commit.reply.err = none ∧ ∃ last ∈ pushes.getLast?, last.reply.err = none) ∧
      ((f.pushToRemoteRepo path msg env t).1 ≠ .ret none →
        (∃ e, (f.pushToRemoteRepo path msg env t).1
          = .ret (some (.ConfigVersionControlFailedError e))) ∧
        (∀ e ∈ pushes, e.reply.err ≠ none) ∧
        (commit.reply.err = none → pushes.length = f.retrier.maxAttempts) ∧
        (commit.reply.err ≠ none → pushes = [])) := by
  simp only [FluxAddonClient.pushToRemoteRepo, Git_of_gitOpts hg]
  cases hc : (env t (.Commit msg)).err with
  | some e =>
    refine ⟨⟨.Commit msg, env t (.Commit msg)⟩, [], ?_⟩
    simp [M.bind, callErr, M.pure, hc]
  | none =>
    obtain ⟨pushes, hrun, hlen, hne, hcall, hdrop, hall⟩ := Retry_callErr f.retrier .Push env
      (t ++ [⟨.Commit msg, env t (.Commit msg)⟩])
    have hcommit : callErr (.Commit msg) env t
        = (.ret none, [⟨.Commit msg, env t (.Commit msg)⟩]) := by
      simp [callErr, hc]
    rw [M.bind_run_ret hcommit]
    simp only []
    rw [M.bind_run_ret hrun]
    refine ⟨⟨.Commit msg, env t (.Commit msg)⟩, pushes, ?_, rfl, hcall, hlen, hdrop, ?_, ?_⟩
    · cases hl : lastErr pushes <;> simp [M.pure]
    · cases hl : lastErr pushes with
      | none =>
        have hne' := hne hr
        have : ∃ last ∈ pushes.getLast?, last.reply.err = none := by
          unfold lastErr at hl
          cases hg' : pushes.getLast? with
          | none => exact absurd (List.getLast?_eq_none_iff.1 hg') hne'
          | some a =>
            simp only [hg', Option.some_bind] at hl
            exact ⟨a, by simp, hl⟩
        simpa [M.pure, hc] using this
      | some err =>
        have hfail := all_failed_of_lastErr hdrop hl
        have hno : ¬ ∃ last ∈ pushes.getLast?, last.reply.err = none := by
          rintro ⟨last, hmem, hlast⟩
          exact hfail last (List.mem_of_mem_getLast? hmem) hlast
        simpa [M.pure, hc] using hno
    · cases hl : lastErr pushes with
      | none => simp [M.pure]
      | some err =>
        have hfail := all_failed_of_lastErr hdrop hl
        intro _
        exact ⟨⟨.formats ("error when pushing " ++ path ++ " to git: ") err, by simp [M.pure]⟩,
          hfail, fun _ => hall hfail, fun h => absurd hc h⟩

theorem pushToRemoteRepo_retries_push_witness :
    ∃ (commit : Event) (pushes : List Event),
      (sampleClient.pushToRemoteRepo "clusters" updateClusterconfigCommitMessage
        envPushFailsTwice []).2 = commit :: pushes ∧
      commit.call = .Commit updateClusterconfigCommitMessage ∧
      (∀ e ∈ pushes, e.call = .Push) ∧
      pushes.length ≤ sampleClient.retrier.maxAttempts ∧
      (∀ e ∈ pushes.dropLast, e.reply.err ≠ none) ∧
      ((sampleClient.pushToRemoteRepo "clusters" updateClusterconfigCommitMessage
          envPushFailsTwice []).1 = .ret none ↔
        commit.reply.err = none ∧ ∃ last ∈ pushes.getLast?, last.reply.err = none) ∧
      ((sampleClient.pushToRemoteRepo "clusters" updateClusterconfigCommitMessage
          envPushFailsTwice []).1 ≠ .ret none →
        (∃ e, (sampleClient.pushToRemoteRepo "clusters" updateClusterconfigCommitMessage
          envPushFailsTwice []).1 = .ret (some (.ConfigVersionControlFailedError e))) ∧
        (∀ e ∈ pushes, e.reply.err ≠ none) ∧
        (commit.reply.err = none → pushes.length = sampleClient.retrier.maxAttempts) ∧
        (commit.reply.err ≠ none → pushes = [])) :=
  pushToRemoteRepo_retries_push sampleClient sampleGitOpts rfl (by decide) "clusters"
    updateClusterconfigCommitMessage envPushFailsTwice []

theorem setup_not_publish (c : Call) (h : c.isSetup = true) :
    c.isWrite = false ∧ c.isAdd = false ∧ c ≠ .Commit initialClusterconfigCommitMessage ∧
      c ≠ .Push ∧ c.isBootstrap = false ∧
      (c.isCommit = true → c = .Commit "initializing repository") := by
  cases c <;> simp [Call.isSetup, Call.isWrite, Call.isAdd, Call.isBootstrap, Call.isCommit] at h ⊢
  subst h
  decide

/-- The run of `InstallGitOps` on a self-managed cluster whose configured path exists locally
once the repository is set up: the check of the path is the last call and the error is
returned at once. -/
theorem install_conflict_run (f : FluxAddonClient) (g : GitOptions)
    (hg : f.gitOpts = some g) (cluster : types.Cluster) (clusterSpec : ClusterSpec)
    (datacenterConfig : Option providers.DatacenterConfig)
    (machineConfigs : List providers.MachineConfig)
    (cfg : v1alpha1.GitOpsConfig) (hcfg : clusterSpec.GitOpsConfig = some cfg)
    (hself : clusterSpec.Cluster.IsSelfManaged = true)
    (env : Env) (t setup : List Event)
    (hsetup : (fluxForCluster.mk f clusterSpec datacenterConfig machineConfigs).setupRepository
      env t = (.ret none, setup))
    (hexists : (env (t ++ setup) (.FileExists
      (path.Join [g.Writer.Dir, cfg.Spec.Flux.Github.ClusterConfigPath]))).found = true) :
    f.InstallGitOps cluster clusterSpec datacenterConfig machineConfigs env t
      = (.ret (some (.ConfigVersionControlFailedError (.Errorf
          ("a cluster configuration file already exists at path " ++
            path.Join [g.Writer.Dir, cfg.Spec.Flux.Github.ClusterConfigPath])))),
         setup ++ [⟨.FileExists (path.Join [g.Writer.Dir, cfg.Spec.Flux.Github.ClusterConfigPath]),
           env (t ++ setup) (.FileExists
             (path.Join [g.Writer.Dir, cfg.Spec.Flux.Github.ClusterConfigPath]))⟩]) := by
  simp only [FluxAddonClient.InstallGitOps, FluxAddonClient.shouldSkipFlux, hg,
    Option.isNone_some, Bool.false_eq_true, if_false,
    fluxForCluster.commitFluxAndClusterConfigToGit, hcfg, deref_some, M.pure_bind, M.bind_assoc]
  rw [M.bind_run_ret hsetup]
  simp only [fluxForCluster.validateLocalConfigPathDoesNotExist, hself, if_true,
    FluxAddonClient.Writer, hg, deref_some, M.pure_bind, M.bind_assoc, fluxForCluster.path,
    fluxForCluster.github, hcfg]
  simp [M.bind, call, M.pure, hexists]

/-! ## C6 -/

/-- C6: for a self-managed cluster, if the configured cluster-config path exists under the
local writer directory once `setupRepository` has succeeded, `InstallGitOps` returns a
`ConfigVersionControlFailedError` right after the check of that path, and the run contains no
write of a manifest file, no `Add`, no commit of the cluster files, no `Push` and no bootstrap
of the toolkit. -/
theorem install_rejects_existing_local_path (f : FluxAddonClient) (g : GitOptions)
    (hg : f.gitOpts = some g) (cluster : types.Cluster) (clusterSpec : ClusterSpec)
    (datacenterConfig : Option providers.DatacenterConfig)
    (machineConfigs : List providers.MachineConfig)
    (cfg : v1alpha1.GitOpsConfig) (hcfg : clusterSpec.GitOpsConfig = some cfg)
    (hself : clusterSpec.Cluster.IsSelfManaged = true)
    (env : Env) (t setup : List Event)
    (hsetup : (fluxForCluster.mk f clusterSpec datacenterConfig machineConfigs).setupRepository
      env t = (.ret none, setup))
    (hexists : (env (t ++ setup) (.FileExists
      (path.Join [g.Writer.Dir, cfg.Spec.Flux.Github.ClusterConfigPath]))).found = true) :
    (∃ e, (f.InstallGitOps cluster clusterSpec datacenterConfig machineConfigs env t).1
      = .ret (some (.ConfigVersionControlFailedError e))) ∧
    (∃ check : Event,
      check.call = .FileExists (path.Join [g.Writer.Dir, cfg.Spec.Flux.Github.ClusterConfigPath]) ∧
      (f.InstallGitOps cluster clusterSpec datacenterConfig machineConfigs env t).2
        = setup ++ [check]) ∧
    (∀ e ∈ (f.InstallGitOps cluster clusterSpec datacenterConfig machineConfigs env t).2,
      e.call.isWrite = false ∧ e.call.isAdd = false ∧
      e.call ≠ .Commit initialClusterconfigCommitMessage ∧ e.call ≠ .Push ∧
      e.call.isBootstrap = false) := by
  have hrun := install_conflict_run f g hg cluster clusterSpec datacenterConfig machineConfigs
    cfg hcfg hself env t setup hsetup hexists
  have hsetupCalls : ∀ e ∈ setup, e.call.isSetup = true := fun e he =>
    Emits.mem (setupRepository_emits _) env t (e := e) (by rw [hsetup]; exact he)
  rw [hrun]
  refine ⟨⟨_, rfl⟩, ⟨_, rfl, rfl⟩, ?_⟩
  intro e he
  rcases List.mem_append.1 he with he | he
  · have h := setup_not_publish _ (hsetupCalls e he)
    exact ⟨h.1, h.2.1, h.2.2.1, h.2.2.2.1, h.2.2.2.2.1⟩
  · simp only [List.mem_singleton] at he
    subst he
    simp [Call.isWrite, Call.isAdd, Call.isBootstrap]

theorem install_rejects_existing_local_path_witness :
    (∃ e, (sampleClient.InstallGitOps sampleCluster sampleSpec none [] envPathTaken []).1
      = .ret (some (.ConfigVersionControlFailedError e))) ∧
    (∃ check : Event,
      check.call = .FileExists (path.Join [sampleGitOpts.Writer.Dir,
        sampleConfig.Spec.Flux.Github.ClusterConfigPath]) ∧
      (sampleClient.InstallGitOps sampleCluster sampleSpec none [] envPathTaken []).2
        = [⟨.GetRepo, envPathTaken [] .GetRepo⟩, ⟨.Clone, okReply⟩, ⟨.Branch "main", okReply⟩]
          ++ [check]) ∧
    (∀ e ∈ (sampleClient.InstallGitOps sampleCluster sampleSpec none [] envPathTaken []).2,
      e.call.isWrite = false ∧ e.call.isAdd = false ∧
      e.call ≠ .Commit initialClusterconfigCommitMessage ∧ e.call ≠ .Push ∧
      e.call.isBootstrap = false) :=
  install_rejects_existing_local_path sampleClient sampleGitOpts rfl sampleCluster sampleSpec
    none [] sampleConfig rfl rfl envPathTaken []
    [⟨.GetRepo, envPathTaken [] .GetRepo⟩, ⟨.Clone, okReply⟩, ⟨.Branch "main", okReply⟩]
    (by decide!) (by decide!)

/-! ## C7 -/

/-- C7 (as stated, refuted): the repository is absent from the remote and the configured path
exists in the local directory.  `InstallGitOps` fails with the conflict of the pre-existing
configuration after `CreateRepo`, `Init` and `Commit` have been invoked. -/
theorem conflict_found_after_remote_created :
    (sampleClient.InstallGitOps sampleCluster sampleSpec none [] envAbsentPathTaken []).1
      = .ret (some (.ConfigVersionControlFailedError (.Errorf
          "a cluster configuration file already exists at path prod1/git/fleet/clusters"))) ∧
    (sampleClient.InstallGitOps sampleCluster sampleSpec none [] envAbsentPathTaken []).2.map
        Event.call
      = [.GetRepo,
         .CreateRepo { Name := "fleet", Owner := "acme",
                       Description := "EKS-A cluster configuration repository",
                       Personal := false, Privacy := true },
         .Init, .Commit "initializing repository", .Branch "main",
         .FileExists "prod1/git/fleet/clusters"] := by
  decide!

/-- C7 (amended): whenever `InstallGitOps` fails with the conflict of the pre-existing
configuration (self-managed cluster, repository set up, configured path found locally), no
`Add` and no `Push` has been invoked, and no `Commit` other than the placeholder commit of the
local initialisation; and when the repository setup cloned the repository, none of
`CreateRepo`, `Init`, `Commit`, `Add` and `Push` has been invoked. -/
theorem install_conflict_before_publishing (f : FluxAddonClient) (g : GitOptions)
    (hg : f.gitOpts = some g) (cluster : types.Cluster) (clusterSpec : ClusterSpec)
    (datacenterConfig : Option providers.DatacenterConfig)
    (machineConfigs : List providers.MachineConfig)
    (cfg : v1alpha1.GitOpsConfig) (hcfg : clusterSpec.GitOpsConfig = some cfg)
    (hself : clusterSpec.Cluster.IsSelfManaged = true)
    (env : Env) (t setup : List Event)
    (hsetup : (fluxForCluster.mk f clusterSpec datacenterConfig machineConfigs).setupRepository
      env t = (.ret none, setup))
    (hexists : (env (t ++ setup) (.FileExists
      (path.Join [g.Writer.Dir, cfg.Spec.Flux.Github.ClusterConfigPath]))).found = true) :
    (∀ e ∈ (f.InstallGitOps cluster clusterSpec datacenterConfig machineConfigs env t).2,
      e.call.isAdd = false ∧ e.call ≠ .Push ∧
      (e.call.isCommit = true → e.call = .Commit "initializing repository")) ∧
    (∀ r es, (fluxForCluster.mk f clusterSpec datacenterConfig machineConfigs).clone env t
        = (.ret (some r, none), es) →
      ∀ e ∈ (f.InstallGitOps cluster clusterSpec datacenterConfig machineConfigs env t).2,
        e.call.isCreateRepo = false ∧ e.call ≠ .Init ∧ e.call.isCommit = false ∧
        e.call.isAdd = false ∧ e.call ≠ .Push) := by
  have hrun := install_conflict_run f g hg cluster clusterSpec datacenterConfig machineConfigs
    cfg hcfg hself env t setup hsetup hexists
  have hsetupCalls : ∀ e ∈ setup, e.call.isSetup = true := fun e he =>
    Emits.mem (setupRepository_emits _) env t (e := e) (by rw [hsetup]; exact he)
  rw [hrun]
  refine ⟨?_, ?_⟩
  · intro e he
    rcases List.mem_append.1 he with he | he
    · have h := setup_not_publish _ (hsetupCalls e he)
      exact ⟨h.2.1, h.2.2.2.1, h.2.2.2.2.2⟩
    · simp only [List.mem_singleton] at he
      subst he
      simp [Call.isAdd, Call.isCommit]
  · intro r es hclone e he
    have hsetup' := setupRepository_of_clone_ok _ env t es r hclone
    rw [hsetup] at hsetup'
    have hes : setup = es := by
      have := congrArg Prod.snd hsetup'
      simpa using this
    rcases List.mem_append.1 he with he | he
    · rw [hes] at he
      exact cloneStep_not_create _
        (Emits.mem (clone_emits _) env t (e := e) (by rw [hclone]; exact he))
    · simp only [List.mem_singleton] at he
      subst he
      simp [Call.isCreateRepo, Call.isAdd, Call.isCommit]

theorem install_conflict_before_publishing_witness :
    (∀ e ∈ (sampleClient.InstallGitOps sampleCluster sampleSpec none [] envAbsentPathTaken []).2,
      e.call.isAdd = false ∧ e.call ≠ .Push ∧
      (e.call.isCommit = true → e.call = .Commit "initializing repository")) ∧
    (∀ r es, (fluxForCluster.mk sampleClient sampleSpec none []).clone envAbsentPathTaken []
        = (.ret (some r, none), es) →
      ∀ e ∈ (sampleClient.InstallGitOps sampleCluster sampleSpec none []
          envAbsentPathTaken []).2,
        e.call.isCreateRepo = false ∧ e.call ≠ .Init ∧ e.call.isCommit = false ∧
        e.call.isAdd = false ∧ e.call ≠ .Push) :=
  install_conflict_before_publishing sampleClient sampleGitOpts rfl sampleCluster sampleSpec
    none [] sampleConfig rfl rfl envAbsentPathTaken []
    [⟨.GetRepo, okReply⟩,
     ⟨.CreateRepo { Name := "fleet", Owner := "acme",
                    Description := "EKS-A cluster configuration repository",
                    Personal := false, Privacy := true }, okReply⟩,
     ⟨.Init, okReply⟩, ⟨.Commit "initializing repository", okReply⟩, ⟨.Branch "main", okReply⟩]
    (by decide!) (by decide!)

/-- The commit-and-push phase makes no call of the toolkit phase. -/
theorem commitPhase_emits (fc : fluxForCluster) :
    Emits (fun c => c.isToolkit = false) fc.commitFluxAndClusterConfigToGit := by
  simp only [fluxForCluster.commitFluxAndClusterConfigToGit, fluxForCluster.setupRepository,
    fluxForCluster.clone, fluxForCluster.describeRepo, fluxForCluster.createRemoteRepository,
    fluxForCluster.initializeLocalRepository,
    fluxForCluster.validateLocalConfigPathDoesNotExist, fluxForCluster.writeEksaSystemFiles,
    fluxForCluster.initEksaWriter, fluxForCluster.eksaSystemDir,
    fluxForCluster.generateClusterConfigFile, fluxForCluster.generateEksaKustomizeFile,
    fluxForCluster.writeFluxSystemFiles, fluxForCluster.initFluxWriter,
    fluxForCluster.fluxSystemDir, fluxForCluster.generateFluxKustomizeFile,
    FluxAddonClient.generateFluxSyncFile, fluxForCluster.generateFluxPatchFile,
    FluxAddonClient.pushToRemoteRepo, FluxAddonClient.Git, FluxAddonClient.Writer,
    fluxForCluster.namespace, fluxForCluster.repository, fluxForCluster.owner,
    fluxForCluster.branch, fluxForCluster.personal, fluxForCluster.path, fluxForCluster.github]
  repeat' first
    | apply Emits.pure
    | apply Emits.throwPanic
    | apply Emits.deref
    | apply Emits.Retry
    | apply Emits.RetryCapturing
    | exact Emits.callErr (by simp [Call.isToolkit])
    | exact Emits.call (by simp [Call.isToolkit])
    | apply Emits.bind
    | intro _
    | split

theorem Retry_callErr_of_run {r : retrier.Retrier} {c : Call} {env : Env} {t es : List Event}
    {res : Error} (h : r.Retry (callErr c) env t = (.ret res, es)) :
    res = lastErr es ∧ es.length ≤ r.maxAttempts ∧ (0 < r.maxAttempts → es ≠ []) ∧
      (∀ e ∈ es, e.call = c) ∧ (∀ e ∈ es.dropLast, e.reply.err ≠ none) := by
  obtain ⟨es', hrun, hlen, hne, hcall, hdrop, -⟩ := Retry_callErr r c env t
  rw [hrun] at h
  have h1 : lastErr es' = res := by
    have := congrArg Prod.fst h
    simpa using this
  have h2 : es' = es := by
    have := congrArg Prod.snd h
    simpa using this
  subst h2
  exact ⟨h1.symm, hlen, hne, hcall, hdrop⟩

/-! ## C8 -/

/-- C8: in every run of `InstallGitOps` in which the commit-and-push phase succeeded, the
cluster is not part of an existing management cluster and the bootstrap of the toolkit failed
under the retry policy with the error `err`, `UninstallToolkitsComponents` is then invoked
(under the retry policy), `InstallGitOps` returns `err` whatever the uninstall answers, and no
`Pull` is attempted. -/
theorem install_bootstrap_failure_uninstalls (f : FluxAddonClient) (g : GitOptions)
    (hg : f.gitOpts = some g) (cluster : types.Cluster) (clusterSpec : ClusterSpec)
    (datacenterConfig : Option providers.DatacenterConfig)
    (machineConfigs : List providers.MachineConfig)
    (hmgmt : cluster.ExistingManagement = false)
    (env : Env) (t commit boot : List Event) (err : GoError)
    (hcommit : (fluxForCluster.mk f clusterSpec datacenterConfig
      machineConfigs).commitFluxAndClusterConfigToGit env t = (.ret none, commit))
    (hboot : f.retrier.Retry
      (callErr (.BootstrapToolkitsComponents cluster clusterSpec.GitOpsConfig)) env (t ++ commit)
      = (.ret (some err), boot)) :
    ∃ uninstall : List Event,
      f.InstallGitOps cluster clusterSpec datacenterConfig machineConfigs env t
        = (.ret (some err), commit ++ boot ++ uninstall) ∧
      uninstall = (f.uninstallGitOpsToolkits cluster clusterSpec env (t ++ commit ++ boot)).2 ∧
      uninstall ≠ [] ∧
      (∀ e ∈ uninstall, e.call = .UninstallToolkitsComponents cluster clusterSpec.GitOpsConfig) ∧
      (∀ e ∈ commit ++ boot ++ uninstall, e.call.isPull = false) := by
  obtain ⟨hres, hlenB, -, hcallB, -⟩ := Retry_callErr_of_run hboot
  have hpos : 0 < f.retrier.maxAttempts := by
    have hne := lastErr_eq_some hres.symm
    have : 0 < boot.length := List.length_pos.2 hne
    omega
  obtain ⟨uninstall, hrunU, -, hneU, hcallU, -, -⟩ := Retry_callErr f.retrier
    (.UninstallToolkitsComponents cluster clusterSpec.GitOpsConfig) env (t ++ commit ++ boot)
  have hcommitCalls : ∀ e ∈ commit, e.call.isToolkit = false := fun e he =>
    Emits.mem (commitPhase_emits _) env t (e := e) (by rw [hcommit]; exact he)
  refine ⟨uninstall, ?_, ?_, hneU hpos, hcallU, ?_⟩
  · simp only [FluxAddonClient.InstallGitOps, FluxAddonClient.shouldSkipFlux, hg,
      Option.isNone_some, Bool.false_eq_true, if_false]
    rw [M.bind_run_ret hcommit]
    simp only [hmgmt, Bool.not_false, if_true]
    rw [M.bind_run_ret hboot]
    simp only [FluxAddonClient.uninstallGitOpsToolkits]
    rw [M.bind_run_ret hrunU]
    simp [M.pure]
  · simp only [FluxAddonClient.uninstallGitOpsToolkits]
    rw [hrunU]
  · intro e he
    rcases List.mem_append.1 he with he | he
    · rcases List.mem_append.1 he with he | he
      · have := hcommitCalls e he
        revert this
        cases e.call <;> simp [Call.isToolkit, Call.isPull]
      · rw [hcallB e he]
        rfl
    · rw [hcallU e he]
      rfl

theorem install_bootstrap_failure_uninstalls_witness :
    ∃ uninstall : List Event,
      sampleClient.InstallGitOps sampleCluster sampleSpec none [] envBootstrapFails []
        = (.ret (some (.external "flux bootstrap failed")),
            sampleCommitEvents envBootstrapFails ++
            List.replicate 5
              ⟨.BootstrapToolkitsComponents sampleCluster sampleSpec.GitOpsConfig,
                failReply "flux bootstrap failed"⟩ ++ uninstall) ∧
      uninstall = (sampleClient.uninstallGitOpsToolkits sampleCluster sampleSpec
        envBootstrapFails ([] ++ sampleCommitEvents envBootstrapFails ++ List.replicate 5
              ⟨.BootstrapToolkitsComponents sampleCluster sampleSpec.GitOpsConfig,
                failReply "flux bootstrap failed"⟩)).2 ∧
      uninstall ≠ [] ∧
      (∀ e ∈ uninstall,
        e.call = .UninstallToolkitsComponents sampleCluster sampleSpec.GitOpsConfig) ∧
      (∀ e ∈ sampleCommitEvents envBootstrapFails ++
            List.replicate 5
              ⟨.BootstrapToolkitsComponents sampleCluster sampleSpec.GitOpsConfig,
                failReply "flux bootstrap failed"⟩ ++ uninstall, e.call.isPull = false) :=
  install_bootstrap_failure_uninstalls sampleClient sampleGitOpts rfl sampleCluster sampleSpec
    none [] rfl envBootstrapFails [] (sampleCommitEvents envBootstrapFails)
    (List.replicate 5 ⟨.BootstrapToolkitsComponents sampleCluster sampleSpec.GitOpsConfig,
      failReply "flux bootstrap failed"⟩)
    (.external "flux bootstrap failed") (by decide!) (by decide!)

/-! ## C9 -/

/-- C9: in every run of `InstallGitOps` in which the commit-and-push phase succeeded and the
bootstrap of the toolkit, when it is performed (the cluster is not part of an existing
management cluster), succeeded, the `Pull` of the target branch is attempted under the retry
policy and `InstallGitOps` returns nil whatever the attempts of `Pull` answer, also when every
one of them fails. -/
theorem install_succeeds_despite_pull (f : FluxAddonClient) (g : GitOptions)
    (hg : f.gitOpts = some g) (cluster : types.Cluster) (clusterSpec : ClusterSpec)
    (datacenterConfig : Option providers.DatacenterConfig)
    (machineConfigs : List providers.MachineConfig)
    (cfg : v1alpha1.GitOpsConfig) (hcfg : clusterSpec.GitOpsConfig = some cfg)
    (env : Env) (t commit boot : List Event)
    (hcommit : (fluxForCluster.mk f clusterSpec datacenterConfig
      machineConfigs).commitFluxAndClusterConfigToGit env t = (.ret none, commit))
    (hboot : (cluster.ExistingManagement = true ∧ boot = []) ∨
      (cluster.ExistingManagement = false ∧
        f.retrier.Retry
          (callErr (.BootstrapToolkitsComponents cluster clusterSpec.GitOpsConfig)) env
          (t ++ commit) = (.ret none, boot))) :
    ∃ pulls : List Event,
      f.InstallGitOps cluster clusterSpec datacenterConfig machineConfigs env t
        = (.ret none, commit ++ boot ++ pulls) ∧
      (∀ e ∈ pulls, e.call = .Pull cfg.Spec.Flux.Github.Branch) ∧
      pulls.length ≤ f.retrier.maxAttempts ∧
      ((∀ e ∈ pulls, e.reply.err ≠ none) → pulls.length = f.retrier.maxAttempts) := by
  obtain ⟨pulls, hrunP, hlenP, -, hcallP, -, hallP⟩ := Retry_callErr f.retrier
    (.Pull cfg.Spec.Flux.Github.Branch) env (t ++ commit ++ boot)
  refine ⟨pulls, ?_, hcallP, hlenP, hallP⟩
  simp only [FluxAddonClient.InstallGitOps, FluxAddonClient.shouldSkipFlux, hg,
    Option.isNone_some, Bool.false_eq_true, if_false]
  rw [M.bind_run_ret hcommit]
  rcases hboot with ⟨hmgmt, hb⟩ | ⟨hmgmt, hb⟩
  · subst hb
    simp only [hmgmt, Bool.not_true, Bool.false_eq_true, if_false, fluxForCluster.branch,
      fluxForCluster.github, hcfg, deref_some, M.pure_bind, hg, List.append_nil] at hrunP ⊢
    rw [M.bind_run_ret hrunP]
    simp [M.pure]
  · simp only [hmgmt, Bool.not_false, if_true]
    rw [M.bind_run_ret hb]
    simp only [fluxForCluster.branch, fluxForCluster.github, hcfg, deref_some, M.pure_bind, hg]
    rw [M.bind_run_ret hrunP]
    simp [M.pure]

theorem install_succeeds_despite_pull_witness :
    ∃ pulls : List Event,
      sampleClient.InstallGitOps sampleCluster sampleSpec none [] envPullFails []
        = (.ret none, sampleCommitEvents envPullFails ++
            [⟨.BootstrapToolkitsComponents sampleCluster sampleSpec.GitOpsConfig, okReply⟩] ++
            pulls) ∧
      (∀ e ∈ pulls, e.call = .Pull sampleConfig.Spec.Flux.Github.Branch) ∧
      pulls.length ≤ sampleClient.retrier.maxAttempts ∧
      ((∀ e ∈ pulls, e.reply.err ≠ none) → pulls.length = sampleClient.retrier.maxAttempts) :=
  install_succeeds_despite_pull sampleClient sampleGitOpts rfl sampleCluster sampleSpec
    none [] sampleConfig rfl envPullFails [] (sampleCommitEvents envPullFails)
    [⟨.BootstrapToolkitsComponents sampleCluster sampleSpec.GitOpsConfig, okReply⟩]
    (by decide!) (Or.inr (by decide!))

/-! ## C10 -/

/-- C10: for a configured client, `InstallGitOps` invokes `BootstrapToolkitsComponents` if and
only if the commit-and-push phase returned nil and the cluster is not part of an existing
management cluster; and when the commit-and-push phase does not return nil, no bootstrap, no
uninstall and no pull is invoked. -/
theorem install_bootstraps_iff (f : FluxAddonClient) (g : GitOptions)
    (hg : f.gitOpts = some g) (hr : 0 < f.retrier.maxAttempts)
    (cluster : types.Cluster) (clusterSpec : ClusterSpec)
    (datacenterConfig : Option providers.DatacenterConfig)
    (machineConfigs : List providers.MachineConfig) (env : Env) (t : List Event) :
    ((∃ e ∈ (f.InstallGitOps cluster clusterSpec datacenterConfig machineConfigs env t).2,
        e.call.isBootstrap = true) ↔
      (((fluxForCluster.mk f clusterSpec datacenterConfig
          machineConfigs).commitFluxAndClusterConfigToGit env t).1 = .ret none ∧
        cluster.ExistingManagement = false)) ∧
    (((fluxForCluster.mk f clusterSpec datacenterConfig
          machineConfigs).commitFluxAndClusterConfigToGit env t).1 ≠ .ret none →
      ∀ e ∈ (f.InstallGitOps cluster clusterSpec datacenterConfig machineConfigs env t).2,
        e.call.isBootstrap = false ∧ e.call.isUninstall = false ∧ e.call.isPull = false) := by
  have hcommitCalls := fun e he =>
    Emits.mem (commitPhase_emits (fluxForCluster.mk f clusterSpec datacenterConfig
      machineConfigs)) env t (e := e) he
  have hsplit : ∀ c : Call, c.isToolkit = false →
      c.isBootstrap = false ∧ c.isUninstall = false ∧ c.isPull = false := by
    intro c
    cases c <;> simp [Call.isToolkit, Call.isBootstrap, Call.isUninstall, Call.isPull]
  simp only [FluxAddonClient.InstallGitOps, FluxAddonClient.shouldSkipFlux, hg,
    Option.isNone_some, Bool.false_eq_true, if_false]
  rcases hrun : (fluxForCluster.mk f clusterSpec datacenterConfig
      machineConfigs).commitFluxAndClusterConfigToGit env t with ⟨o, commit⟩
  rw [hrun] at hcommitCalls
  cases o with
  | panics =>
    rw [M.bind_run_panics hrun]
    refine ⟨⟨?_, ?_⟩, ?_⟩
    · rintro ⟨e, he, hb⟩
      have := (hsplit _ (hcommitCalls e he)).1
      rw [hb] at this
      exact absurd this (by decide)
    · rintro ⟨h, -⟩
      exact absurd h (by simp)
    · intro _ e he
      exact hsplit _ (hcommitCalls e he)
  | ret res =>
    cases res with
    | some err =>
      rw [M.bind_run_ret hrun]
      simp only [M.pure, List.append_nil]
      refine ⟨⟨?_, ?_⟩, ?_⟩
      · rintro ⟨e, he, hb⟩
        have := (hsplit _ (hcommitCalls e he)).1
        rw [hb] at this
        exact absurd this (by decide)
      · rintro ⟨h, -⟩
        exact absurd h (by simp)
      · intro _ e he
        exact hsplit _ (hcommitCalls e he)
    | none =>
      rw [M.bind_run_ret hrun]
      refine ⟨?_, fun h => absurd rfl h⟩
      cases hmgmt : cluster.ExistingManagement with
      | true =>
        simp only [Bool.not_true, Bool.false_eq_true, if_false]
        refine iff_of_false ?_ (by simp)
        rintro ⟨e, he, hb⟩
        rcases List.mem_append.1 he with he | he
        · have := (hsplit _ (hcommitCalls e he)).1
          rw [hb] at this
          exact absurd this (by decide)
        · have : e.call.isBootstrap = false := by
            refine Emits.mem (P := fun c => c.isBootstrap = false) ?_ env _ he
            simp only [fluxForCluster.branch, fluxForCluster.github]
            repeat' first
              | apply Emits.pure
              | apply Emits.throwPanic
              | apply Emits.deref
              | apply Emits.Retry
              | apply Emits.RetryCapturing
              | exact Emits.callErr (by simp [Call.isBootstrap])
              | exact Emits.call (by simp [Call.isBootstrap])
              | apply Emits.bind
              | intro _
          rw [hb] at this
          exact absurd this (by decide)
      | false =>
        simp only [Bool.not_false, if_true]
        refine iff_of_true ?_ (by simp)
        obtain ⟨boot, hrunB, -, hneB, hcallB, -, -⟩ := Retry_callErr f.retrier
          (.BootstrapToolkitsComponents cluster clusterSpec.GitOpsConfig) env (t ++ commit)
        rw [M.bind_run_ret hrunB]
        obtain ⟨b, hb⟩ := List.exists_mem_of_ne_nil _ (hneB hr)
        refine ⟨b, ?_, ?_⟩
        · simp [hb]
        · rw [hcallB b hb]
          rfl

theorem install_bootstraps_iff_witness :
    ((∃ e ∈ (sampleClient.InstallGitOps sampleCluster sampleSpec none [] envPresent []).2,
        e.call.isBootstrap = true) ↔
      (((fluxForCluster.mk sampleClient sampleSpec none []).commitFluxAndClusterConfigToGit
          envPresent []).1 = .ret none ∧
        sampleCluster.ExistingManagement = false)) ∧
    (((fluxForCluster.mk sampleClient sampleSpec none []).commitFluxAndClusterConfigToGit
          envPresent []).1 ≠ .ret none →
      ∀ e ∈ (sampleClient.InstallGitOps sampleCluster sampleSpec none [] envPresent []).2,
        e.call.isBootstrap = false ∧ e.call.isUninstall = false ∧ e.call.isPull = false) :=
  install_bootstraps_iff sampleClient sampleGitOpts rfl (by decide) sampleCluster sampleSpec
    none [] envPresent []

/-! ## Staging, commit and push -/

theorem M.bind_pure {α : Type} (m : M α) : M.bind m M.pure = m := by
  funext env t
  simp only [M.bind]
  rcases m env t with ⟨o, es⟩
  cases o <;> simp [M.pure]

theorem Staged.of_pure {N : Call → Prop} {msg : String} (a : Error) : Staged N msg (M.pure a) :=
  fun _ _ => ⟨[], [], by simp [M.pure], by simp, Or.inl rfl⟩

theorem Staged.of_throwPanic {N : Call → Prop} {msg : String} :
    Staged N msg (throwPanic : M Error) :=
  fun _ _ => ⟨[], [], by simp [addonclients.throwPanic], by simp, Or.inl rfl⟩

/-- A computation that makes only calls of `N` may precede a staged computation. -/
theorem Staged.bind_neutral {α : Type} {N : Call → Prop} {msg : String} {m : M α}
    {f : α → M Error} (hm : Emits N m) (hf : ∀ a, Staged N msg (f a)) :
    Staged N msg (M.bind m f) := by
  intro env t
  have hem := fun e he => Emits.mem hm env t (e := e) he
  rcases hrun : m env t with ⟨o, es⟩
  rw [hrun] at hem
  cases o with
  | panics =>
    exact ⟨es, [], by simp [M.bind_run_panics hrun], hem, Or.inl rfl⟩
  | ret a =>
    obtain ⟨pre, tail, hes, hpre, htail⟩ := hf a env (t ++ es)
    refine ⟨es ++ pre, tail, ?_, ?_, ?_⟩
    · rw [M.bind_run_ret hrun]
      simp [hes, List.append_assoc]
    · intro e he
      rcases List.mem_append.1 he with he | he
      · exact hem e he
      · exact hpre e he
    · rw [M.bind_run_ret hrun]
      exact htail

/-- A staged computation may be followed by a continuation that hands an error on unchanged and
makes neither a staging call nor a commit, its calls satisfying `N`. -/
theorem Staged.bind_after {N : Call → Prop} {msg : String} {m : M Error} {k : Error → M Error}
    (hm : Staged N msg m) (hk : ∀ e, k (some e) = M.pure (some e))
    (hkN : ∀ a, Emits (fun c => N c ∧ c.isStage = false ∧ c.isCommit = false) (k a)) :
    Staged N msg (M.bind m k) := by
  intro env t
  obtain ⟨pre, tail, hes, hpre, htail⟩ := hm env t
  rcases hrun : m env t with ⟨o, es⟩
  rw [hrun] at hes htail
  simp only at hes htail
  cases o with
  | panics =>
    refine ⟨pre, tail, by simp [M.bind_run_panics hrun, hes], hpre, ?_⟩
    rw [M.bind_run_panics hrun]
    exact htail
  | ret a =>
    cases a with
    | some err =>
      refine ⟨pre, tail, ?_, hpre, ?_⟩
      · rw [M.bind_run_ret hrun, hk]
        simp [M.pure, hes]
      · rw [M.bind_run_ret hrun, hk]
        simpa [M.pure] using htail
    | none =>
      have hmore := fun e he => Emits.mem (hkN none) env (t ++ es) (e := e) he
      rcases htail with htail | ⟨stage, hstage, hcase⟩
      · refine ⟨pre ++ (k none env (t ++ es)).2, [], ?_, ?_, Or.inl rfl⟩
        · rw [M.bind_run_ret hrun]
          simp [hes, htail]
        · intro e he
          rcases List.mem_append.1 he with he | he
          · exact hpre e he
          · exact (hmore e he).1
      · rcases hcase with ⟨-, -, e, he⟩ | ⟨hok, commit, more, htl, hcommit, hmoreOK, hfail⟩
        · simp at he
        · refine ⟨pre, stage :: commit :: (more ++ (k none env (t ++ es)).2), ?_, hpre,
            Or.inr ⟨stage, hstage, Or.inr ⟨hok, commit, _, rfl, hcommit, ?_, ?_⟩⟩⟩
          · rw [M.bind_run_ret hrun]
            simp [hes, htl]
          · intro e he
            rcases List.mem_append.1 he with he | he
            · exact hmoreOK e he
            · exact (hmore e he).2
          · intro hc
            obtain ⟨-, e, he⟩ := hfail hc
            simp at he

/-- The runs of `pushToRemoteRepo`: the commit, followed by the attempts of `Push` when the
commit succeeded; the outcome is nil or a `ConfigVersionControlFailedError`. -/
theorem pushToRemoteRepo_run (f : FluxAddonClient) (g : GitOptions) (hg : f.gitOpts = some g)
    (path msg : String) (env : Env) (t : List Event) :
    ∃ (commit : Event) (pushes : List Event),
      (f.pushToRemoteRepo path msg env t).2 = commit :: pushes ∧
      commit.call = .Commit msg ∧ (∀ e ∈ pushes, e.call = .Push) ∧
      (commit.reply.err ≠ none → pushes = []) ∧
      (((f.pushToRemoteRepo path msg env t).1 = .ret none ∧ commit.reply.err = none) ∨
        ∃ e, (f.pushToRemoteRepo path msg env t).1
            = .ret (some (.ConfigVersionControlFailedError e))) := by
  simp only [FluxAddonClient.pushToRemoteRepo, Git_of_gitOpts hg]
  cases hc : (env t (.Commit msg)).err with
  | some e =>
    refine ⟨⟨.Commit msg, env t (.Commit msg)⟩, [], ?_⟩
    simp [M.bind, callErr, M.pure, hc]
  | none =>
    obtain ⟨pushes, hrun, -, -, hcall, -, -⟩ := Retry_callErr f.retrier .Push env
      (t ++ [⟨.Commit msg, env t (.Commit msg)⟩])
    have hcommit : callErr (.Commit msg) env t
        = (.ret none, [⟨.Commit msg, env t (.Commit msg)⟩]) := by
      simp [callErr, hc]
    rw [M.bind_run_ret hcommit]
    simp only []
    rw [M.bind_run_ret hrun]
    refine ⟨⟨.Commit msg, env t (.Commit msg)⟩, pushes, ?_, rfl, hcall, ?_, ?_⟩
    · cases hl : lastErr pushes <;> simp [M.pure]
    · intro h
      exact absurd hc h
    · cases hl : lastErr pushes with
      | none => exact Or.inl ⟨by simp [M.pure], hc⟩
      | some err =>
        exact Or.inr ⟨.formats ("error when pushing " ++ path ++ " to git: ") err,
          by simp [M.pure]⟩

/-- The staging call of an operation, followed by `pushToRemoteRepo` and by a continuation that
hands an error on unchanged. -/
theorem Staged.stage {N : Call → Prop} {msg : String} (f : FluxAddonClient) (g : GitOptions)
    (hg : f.gitOpts = some g) (c : Call) (hc : c.isStage = true) (pfx p : String)
    (k : Error → M Error) (G : Error → M Error)
    (hksome : ∀ e, k (some e)
      = M.pure (some (.ConfigVersionControlFailedError (.formats pfx e))))
    (hknone : k none = M.bind (f.pushToRemoteRepo p msg) G)
    (hG : ∀ e, G (some e) = M.pure (some e))
    (hGN : ∀ a, Emits (fun c => c.isStage = false ∧ c.isCommit = false) (G a)) :
    Staged N msg (M.bind (callErr c) k) := by
  intro env t
  cases hs : (env t c).err with
  | some e =>
    have hstageRun : callErr c env t = (.ret (some e), [⟨c, env t c⟩]) := by
      simp [callErr, hs]
    rw [M.bind_run_ret hstageRun, hksome]
    exact ⟨[], [⟨c, env t c⟩], by simp [M.pure], by simp,
      Or.inr ⟨⟨c, env t c⟩, hc, Or.inl ⟨by simp [hs], by simp [M.pure],
        .formats pfx e, by simp [M.pure]⟩⟩⟩
  | none =>
    have hstageRun : callErr c env t = (.ret none, [⟨c, env t c⟩]) := by
      simp [callErr, hs]
    rw [M.bind_run_ret hstageRun, hknone]
    obtain ⟨commit, pushes, hev, hcommit, hpushes, hcfail, hout⟩ :=
      pushToRemoteRepo_run f g hg p msg env (t ++ [⟨c, env t c⟩])
    rcases hrun : f.pushToRemoteRepo p msg env (t ++ [⟨c, env t c⟩]) with ⟨o, es⟩
    rw [hrun] at hev hout
    simp only at hev hout
    subst hev
    have hpushCalls : ∀ e ∈ pushes, e.call.isStage = false ∧ e.call.isCommit = false := by
      intro e he
      rw [hpushes e he]
      exact ⟨rfl, rfl⟩
    rcases hout with ⟨ho, hcok⟩ | ⟨e, ho⟩
    · -- the commit and the push succeeded
      subst ho
      have hmore := fun e he =>
        Emits.mem (hGN none) env (t ++ [⟨c, env t c⟩] ++ commit :: pushes) (e := e) he
      refine ⟨[], ⟨c, env t c⟩ :: commit ::
        (pushes ++ (G none env (t ++ [⟨c, env t c⟩] ++ commit :: pushes)).2), ?_, by simp,
        Or.inr ⟨⟨c, env t c⟩, hc, Or.inr ⟨hs, commit, _, rfl, hcommit, ?_, ?_⟩⟩⟩
      · rw [M.bind_run_ret hrun]
        simp
      · intro e he
        rcases List.mem_append.1 he with he | he
        · exact hpushCalls e he
        · exact hmore e he
      · intro hfail
        exact absurd hcok hfail
    · -- the commit or the push failed
      subst ho
      refine ⟨[], ⟨c, env t c⟩ :: commit :: pushes, ?_, by simp,
        Or.inr ⟨⟨c, env t c⟩, hc, Or.inr ⟨hs, commit, pushes, rfl, hcommit, hpushCalls, ?_⟩⟩⟩
      · rw [M.bind_run_ret hrun, hG]
        simp [M.pure]
      · intro hfail
        refine ⟨hcfail hfail, e, ?_⟩
        rw [M.bind_run_ret hrun, hG]
        simp [M.pure]

theorem prepare_prepareInstall (c : Call) (h : c.isPrepare = true) :
    c.isPrepareInstall = true := by
  simp [Call.isPrepareInstall, h]

theorem prepare_not_staging (c : Call) (h : c.isPrepare = true) :
    c.isStage = false ∧ c.isCommit = false ∧ c ≠ .Push := by
  simpa [Call.isPrepare, and_assoc] using h

theorem prepareInstall_not_staging (c : Call) (h : c.isPrepareInstall = true) :
    c.isStage = false ∧ c ≠ .Push ∧ c ≠ .Commit initialClusterconfigCommitMessage := by
  simp only [Call.isPrepareInstall, Bool.or_eq_true, beq_iff_eq] at h
  rcases h with h | h
  · have := prepare_not_staging c h
    refine ⟨this.1, this.2.2, ?_⟩
    intro hc
    rw [hc] at this
    simp [Call.isCommit] at this
  · subst h
    decide

/-- The calls of `setupRepository` before any staging. -/
theorem setupRepository_prepares (fc : fluxForCluster) :
    Emits (fun c => c.isPrepareInstall = true) fc.setupRepository :=
  Emits.mono (setupRepository_emits fc) (by
    intro c
    cases c <;> simp [Call.isSetup, Call.isPrepareInstall, Call.isPrepare, Call.isStage,
      Call.isAdd, Call.isRemove, Call.isCommit])

/-- The calls of `syncGitRepo`. -/
theorem syncGitRepo_prepares (fc : fluxForCluster) :
    Emits (fun c => c.isPrepare = true) fc.syncGitRepo := by
  simp only [fluxForCluster.syncGitRepo, fluxForCluster.clone, fluxForCluster.describeRepo,
    FluxAddonClient.Git, FluxAddonClient.Writer, fluxForCluster.repository,
    fluxForCluster.branch, fluxForCluster.github]
  repeat' first
    | apply Emits.pure
    | apply Emits.throwPanic
    | apply Emits.deref
    | apply Emits.Retry
    | apply Emits.RetryCapturing
    | exact Emits.callErr (by simp [Call.isPrepare, Call.isStage, Call.isAdd, Call.isRemove,
        Call.isCommit])
    | exact Emits.call (by simp [Call.isPrepare, Call.isStage, Call.isAdd, Call.isRemove,
        Call.isCommit])
    | apply Emits.bind
    | intro _
    | split

/-- The calls of `validateLocalConfigPathDoesNotExist`, `writeEksaSystemFiles` and
`writeFluxSystemFiles`. -/
theorem writes_prepare (fc : fluxForCluster) :
    Emits (fun c => c.isPrepare = true) fc.validateLocalConfigPathDoesNotExist ∧
    Emits (fun c => c.isPrepare = true) fc.writeEksaSystemFiles ∧
    Emits (fun c => c.isPrepare = true) fc.writeFluxSystemFiles := by
  refine ⟨?_, ?_, ?_⟩ <;>
  · simp only [fluxForCluster.validateLocalConfigPathDoesNotExist,
      fluxForCluster.writeEksaSystemFiles, fluxForCluster.initEksaWriter,
      fluxForCluster.eksaSystemDir, fluxForCluster.generateClusterConfigFile,
      fluxForCluster.generateEksaKustomizeFile, fluxForCluster.writeFluxSystemFiles,
      fluxForCluster.initFluxWriter, fluxForCluster.fluxSystemDir,
      fluxForCluster.generateFluxKustomizeFile, FluxAddonClient.generateFluxSyncFile,
      fluxForCluster.generateFluxPatchFile, FluxAddonClient.Writer, fluxForCluster.namespace,
      fluxForCluster.path, fluxForCluster.github]
    repeat' first
      | apply Emits.pure
      | apply Emits.throwPanic
      | apply Emits.deref
      | exact Emits.callErr (by simp [Call.isPrepare, Call.isStage, Call.isAdd, Call.isRemove,
          Call.isCommit])
      | exact Emits.call (by simp [Call.isPrepare, Call.isStage, Call.isAdd, Call.isRemove,
          Call.isCommit])
      | apply Emits.bind
      | intro _
      | split

/-- A computation that only reads the configuration makes no call. -/
theorem accessors_prepare (fc : fluxForCluster) (P : Call → Prop) :
    Emits P fc.eksaSystemDir ∧ Emits P fc.path ∧ Emits P fc.repository ∧
    Emits P fc.FluxAddonClient.Writer := by
  refine ⟨?_, ?_, ?_, ?_⟩ <;>
  · simp only [fluxForCluster.eksaSystemDir, fluxForCluster.path, fluxForCluster.repository,
      fluxForCluster.github, FluxAddonClient.Writer]
    repeat' first
      | apply Emits.pure
      | apply Emits.deref
      | apply Emits.bind
      | intro _

/-- The commit-and-push phase of `InstallGitOps` is staged. -/
theorem commitFlux_staged (fc : fluxForCluster) (g : GitOptions)
    (hg : fc.FluxAddonClient.gitOpts = some g) :
    Staged (fun c => c.isPrepareInstall = true) initialClusterconfigCommitMessage
      fc.commitFluxAndClusterConfigToGit := by
  have hw := writes_prepare fc
  simp only [fluxForCluster.commitFluxAndClusterConfigToGit]
  apply Staged.bind_neutral (Emits.deref _)
  intro cfg
  apply Staged.bind_neutral (setupRepository_prepares fc)
  intro err
  split
  · exact Staged.of_pure _
  apply Staged.bind_neutral (Emits.mono hw.1 prepare_prepareInstall)
  intro err
  split
  · exact Staged.of_pure _
  apply Staged.bind_neutral (Emits.mono hw.2.1 prepare_prepareInstall)
  intro err
  split
  · exact Staged.of_pure _
  apply Staged.bind_neutral (m := if fc.clusterSpec.Cluster.IsSelfManaged = true
    then fc.writeFluxSystemFiles else M.pure none)
  · split
    · exact Emits.mono hw.2.2 prepare_prepareInstall
    · exact Emits.pure _
  intro err
  split
  · exact Staged.of_pure _
  rw [Git_of_gitOpts hg]
  refine Staged.stage fc.FluxAddonClient g hg
    (.Add (path.Dir cfg.Spec.Flux.Github.ClusterConfigPath)) rfl
    ("error when adding " ++ path.Dir cfg.Spec.Flux.Github.ClusterConfigPath ++ " to git: ")
    (path.Dir cfg.Spec.Flux.Github.ClusterConfigPath) _ M.pure (fun e => rfl) ?_
    (fun e => rfl) (fun a => Emits.pure _)
  simp only [M.bind_pure]

/-- `InstallGitOps` is staged. -/
theorem install_staged (f : FluxAddonClient) (g : GitOptions) (hg : f.gitOpts = some g)
    (cluster : types.Cluster) (clusterSpec : ClusterSpec)
    (datacenterConfig : Option providers.DatacenterConfig)
    (machineConfigs : List providers.MachineConfig) :
    Staged (fun c => c.isPrepareInstall = true) initialClusterconfigCommitMessage
      (f.InstallGitOps cluster clusterSpec datacenterConfig machineConfigs) := by
  simp only [FluxAddonClient.InstallGitOps, FluxAddonClient.shouldSkipFlux, hg,
    Option.isNone_some, Bool.false_eq_true, if_false]
  refine Staged.bind_after (commitFlux_staged _ g hg) (fun e => rfl) ?_
  intro a
  simp only [FluxAddonClient.uninstallGitOpsToolkits, fluxForCluster.branch,
    fluxForCluster.github]
  repeat' first
    | apply Emits.pure
    | apply Emits.throwPanic
    | apply Emits.deref
    | apply Emits.Retry
    | exact Emits.callErr (by simp [Call.isPrepareInstall, Call.isPrepare, Call.isStage,
        Call.isAdd, Call.isRemove, Call.isCommit])
    | apply Emits.bind
    | intro _
    | split

/-- `UpdateGitEksaSpec` is staged. -/
theorem update_staged (f : FluxAddonClient) (g : GitOptions) (hg : f.gitOpts = some g)
    (clusterSpec : ClusterSpec) (datacenterConfig : Option providers.DatacenterConfig)
    (machineConfigs : List providers.MachineConfig) :
    Staged (fun c => c.isPrepare = true) updateClusterconfigCommitMessage
      (f.UpdateGitEksaSpec clusterSpec datacenterConfig machineConfigs) := by
  have hw := writes_prepare (fluxForCluster.mk f clusterSpec datacenterConfig machineConfigs)
  have ha := accessors_prepare (fluxForCluster.mk f clusterSpec datacenterConfig machineConfigs)
  simp only [FluxAddonClient.UpdateGitEksaSpec, FluxAddonClient.shouldSkipFlux, hg,
    Option.isNone_some, Bool.false_eq_true, if_false]
  apply Staged.bind_neutral (syncGitRepo_prepares _)
  intro err
  split
  · exact Staged.of_pure _
  apply Staged.bind_neutral hw.2.1
  intro err
  split
  · exact Staged.of_pure _
  apply Staged.bind_neutral (ha _).1
  intro p
  rw [Git_of_gitOpts hg]
  refine Staged.stage f g hg (.Add p) rfl ("error when adding " ++ p ++ " to git: ") p _
    (fun err => match err with
      | some err => M.pure (some err)
      | none => M.bind (fluxForCluster.mk f clusterSpec datacenterConfig
          machineConfigs).repository fun _ => M.pure none)
    (fun e => rfl) rfl (fun e => rfl) ?_
  intro a
  cases a with
  | some x => exact Emits.pure _
  | none => exact Emits.bind (ha _).2.2.1 (fun _ => Emits.pure _)

/-- `CleanupGitRepo` is staged. -/
theorem cleanup_staged (f : FluxAddonClient) (g : GitOptions) (hg : f.gitOpts = some g)
    (clusterSpec : ClusterSpec) :
    Staged (fun c => c.isPrepare = true) deleteClusterconfigCommitMessage
      (f.CleanupGitRepo clusterSpec) := by
  have ha := accessors_prepare (fluxForCluster.mk f clusterSpec none [])
  simp only [FluxAddonClient.CleanupGitRepo, FluxAddonClient.shouldSkipFlux, hg,
    Option.isNone_some, Bool.false_eq_true, if_false]
  apply Staged.bind_neutral (syncGitRepo_prepares _)
  intro err
  split
  · exact Staged.of_pure _
  apply Staged.bind_neutral (m := if clusterSpec.Cluster.IsManaged = true
    then (fluxForCluster.mk f clusterSpec none []).eksaSystemDir
    else (fluxForCluster.mk f clusterSpec none []).path)
  · split
    · exact (ha _).1
    · exact (ha _).2.1
  intro p
  apply Staged.bind_neutral (ha _).2.2.2
  intro w
  apply Staged.bind_neutral (Emits.call (by simp [Call.isPrepare, Call.isStage, Call.isAdd,
    Call.isRemove, Call.isCommit]))
  intro r
  split
  · exact Staged.of_pure _
  rw [Git_of_gitOpts hg]
  refine Staged.stage f g hg (.Remove p) rfl ("error when removing " ++ p ++ " in git: ") p _
    (fun err => match err with
      | some err => M.pure (some err)
      | none => M.bind (fluxForCluster.mk f clusterSpec none []).repository
          fun _ => M.pure none)
    (fun e => rfl) rfl (fun e => rfl) ?_
  intro a
  cases a with
  | some x => exact Emits.pure _
  | none => exact Emits.bind (ha _).2.2.1 (fun _ => Emits.pure _)

theorem FailsLast.of_emits {c : Call} {Q : GoError → Prop} {m : M Error}
    (h : Emits (fun x => x ≠ c) m) : FailsLast c Q m := by
  intro env t e he hc
  exact absurd hc (Emits.mem h env t he)

/-- A computation that never makes the call `c` may precede. -/
theorem FailsLast.after_neutral {α : Type} {c : Call} {Q : GoError → Prop} {m : M α}
    {f : α → M Error} (hm : Emits (fun x => x ≠ c) m) (hf : ∀ a, FailsLast c Q (f a)) :
    FailsLast c Q (M.bind m f) := by
  intro env t e he hc hfail
  have hem := fun e he => Emits.mem hm env t (e := e) he
  rcases hrun : m env t with ⟨o, es⟩
  rw [hrun] at hem
  cases o with
  | panics =>
    rw [M.bind_run_panics hrun] at he
    exact absurd hc (hem e he)
  | ret a =>
    rw [M.bind_run_ret hrun] at he ⊢
    simp only [List.mem_append] at he
    rcases he with he | he
    · exact absurd hc (hem e he)
    · obtain ⟨ho, pre, hpre⟩ := hf a env (t ++ es) e he hc hfail
      exact ⟨ho, es ++ pre, by simp [hpre]⟩

/-- A continuation that hands an error on, wrapped by `w`, and never makes the call `c` may
follow. -/
theorem FailsLast.handed_on {c : Call} {Q R : GoError → Prop} {m : M Error}
    {k : Error → M Error} (w : GoError → GoError) (hm : FailsLast c Q m)
    (hk : ∀ e, k (some e) = M.pure (some (w e))) (hw : ∀ e, Q e → R (w e))
    (hkN : Emits (fun x => x ≠ c) (k none)) :
    FailsLast c R (M.bind m k) := by
  intro env t e he hc hfail
  have hme := hm env t e
  rcases hrun : m env t with ⟨o, es⟩
  rw [hrun] at hme
  simp only at hme
  cases o with
  | panics =>
    rw [M.bind_run_panics hrun] at he
    obtain ⟨⟨err, ho, -⟩, -⟩ := hme he hc hfail
    simp at ho
  | ret a =>
    cases a with
    | some err =>
      rw [M.bind_run_ret hrun, hk] at he ⊢
      simp only [M.pure, List.append_nil] at he ⊢
      obtain ⟨⟨err', ho, hq⟩, hpre⟩ := hme he hc hfail
      simp only [Outcome.ret.injEq, Option.some.injEq] at ho
      subst ho
      exact ⟨⟨w err, rfl, hw _ hq⟩, hpre⟩
    | none =>
      rw [M.bind_run_ret hrun] at he
      simp only [List.mem_append] at he
      rcases he with he | he
      · obtain ⟨⟨err', ho, -⟩, -⟩ := hme he hc hfail
        simp at ho
      · exact absurd hc (Emits.mem hkN env (t ++ es) he)

/-- The call `c` itself, followed by a continuation that wraps its error by `w` and never
makes the call again. -/
theorem FailsLast.of_call {c : Call} {Q : GoError → Prop} {k : Error → M Error}
    (w : GoError → GoError) (hk : ∀ e, k (some e) = M.pure (some (w e))) (hw : ∀ e, Q (w e))
    (hkN : Emits (fun x => x ≠ c) (k none)) :
    FailsLast c Q (M.bind (addonclients.callErr c) k) := by
  intro env t e he hc hfail
  cases hs : (env t c).err with
  | some err =>
    have hrun : addonclients.callErr c env t = (.ret (some err), [⟨c, env t c⟩]) := by
      simp [addonclients.callErr, hs]
    rw [M.bind_run_ret hrun, hk] at he ⊢
    simp only [M.pure, List.append_nil, List.mem_singleton] at he ⊢
    subst he
    exact ⟨⟨w err, rfl, hw err⟩, [], rfl⟩
  | none =>
    have hrun : addonclients.callErr c env t = (.ret none, [⟨c, env t c⟩]) := by
      simp [addonclients.callErr, hs]
    rw [M.bind_run_ret hrun] at he
    simp only [List.mem_append, List.mem_singleton] at he
    rcases he with he | he
    · subst he
      exact absurd hs hfail
    · exact absurd hc (Emits.mem hkN env _ he)

/-- A failed placeholder commit is the last call of `initializeLocalRepository`, which then
returns an error. -/
theorem initializeLocalRepository_commit (fc : fluxForCluster) (g : GitOptions)
    (hg : fc.FluxAddonClient.gitOpts = some g) :
    FailsLast (.Commit "initializing repository") (fun _ => True)
      fc.initializeLocalRepository := by
  simp only [fluxForCluster.initializeLocalRepository, Git_of_gitOpts hg]
  refine FailsLast.after_neutral (Emits.callErr (by simp)) ?_
  intro err
  split
  · exact FailsLast.of_emits (Emits.pure _)
  · refine FailsLast.of_call (fun e => .formats "error when initializing repository: " e)
      (fun e => rfl) (fun _ => trivial) ?_
    simp only [fluxForCluster.branch, fluxForCluster.github]
    repeat' first
      | apply Emits.pure
      | apply Emits.throwPanic
      | apply Emits.deref
      | exact Emits.callErr (by simp)
      | apply Emits.bind
      | intro _
      | split

/-- A failed placeholder commit is the last call of `setupRepository`, which then returns a
`ConfigVersionControlFailedError`. -/
theorem setupRepository_commit (fc : fluxForCluster) (g : GitOptions)
    (hg : fc.FluxAddonClient.gitOpts = some g) :
    FailsLast (.Commit "initializing repository")
      (fun err => ∃ e, err = .ConfigVersionControlFailedError e) fc.setupRepository := by
  have hinit := initializeLocalRepository_commit fc g hg
  have hwrap : FailsLast (.Commit "initializing repository")
      (fun err => ∃ e, err = .ConfigVersionControlFailedError e)
      (M.bind fc.initializeLocalRepository fun err =>
        match err with
        | some err => M.pure (some (.ConfigVersionControlFailedError err))
        | none => M.pure none) :=
    FailsLast.handed_on (fun e => .ConfigVersionControlFailedError e) hinit (fun e => rfl)
      (fun e _ => ⟨e, rfl⟩) (Emits.pure _)
  simp only [fluxForCluster.setupRepository]
  refine FailsLast.after_neutral (Emits.mono (clone_emits fc) ?_) ?_
  · intro c hc h
    rw [h] at hc
    simp [Call.isCloneStep] at hc
  intro cloned
  split
  · split
    · exact hwrap
    · exact FailsLast.of_emits (Emits.pure _)
  · split
    · refine FailsLast.after_neutral (m := fc.createRemoteRepository) ?_ ?_
      · simp only [fluxForCluster.createRemoteRepository, Git_of_gitOpts hg,
          fluxForCluster.repository, fluxForCluster.owner, fluxForCluster.personal,
          fluxForCluster.github]
        repeat' first
          | apply Emits.pure
          | apply Emits.throwPanic
          | apply Emits.deref
          | apply Emits.Retry
          | exact Emits.callErr (by simp)
          | apply Emits.bind
          | intro _
          | split
      · intro err
        split
        · exact FailsLast.of_emits (Emits.pure _)
        · exact hwrap
    · exact FailsLast.of_emits (Emits.pure _)

/-- A failed placeholder commit is the last call of `InstallGitOps`, which then returns a
`ConfigVersionControlFailedError`. -/
theorem install_commit_failsLast (f : FluxAddonClient) (g : GitOptions) (hg : f.gitOpts = some g)
    (cluster : types.Cluster) (clusterSpec : ClusterSpec)
    (datacenterConfig : Option providers.DatacenterConfig)
    (machineConfigs : List providers.MachineConfig) :
    FailsLast (.Commit "initializing repository")
      (fun err => ∃ e, err = .ConfigVersionControlFailedError e)
      (f.InstallGitOps cluster clusterSpec datacenterConfig machineConfigs) := by
  have hne : ∀ c : Call, c.isPublish = true ∨ c.isToolkit = true →
      c ≠ .Commit "initializing repository" := fun c hc => (afterSetup_not_setup c hc).2.2.2.2
  simp only [FluxAddonClient.InstallGitOps, FluxAddonClient.shouldSkipFlux, hg,
    Option.isNone_some, Bool.false_eq_true, if_false]
  refine FailsLast.handed_on id ?_ (fun e => rfl) (fun e he => he) ?_
  · simp only [fluxForCluster.commitFluxAndClusterConfigToGit]
    refine FailsLast.after_neutral (Emits.deref _) ?_
    intro cfg
    refine FailsLast.handed_on id (setupRepository_commit _ g hg) (fun e => rfl)
      (fun e he => he) ?_
    refine Emits.mono (P := fun c => c.isPublish = true) ?_ (fun c hc => hne c (Or.inl hc))
    simp only [fluxForCluster.validateLocalConfigPathDoesNotExist,
      fluxForCluster.writeEksaSystemFiles,
      fluxForCluster.initEksaWriter, fluxForCluster.eksaSystemDir,
      fluxForCluster.generateClusterConfigFile, fluxForCluster.generateEksaKustomizeFile,
      fluxForCluster.writeFluxSystemFiles, fluxForCluster.initFluxWriter,
      fluxForCluster.fluxSystemDir, fluxForCluster.generateFluxKustomizeFile,
      FluxAddonClient.generateFluxSyncFile, fluxForCluster.generateFluxPatchFile,
      FluxAddonClient.pushToRemoteRepo,
      FluxAddonClient.Git, FluxAddonClient.Writer, fluxForCluster.namespace,
      fluxForCluster.path, fluxForCluster.github]
    repeat' first
      | apply Emits.pure
      | apply Emits.throwPanic
      | apply Emits.deref
      | apply Emits.Retry
      | apply Emits.RetryCapturing
      | exact Emits.callErr (by simp [Call.isPublish])
      | exact Emits.call (by simp [Call.isPublish])
      | apply Emits.bind
      | intro _
      | split
  · refine Emits.mono (P := fun c => c.isToolkit = true) ?_ (fun c hc => hne c (Or.inr hc))
    simp only [FluxAddonClient.uninstallGitOpsToolkits, fluxForCluster.branch,
      fluxForCluster.github]
    repeat' first
      | apply Emits.pure
      | apply Emits.throwPanic
      | apply Emits.deref
      | apply Emits.Retry
      | apply Emits.RetryCapturing
      | exact Emits.callErr (by simp [Call.isToolkit])
      | exact Emits.call (by simp [Call.isToolkit])
      | apply Emits.bind
      | intro _
      | split

/-- A staged computation keeps the contract `StagingContract`, when the calls before its
staging hold no staging call, no `Push` and no commit but those of `early`, and a failed commit
of `early` is the last call of a run that returns a `ConfigVersionControlFailedError`. -/
theorem Staged.stagingContract {N early : Call → Prop} {msg : String} {m : M Error}
    (hm : Staged N msg m)
    (hN : ∀ c, N c → c.isStage = false ∧ c ≠ .Push ∧ c ≠ .Commit msg ∧
      (c.isCommit = true → early c))
    (hearly : ∀ c, early c →
      FailsLast c (fun err => ∃ e, err = .ConfigVersionControlFailedError e) m)
    (env : Env) (t : List Event) : StagingContract early (m env t).1 (m env t).2 := by
  obtain ⟨pre, tail, hes, hpre, htail⟩ := hm env t
  have hpreOK : ∀ e' ∈ pre, e'.call ≠ .Push ∧ (e'.call.isCommit = true → early e'.call) :=
    fun e' he' => ⟨(hN _ (hpre e' he')).2.1, (hN _ (hpre e' he')).2.2.2⟩
  have hstage : ∀ c : Call, c.isStage = true → c.isCommit = false ∧ c ≠ .Push := by
    intro c hc
    cases c <;> simp [Call.isStage, Call.isAdd, Call.isRemove, Call.isCommit] at hc ⊢
  refine ⟨?_, ?_⟩
  · intro e he hst hfail
    rw [hes] at he
    rcases List.mem_append.1 he with he | he
    · rw [(hN _ (hpre e he)).1] at hst
      exact absurd hst (by decide)
    · rcases htail with htail | ⟨stage, hstg, hcase⟩
      · rw [htail] at he
        simp at he
      · rcases hcase with ⟨hsf, htl, ho⟩ | ⟨hok, commit, more, htl, hcommit, hmore, -⟩
        · rw [htl] at he
          simp only [List.mem_singleton] at he
          subst he
          exact ⟨ho, pre, by rw [hes, htl], hpreOK⟩
        · rw [htl] at he
          simp only [List.mem_cons] at he
          rcases he with he | he | he
          · subst he
            exact absurd hok hfail
          · subst he
            rw [hcommit] at hst
            simp [Call.isStage, Call.isAdd, Call.isRemove] at hst
          · rw [(hmore e he).1] at hst
            exact absurd hst (by decide)
  · intro e he hcm hfail
    have he0 := he
    rw [hes] at he
    rcases List.mem_append.1 he with he | he
    · -- a commit before the staging
      have hNe := hN _ (hpre e he)
      obtain ⟨⟨err, ho, e1, he1⟩, pre2, hpre2⟩ :=
        hearly _ (hNe.2.2.2 hcm) env t e he0 rfl hfail
      subst he1
      refine ⟨⟨e1, ho⟩, pre2, hpre2, ?_⟩
      have htailNil : tail = [] := by
        rcases List.eq_nil_or_concat tail with h | ⟨L, b, h⟩
        · exact h
        · exfalso
          have hb : b ∈ tail := by
            rw [h]
            simp
          have heq : (pre ++ L) ++ [b] = pre2 ++ [e] := by
            rw [← hpre2, hes, h]
            simp
          have hbe : b = e := by
            have := (List.append_inj' heq rfl).2
            simpa using this
          subst hbe
          rcases htail with htail | ⟨stage, hstg, hcase⟩
          · rw [htail] at hb
            simp at hb
          · rcases hcase with ⟨hsf, htl, -⟩ | ⟨hok, commit, more, htl, hcommit, hmore, -⟩
            · rw [htl] at hb
              simp only [List.mem_singleton] at hb
              subst hb
              rw [hNe.1] at hstg
              exact absurd hstg (by decide)
            · rw [htl] at hb
              simp only [List.mem_cons] at hb
              rcases hb with hb | hb | hb
              · subst hb
                rw [hNe.1] at hstg
                exact absurd hstg (by decide)
              · subst hb
                exact hNe.2.2.1 hcommit
              · rw [(hmore _ hb).2] at hcm
                exact absurd hcm (by decide)
      intro e' he'
      have hmem : e' ∈ pre := by
        have : e' ∈ (m env t).2 := by
          rw [hpre2]
          exact List.mem_append_left _ he'
        rw [hes, htailNil] at this
        simpa using this
      exact (hpreOK e' hmem).1
    · rcases htail with htail | ⟨stage, hstg, hcase⟩
      · rw [htail] at he
        simp at he
      · rcases hcase with ⟨hsf, htl, -⟩ | ⟨hok, commit, more, htl, hcommit, hmore, hcfail⟩
        · rw [htl] at he
          simp only [List.mem_singleton] at he
          subst he
          rw [(hstage _ hstg).1] at hcm
          exact absurd hcm (by decide)
        · rw [htl] at he
          simp only [List.mem_cons] at he
          rcases he with he | he | he
          · subst he
            rw [(hstage _ hstg).1] at hcm
            exact absurd hcm (by decide)
          · subst he
            obtain ⟨hnil, ho⟩ := hcfail hfail
            subst hnil
            refine ⟨ho, pre ++ [stage], by rw [hes, htl]; simp, ?_⟩
            intro e' he'
            rcases List.mem_append.1 he' with he' | he'
            · exact (hpreOK e' he').1
            · simp only [List.mem_singleton] at he'
              subst he'
              exact (hstage _ hstg).2
          · rw [(hmore e he).2] at hcm
            exact absurd hcm (by decide)

/-- A call that is neither a staging call, nor a `Commit`, nor a `Push`, is no commit. -/
theorem prepare_no_commit (c : Call) (msg : String) (h : c.isPrepare = true) :
    c.isStage = false ∧ c ≠ .Push ∧ c ≠ .Commit msg ∧ (c.isCommit = true → False) := by
  have h1 := prepare_not_staging c h
  refine ⟨h1.1, h1.2.2, ?_, ?_⟩
  · intro hc
    rw [hc] at h1
    simp [Call.isCommit] at h1
  · intro hc
    rw [h1.2.1] at hc
    exact absurd hc (by decide)

/-! ## C11 -/

/-- In `InstallGitOps` the placeholder commit of the local initialisation precedes a failed
`Add`: with a remote repository that does not exist and an `Add` that fails, the run ends in
the failed `Add` with a `ConfigVersionControlFailedError`, after the successful call
`Commit "initializing repository"`. -/
theorem placeholder_commit_before_failed_add :
    (sampleClient.InstallGitOps sampleCluster sampleSpec none [] envAddFails []).1
      = .ret (some (.ConfigVersionControlFailedError
          (.formats "error when adding . to git: " (.external "index is locked")))) ∧
    (sampleClient.InstallGitOps sampleCluster sampleSpec none [] envAddFails []).2.getLast?
      = some ⟨.Add ".", failReply "index is locked"⟩ ∧
    ((sampleClient.InstallGitOps sampleCluster sampleSpec none [] envAddFails []).2.filter
        fun e => e.call.isCommit || e.call == .Push)
      = [⟨.Commit "initializing repository", okReply⟩] := by
  decide!

/-- C11, amended: in `InstallGitOps`, `UpdateGitEksaSpec` and `CleanupGitRepo`, a staging call
(`Add` or `Remove`) that fails is the last call of the run: the operation returns a
`ConfigVersionControlFailedError` and no `Push` was called, and no `Commit` either, except, in
`InstallGitOps`, the placeholder commit `Commit "initializing repository"` of the local
initialisation, which precedes the staging.  A `Commit` that fails, be it the commit of the
operation or that placeholder commit, is the last call of the run as well: the operation
returns a `ConfigVersionControlFailedError` and no `Push` was called. -/
theorem failed_staging_or_commit_ends_run (f : FluxAddonClient) (cluster : types.Cluster)
    (clusterSpec : ClusterSpec) (datacenterConfig : Option providers.DatacenterConfig)
    (machineConfigs : List providers.MachineConfig) (env : Env) (t : List Event) :
    StagingContract (fun c => c = .Commit "initializing repository")
      (f.InstallGitOps cluster clusterSpec datacenterConfig machineConfigs env t).1
      (f.InstallGitOps cluster clusterSpec datacenterConfig machineConfigs env t).2 ∧
    StagingContract (fun _ => False)
      (f.UpdateGitEksaSpec clusterSpec datacenterConfig machineConfigs env t).1
      (f.UpdateGitEksaSpec clusterSpec datacenterConfig machineConfigs env t).2 ∧
    StagingContract (fun _ => False)
      (f.CleanupGitRepo clusterSpec env t).1 (f.CleanupGitRepo clusterSpec env t).2 := by
  cases hg : f.gitOpts with
  | none =>
    simp [FluxAddonClient.InstallGitOps, FluxAddonClient.UpdateGitEksaSpec,
      FluxAddonClient.CleanupGitRepo, FluxAddonClient.shouldSkipFlux, hg, M.pure,
      StagingContract]
  | some g =>
    refine ⟨?_, ?_, ?_⟩
    · refine (install_staged f g hg cluster clusterSpec datacenterConfig
        machineConfigs).stagingContract (fun c hc => ?_) (fun c hc => ?_) env t
      · have h := prepareInstall_not_staging c hc
        refine ⟨h.1, h.2.1, h.2.2, ?_⟩
        intro hcm
        simp only [Call.isPrepareInstall, Bool.or_eq_true, beq_iff_eq] at hc
        rcases hc with hc | hc
        · exact ((prepare_no_commit c "" hc).2.2.2 hcm).elim
        · exact hc
      · subst hc
        exact install_commit_failsLast f g hg cluster clusterSpec datacenterConfig machineConfigs
    · exact (update_staged f g hg clusterSpec datacenterConfig
        machineConfigs).stagingContract (fun c hc => prepare_no_commit c _ hc)
        (fun c hc => hc.elim) env t
    · exact (cleanup_staged f g hg clusterSpec).stagingContract
        (fun c hc => prepare_no_commit c _ hc) (fun c hc => hc.elim) env t

theorem failed_staging_or_commit_ends_run_witness :
    (sampleClient.InstallGitOps sampleCluster sampleSpec none [] envCommitFails []).1
      = .ret (some (.ConfigVersionControlFailedError
          (.formats "error when initializing repository: "
            (.external "author identity unknown")))) ∧
    (sampleClient.InstallGitOps sampleCluster sampleSpec none []
        envCommitFails []).2.map Event.call
      = [.GetRepo, .CreateRepo sampleCreateRepoOpts, .Init, .Commit "initializing repository"] ∧
    StagingContract (fun c => c = .Commit "initializing repository")
      (sampleClient.InstallGitOps sampleCluster sampleSpec none []
        envCommitFails []).1
      (sampleClient.InstallGitOps sampleCluster sampleSpec none []
        envCommitFails []).2 :=
  ⟨by decide!, by decide!,
    (failed_staging_or_commit_ends_run sampleClient sampleCluster sampleSpec none []
      envCommitFails []).1⟩

/-! ## C12 -/

/-- C12: if, once `syncGitRepo` has succeeded, the path selected for removal does not exist
under the local writer directory, `CleanupGitRepo` returns nil right after the check of that
path, and the run contains no `Remove`, no `Commit` and no `Push`.  This holds in particular
for a second run of the cleanup, made after the path has been removed. -/
theorem cleanup_skips_missing_path (f : FluxAddonClient) (g : GitOptions)
    (hg : f.gitOpts = some g) (clusterSpec : ClusterSpec)
    (cfg : v1alpha1.GitOpsConfig) (hcfg : clusterSpec.GitOpsConfig = some cfg)
    (env : Env) (t sync : List Event)
    (hsync : (fluxForCluster.mk f clusterSpec none []).syncGitRepo env t = (.ret none, sync))
    (hmissing : (env (t ++ sync) (.FileExists (path.Join [g.Writer.Dir,
      if clusterSpec.Cluster.IsManaged = true
      then path.Join [cfg.Spec.Flux.Github.ClusterConfigPath, clusterSpec.Cluster.GetName,
        eksaSystemDirName]
      else cfg.Spec.Flux.Github.ClusterConfigPath]))).found = false) :
    (∃ check : Event,
      check.call = .FileExists (path.Join [g.Writer.Dir,
        if clusterSpec.Cluster.IsManaged = true
        then path.Join [cfg.Spec.Flux.Github.ClusterConfigPath, clusterSpec.Cluster.GetName,
          eksaSystemDirName]
        else cfg.Spec.Flux.Github.ClusterConfigPath]) ∧
      f.CleanupGitRepo clusterSpec env t = (.ret none, sync ++ [check])) ∧
    (∀ e ∈ (f.CleanupGitRepo clusterSpec env t).2,
      e.call.isRemove = false ∧ e.call.isCommit = false ∧ e.call ≠ .Push) := by
  have hsyncCalls : ∀ e ∈ sync, e.call.isPrepare = true := fun e he =>
    Emits.mem (syncGitRepo_prepares _) env t (e := e) (by rw [hsync]; exact he)
  have hrun : f.CleanupGitRepo clusterSpec env t = (.ret none, sync ++
      [⟨.FileExists (path.Join [g.Writer.Dir,
        if clusterSpec.Cluster.IsManaged = true
        then path.Join [cfg.Spec.Flux.Github.ClusterConfigPath, clusterSpec.Cluster.GetName,
          eksaSystemDirName]
        else cfg.Spec.Flux.Github.ClusterConfigPath]),
        env (t ++ sync) (.FileExists (path.Join [g.Writer.Dir,
        if clusterSpec.Cluster.IsManaged = true
        then path.Join [cfg.Spec.Flux.Github.ClusterConfigPath, clusterSpec.Cluster.GetName,
          eksaSystemDirName]
        else cfg.Spec.Flux.Github.ClusterConfigPath]))⟩]) := by
    simp only [FluxAddonClient.CleanupGitRepo, FluxAddonClient.shouldSkipFlux, hg,
      Option.isNone_some, Bool.false_eq_true, if_false]
    rw [M.bind_run_ret hsync]
    cases hm : clusterSpec.Cluster.IsManaged <;>
      simp only [hm, if_true, if_false, Bool.false_eq_true] at hmissing ⊢ <;>
      simp [fluxForCluster.eksaSystemDir, fluxForCluster.path, fluxForCluster.github, hcfg,
        FluxAddonClient.Writer, hg, M.bind, call, M.pure, hmissing]
  rw [hrun]
  refine ⟨⟨_, rfl, rfl⟩, ?_⟩
  intro e he
  rcases List.mem_append.1 he with he | he
  · have h := prepare_not_staging _ (hsyncCalls e he)
    refine ⟨?_, h.2.1, h.2.2⟩
    have := h.1
    simp only [Call.isStage, Bool.or_eq_false_iff] at this
    exact this.2
  · simp only [List.mem_singleton] at he
    subst he
    simp [Call.isRemove, Call.isCommit]

theorem cleanup_skips_missing_path_witness :
    (∃ check : Event,
      check.call = .FileExists (path.Join [sampleGitOpts.Writer.Dir,
        if sampleSpec.Cluster.IsManaged = true
        then path.Join [sampleConfig.Spec.Flux.Github.ClusterConfigPath,
          sampleSpec.Cluster.GetName, eksaSystemDirName]
        else sampleConfig.Spec.Flux.Github.ClusterConfigPath]) ∧
      sampleClient.CleanupGitRepo sampleSpec envCleaned []
        = (.ret none, [⟨.FileExists "prod1/git/fleet/.git", { okReply with found := true }⟩,
            ⟨.Branch "main", okReply⟩] ++ [check])) ∧
    (∀ e ∈ (sampleClient.CleanupGitRepo sampleSpec envCleaned []).2,
      e.call.isRemove = false ∧ e.call.isCommit = false ∧ e.call ≠ .Push) :=
  cleanup_skips_missing_path sampleClient sampleGitOpts rfl sampleSpec sampleConfig rfl
    envCleaned [] [⟨.FileExists "prod1/git/fleet/.git", { okReply with found := true }⟩,
      ⟨.Branch "main", okReply⟩] (by decide!) (by decide!)

/-! ## C13 -/

/-- C13, as the code has it: for the managed cluster `prod1` with the configured path
`clusters`, `CleanupGitRepo` removes `clusters/prod1/eksa-system`, a sub-directory of the
cluster directory `clusters/prod1`; the cluster directory itself is not removed. -/
theorem cleanup_removes_eksa_system_dir :
    sampleManagedSpec.Cluster.IsManaged = true ∧
    path.Join [sampleConfig.Spec.Flux.Github.ClusterConfigPath,
      sampleManagedSpec.Cluster.GetName] = "clusters/prod1" ∧
    (sampleClient.CleanupGitRepo sampleManagedSpec envPathTaken []).1 = .ret none ∧
    (sampleClient.CleanupGitRepo sampleManagedSpec envPathTaken []).2.map (fun e => e.call)
      = [.FileExists "prod1/git/fleet/.git", .Branch "main",
         .FileExists "prod1/git/fleet/clusters/prod1/eksa-system",
         .Remove "clusters/prod1/eksa-system",
         .Commit deleteClusterconfigCommitMessage, .Push] := by
  decide!

/-- C13, amended: every path `CleanupGitRepo` removes from version control is
`<configPath>/<clusterName>/eksa-system` for a managed cluster, and the configured path
`<configPath>` for a self-managed cluster. -/
theorem cleanup_removed_path (f : FluxAddonClient) (clusterSpec : ClusterSpec)
    (cfg : v1alpha1.GitOpsConfig) (hcfg : clusterSpec.GitOpsConfig = some cfg)
    (env : Env) (t : List Event) (e : Event) (p : String)
    (he : e ∈ (f.CleanupGitRepo clusterSpec env t).2) (hp : e.call = .Remove p) :
    p = if clusterSpec.Cluster.IsManaged = true
      then path.Join [cfg.Spec.Flux.Github.ClusterConfigPath, clusterSpec.Cluster.GetName,
        eksaSystemDirName]
      else cfg.Spec.Flux.Github.ClusterConfigPath := by
  have hprep := syncGitRepo_prepares (fluxForCluster.mk f clusterSpec none [])
  have hall : Emits (fun c => ∀ q, c = .Remove q →
      q = if clusterSpec.Cluster.IsManaged = true
        then path.Join [cfg.Spec.Flux.Github.ClusterConfigPath, clusterSpec.Cluster.GetName,
          eksaSystemDirName]
        else cfg.Spec.Flux.Github.ClusterConfigPath) (f.CleanupGitRepo clusterSpec) := by
    have hsyncOK : Emits (fun c => ∀ q, c = .Remove q →
        q = if clusterSpec.Cluster.IsManaged = true
          then path.Join [cfg.Spec.Flux.Github.ClusterConfigPath, clusterSpec.Cluster.GetName,
            eksaSystemDirName]
          else cfg.Spec.Flux.Github.ClusterConfigPath)
        (fluxForCluster.mk f clusterSpec none []).syncGitRepo := by
      refine Emits.mono hprep ?_
      intro c hc q hq
      subst hq
      simp [Call.isPrepare, Call.isStage, Call.isRemove] at hc
    cases hs : f.shouldSkipFlux
    · cases hm : clusterSpec.Cluster.IsManaged <;>
      · simp only [hm, Bool.false_eq_true, ↓reduceIte] at hsyncOK
        simp only [FluxAddonClient.CleanupGitRepo, hs, hm, ↓reduceIte, if_true, if_false,
          Bool.false_eq_true, fluxForCluster.eksaSystemDir,
          fluxForCluster.path, fluxForCluster.github, hcfg, deref_some, M.pure_bind,
          M.bind_assoc, FluxAddonClient.pushToRemoteRepo, FluxAddonClient.Git,
          FluxAddonClient.Writer, fluxForCluster.repository]
        apply Emits.bind hsyncOK
        intro err
        repeat' first
          | apply Emits.pure
          | apply Emits.throwPanic
          | apply Emits.deref
          | apply Emits.Retry
          | exact Emits.callErr (by intro q hq; cases hq <;> rfl)
          | exact Emits.call (by intro q hq; cases hq)
          | apply Emits.bind
          | intro _
          | split
    · simp only [FluxAddonClient.CleanupGitRepo, hs, if_true]
      exact Emits.pure _
  exact Emits.mem hall env t he p hp

theorem cleanup_removed_path_witness :
    "clusters/prod1/eksa-system" = if sampleManagedSpec.Cluster.IsManaged = true
      then path.Join [sampleConfig.Spec.Flux.Github.ClusterConfigPath,
        sampleManagedSpec.Cluster.GetName, eksaSystemDirName]
      else sampleConfig.Spec.Flux.Github.ClusterConfigPath :=
  cleanup_removed_path sampleClient sampleManagedSpec sampleConfig rfl envPathTaken []
    ⟨.Remove "clusters/prod1/eksa-system", okReply⟩ "clusters/prod1/eksa-system"
    (by decide!) rfl

/-! ## C14 -/

/-- The calls of `syncGitRepo`: checks of local paths and the steps of `clone`. -/
theorem syncGitRepo_emits (fc : fluxForCluster) :
    Emits (fun c => c.isCreateRepo = false ∧ c.isInit = false) fc.syncGitRepo := by
  simp only [fluxForCluster.syncGitRepo, fluxForCluster.clone, fluxForCluster.describeRepo,
    FluxAddonClient.Git, FluxAddonClient.Writer, fluxForCluster.repository,
    fluxForCluster.branch, fluxForCluster.github]
  repeat' first
    | apply Emits.pure
    | apply Emits.throwPanic
    | apply Emits.deref
    | apply Emits.Retry
    | apply Emits.RetryCapturing
    | exact Emits.callErr (by simp [Call.isCreateRepo, Call.isInit])
    | exact Emits.call (by simp [Call.isCreateRepo, Call.isInit])
    | apply Emits.bind
    | intro _
    | split

/-- With no local working copy and a probe that reports the repository missing,
`syncGitRepo` fails after the check of `.git` and the probe. -/
theorem syncGitRepo_remote_missing (f : FluxAddonClient) (g : GitOptions)
    (hg : f.gitOpts = some g) (clusterSpec : ClusterSpec)
    (datacenterConfig : Option providers.DatacenterConfig)
    (machineConfigs : List providers.MachineConfig)
    (cfg : v1alpha1.GitOpsConfig) (hcfg : clusterSpec.GitOpsConfig = some cfg)
    (env : Env) (t probe : List Event)
    (hlocal : (env t (.FileExists (path.Join [g.Writer.Dir, ".git"]))).found = false)
    (hprobe : (fluxForCluster.mk f clusterSpec datacenterConfig machineConfigs).describeRepo env
      (t ++ [⟨.FileExists (path.Join [g.Writer.Dir, ".git"]),
        env t (.FileExists (path.Join [g.Writer.Dir, ".git"]))⟩]) = (.ret (none, none), probe)) :
    (fluxForCluster.mk f clusterSpec datacenterConfig machineConfigs).syncGitRepo env t
      = (.ret (some (.Errorf ("failed to find remote git repo: " ++
          cfg.Spec.Flux.Github.Repository))),
        ⟨.FileExists (path.Join [g.Writer.Dir, ".git"]),
          env t (.FileExists (path.Join [g.Writer.Dir, ".git"]))⟩ :: probe) := by
  have hclone : (fluxForCluster.mk f clusterSpec datacenterConfig machineConfigs).clone env
      (t ++ [⟨.FileExists (path.Join [g.Writer.Dir, ".git"]),
        env t (.FileExists (path.Join [g.Writer.Dir, ".git"]))⟩]) = (.ret (none, none), probe) := by
    simp only [fluxForCluster.clone]
    rw [M.bind_run_ret hprobe]
    simp [M.pure]
  simp only [fluxForCluster.syncGitRepo, FluxAddonClient.Writer, hg, deref_some, M.pure_bind]
  simp only [M.bind, call, hlocal, Bool.not_false, if_true, hclone]
  simp [fluxForCluster.repository, fluxForCluster.github, hcfg, M.bind, M.pure, deref]

/-- C14: `UpdateGitEksaSpec` and `CleanupGitRepo` never call `CreateRepo` or `Init`.  When
there is no local working copy (no `.git` under the writer directory) and the probe reports
the remote repository missing, both fail with the error that names the configured repository,
having made no call but the check of `.git` and the probe. -/
theorem update_and_cleanup_require_remote (f : FluxAddonClient) (g : GitOptions)
    (hg : f.gitOpts = some g) (clusterSpec : ClusterSpec)
    (datacenterConfig : Option providers.DatacenterConfig)
    (machineConfigs : List providers.MachineConfig)
    (cfg : v1alpha1.GitOpsConfig) (hcfg : clusterSpec.GitOpsConfig = some cfg)
    (env : Env) (t probe : List Event)
    (hlocal : (env t (.FileExists (path.Join [g.Writer.Dir, ".git"]))).found = false)
    (hprobe : (fluxForCluster.mk f clusterSpec datacenterConfig machineConfigs).describeRepo env
      (t ++ [⟨.FileExists (path.Join [g.Writer.Dir, ".git"]),
        env t (.FileExists (path.Join [g.Writer.Dir, ".git"]))⟩]) = (.ret (none, none), probe)) :
    (∀ env' t', ∀ e ∈ (f.UpdateGitEksaSpec clusterSpec datacenterConfig machineConfigs env' t').2,
      e.call.isCreateRepo = false ∧ e.call.isInit = false) ∧
    (∀ env' t', ∀ e ∈ (f.CleanupGitRepo clusterSpec env' t').2,
      e.call.isCreateRepo = false ∧ e.call.isInit = false) ∧
    (∃ events : List Event,
      f.UpdateGitEksaSpec clusterSpec datacenterConfig machineConfigs env t
        = (.ret (some (.Errorf ("failed to find remote git repo: " ++
            cfg.Spec.Flux.Github.Repository))), events) ∧
      f.CleanupGitRepo clusterSpec env t
        = (.ret (some (.Errorf ("failed to find remote git repo: " ++
            cfg.Spec.Flux.Github.Repository))), events) ∧
      ∀ e ∈ events, e.call.isLookup = true) := by
  refine ⟨?_, ?_, ?_⟩
  · intro env' t' e he
    refine Emits.mem (P := fun c => c.isCreateRepo = false ∧ c.isInit = false) ?_ env' t' he
    simp only [FluxAddonClient.UpdateGitEksaSpec]
    split
    · exact Emits.pure _
    apply Emits.bind (syncGitRepo_emits _)
    intro err
    simp only [fluxForCluster.writeEksaSystemFiles, fluxForCluster.initEksaWriter,
      fluxForCluster.eksaSystemDir, fluxForCluster.generateClusterConfigFile,
      fluxForCluster.generateEksaKustomizeFile, FluxAddonClient.Writer,
      FluxAddonClient.pushToRemoteRepo, FluxAddonClient.Git, fluxForCluster.repository,
      fluxForCluster.path, fluxForCluster.github]
    repeat' first
      | apply Emits.pure
      | apply Emits.throwPanic
      | apply Emits.deref
      | apply Emits.Retry
      | exact Emits.callErr (by simp [Call.isCreateRepo, Call.isInit])
      | exact Emits.call (by simp [Call.isCreateRepo, Call.isInit])
      | apply Emits.bind
      | intro _
      | split
  · intro env' t' e he
    refine Emits.mem (P := fun c => c.isCreateRepo = false ∧ c.isInit = false) ?_ env' t' he
    simp only [FluxAddonClient.CleanupGitRepo]
    cases hs : f.shouldSkipFlux
    · simp only [Bool.false_eq_true, ↓reduceIte]
      apply Emits.bind (syncGitRepo_emits _)
      intro err
      simp only [fluxForCluster.eksaSystemDir, FluxAddonClient.Writer,
        FluxAddonClient.pushToRemoteRepo, FluxAddonClient.Git, fluxForCluster.repository,
        fluxForCluster.path, fluxForCluster.github]
      repeat' first
        | apply Emits.pure
        | apply Emits.throwPanic
        | apply Emits.deref
        | apply Emits.Retry
        | exact Emits.callErr (by simp [Call.isCreateRepo, Call.isInit])
        | exact Emits.call (by simp [Call.isCreateRepo, Call.isInit])
        | apply Emits.bind
        | intro _
        | split
    · simp only [↓reduceIte]
      exact Emits.pure _
  · have hprobe' : (fluxForCluster.mk f clusterSpec none []).describeRepo env
        (t ++ [⟨.FileExists (path.Join [g.Writer.Dir, ".git"]),
          env t (.FileExists (path.Join [g.Writer.Dir, ".git"]))⟩])
        = (.ret (none, none), probe) := hprobe
    have hupd := syncGitRepo_remote_missing f g hg clusterSpec datacenterConfig machineConfigs
      cfg hcfg env t probe hlocal hprobe
    have hcln := syncGitRepo_remote_missing f g hg clusterSpec none [] cfg hcfg env t probe
      hlocal hprobe'
    refine ⟨⟨.FileExists (path.Join [g.Writer.Dir, ".git"]),
      env t (.FileExists (path.Join [g.Writer.Dir, ".git"]))⟩ :: probe, ?_, ?_, ?_⟩
    · simp only [FluxAddonClient.UpdateGitEksaSpec, FluxAddonClient.shouldSkipFlux, hg,
        Option.isNone_some, Bool.false_eq_true, if_false]
      rw [M.bind_run_ret hupd]
      simp [M.pure]
    · simp only [FluxAddonClient.CleanupGitRepo, FluxAddonClient.shouldSkipFlux, hg,
        Option.isNone_some, Bool.false_eq_true, if_false]
      rw [M.bind_run_ret hcln]
      simp [M.pure]
    · intro e he
      rcases List.mem_cons.1 he with he | he
      · subst he
        rfl
      · have hall := Emits.mem (describeRepo_emits
          (fluxForCluster.mk f clusterSpec datacenterConfig machineConfigs)) env
          (t ++ [⟨.FileExists (path.Join [g.Writer.Dir, ".git"]),
            env t (.FileExists (path.Join [g.Writer.Dir, ".git"]))⟩]) (e := e)
          (by rw [hprobe]; exact he)
        rw [hall]
        rfl

theorem update_and_cleanup_require_remote_witness :
    (∀ env' t', ∀ e ∈ (sampleClient.UpdateGitEksaSpec sampleSpec none [] env' t').2,
      e.call.isCreateRepo = false ∧ e.call.isInit = false) ∧
    (∀ env' t', ∀ e ∈ (sampleClient.CleanupGitRepo sampleSpec env' t').2,
      e.call.isCreateRepo = false ∧ e.call.isInit = false) ∧
    (∃ events : List Event,
      sampleClient.UpdateGitEksaSpec sampleSpec none [] envAbsent []
        = (.ret (some (.Errorf ("failed to find remote git repo: " ++
            sampleConfig.Spec.Flux.Github.Repository))), events) ∧
      sampleClient.CleanupGitRepo sampleSpec envAbsent []
        = (.ret (some (.Errorf ("failed to find remote git repo: " ++
            sampleConfig.Spec.Flux.Github.Repository))), events) ∧
      ∀ e ∈ events, e.call.isLookup = true) :=
  update_and_cleanup_require_remote sampleClient sampleGitOpts rfl sampleSpec none []
    sampleConfig rfl envAbsent [] [⟨.GetRepo, okReply⟩] (by decide!) (by decide!)

/-! ## C15 -/

/-- C15, as the code has it: the probe reports the repository present, the clone succeeds, the
first attempt of `Branch` fails and a second attempt would succeed (the policy allows five
attempts); `setupRepository` fails after that single attempt of `Branch`. -/
theorem branch_checkout_not_retried :
    ((fluxForCluster.mk sampleClient sampleSpec none []).setupRepository envBranchFailsOnce []).1
      = .ret (some (.ConfigVersionControlFailedError (.external "cannot lock ref"))) ∧
    ((fluxForCluster.mk sampleClient sampleSpec none []).setupRepository
        envBranchFailsOnce []).2.map (fun e => e.call)
      = [.GetRepo, .Clone, .Branch "main"] ∧
    (envBranchFailsOnce
      ((fluxForCluster.mk sampleClient sampleSpec none []).setupRepository
        envBranchFailsOnce []).2 (.Branch "main")).err = none ∧
    sampleClient.retrier.maxAttempts = 5 := by
  decide!

/-- C15, amended: in the branch of `setupRepository` in which the probe reports the repository
present, `Clone` runs under the retry policy (at most `maxAttempts` attempts, every attempt but
the last a failure, all attempts used when all fail); after a successful clone `Branch` is
called exactly once, outside the retry policy: when it succeeds setup succeeds, and when it
fails with an error that is not a `RepositoryIsEmptyError` setup fails with that error as a
`ConfigVersionControlFailedError`, the failed attempt being the last call. -/
theorem setup_clone_retried_branch_once (f : FluxAddonClient) (g : GitOptions)
    (hg : f.gitOpts = some g) (clusterSpec : ClusterSpec)
    (datacenterConfig : Option providers.DatacenterConfig)
    (machineConfigs : List providers.MachineConfig)
    (cfg : v1alpha1.GitOpsConfig) (hcfg : clusterSpec.GitOpsConfig = some cfg)
    (env : Env) (t probe : List Event) (r : git.Repository)
    (hprobe : (fluxForCluster.mk f clusterSpec datacenterConfig machineConfigs).describeRepo env t
      = (.ret (some r, none), probe)) :
    ∃ (clones : List Event) (branch : Event),
      f.retrier.Retry (callErr .Clone) env (t ++ probe) = (.ret (lastErr clones), clones) ∧
      clones.length ≤ f.retrier.maxAttempts ∧ (∀ e ∈ clones, e.call = .Clone) ∧
      (∀ e ∈ clones.dropLast, e.reply.err ≠ none) ∧
      ((∀ e ∈ clones, e.reply.err ≠ none) → clones.length = f.retrier.maxAttempts) ∧
      branch = ⟨.Branch cfg.Spec.Flux.Github.Branch,
        env (t ++ (probe ++ clones)) (.Branch cfg.Spec.Flux.Github.Branch)⟩ ∧
      (lastErr clones = none →
        ((fluxForCluster.mk f clusterSpec datacenterConfig machineConfigs).setupRepository
          env t).2 = probe ++ clones ++ [branch] ∨
        ∃ err, branch.reply.err = some err ∧ err.asRepositoryIsEmptyError = true) ∧
      (lastErr clones = none → branch.reply.err = none →
        (fluxForCluster.mk f clusterSpec datacenterConfig machineConfigs).setupRepository env t
          = (.ret none, probe ++ clones ++ [branch])) ∧
      (lastErr clones = none → ∀ err, branch.reply.err = some err →
        err.asRepositoryIsEmptyError = false →
        (fluxForCluster.mk f clusterSpec datacenterConfig machineConfigs).setupRepository env t
          = (.ret (some (.ConfigVersionControlFailedError err)), probe ++ clones ++ [branch])) := by
  obtain ⟨clones, hrun, hlen, -, hcall, hfail, hall⟩ :=
    Retry_callErr f.retrier .Clone env (t ++ probe)
  have hclone : lastErr clones = none →
      (fluxForCluster.mk f clusterSpec datacenterConfig machineConfigs).clone env t
        = (.ret (match (env (t ++ (probe ++ clones))
              (.Branch cfg.Spec.Flux.Github.Branch)).err with
            | some err => (none, some err)
            | none => (some r, none)),
          probe ++ clones ++ [⟨.Branch cfg.Spec.Flux.Github.Branch,
            env (t ++ (probe ++ clones)) (.Branch cfg.Spec.Flux.Github.Branch)⟩]) := by
    intro hc
    simp only [fluxForCluster.clone]
    rw [M.bind_run_ret hprobe]
    simp only [Git_of_gitOpts hg, hg, deref_some, M.pure_bind, fluxForCluster.branch,
      fluxForCluster.github, hcfg]
    rw [M.bind_run_ret hrun]
    simp only [hc]
    cases hb : (env (t ++ (probe ++ clones)) (.Branch cfg.Spec.Flux.Github.Branch)).err <;>
      simp [M.bind, callErr, M.pure, hb]
  have hok : lastErr clones = none →
      (env (t ++ (probe ++ clones)) (.Branch cfg.Spec.Flux.Github.Branch)).err = none →
      (fluxForCluster.mk f clusterSpec datacenterConfig machineConfigs).setupRepository env t
        = (.ret none, probe ++ clones ++ [⟨.Branch cfg.Spec.Flux.Github.Branch,
            env (t ++ (probe ++ clones)) (.Branch cfg.Spec.Flux.Github.Branch)⟩]) := by
    intro hc hb
    have h := hclone hc
    simp only [hb] at h
    exact setupRepository_of_clone_ok _ env t _ r h
  have hbad : lastErr clones = none → ∀ err,
      (env (t ++ (probe ++ clones)) (.Branch cfg.Spec.Flux.Github.Branch)).err = some err →
      err.asRepositoryIsEmptyError = false →
      (fluxForCluster.mk f clusterSpec datacenterConfig machineConfigs).setupRepository env t
        = (.ret (some (.ConfigVersionControlFailedError err)),
          probe ++ clones ++ [⟨.Branch cfg.Spec.Flux.Github.Branch,
            env (t ++ (probe ++ clones)) (.Branch cfg.Spec.Flux.Github.Branch)⟩]) := by
    intro hc err hb hother
    have h := hclone hc
    simp only [hb] at h
    exact setupRepository_of_clone_failed _ env t _ none err h hother
  refine ⟨clones, _, hrun, hlen, hcall, hfail, hall, rfl, ?_, hok, hbad⟩
  intro hc
  cases hb : (env (t ++ (probe ++ clones)) (.Branch cfg.Spec.Flux.Github.Branch)).err with
  | none => exact Or.inl (by rw [hok hc hb])
  | some err =>
    cases hempty : err.asRepositoryIsEmptyError with
    | true => exact Or.inr ⟨err, rfl, hempty⟩
    | false => exact Or.inl (by rw [hbad hc err hb hempty])

theorem setup_clone_retried_branch_once_witness :
    ∃ (clones : List Event) (branch : Event),
      sampleClient.retrier.Retry (callErr .Clone) envBranchFailsOnce
          ([] ++ [⟨.GetRepo, envBranchFailsOnce [] .GetRepo⟩])
        = (.ret (lastErr clones), clones) ∧
      clones.length ≤ sampleClient.retrier.maxAttempts ∧ (∀ e ∈ clones, e.call = .Clone) ∧
      (∀ e ∈ clones.dropLast, e.reply.err ≠ none) ∧
      ((∀ e ∈ clones, e.reply.err ≠ none) → clones.length = sampleClient.retrier.maxAttempts) ∧
      branch = ⟨.Branch sampleConfig.Spec.Flux.Github.Branch,
        envBranchFailsOnce ([] ++ ([⟨.GetRepo, envBranchFailsOnce [] .GetRepo⟩] ++ clones))
          (.Branch sampleConfig.Spec.Flux.Github.Branch)⟩ ∧
      (lastErr clones = none →
        ((fluxForCluster.mk sampleClient sampleSpec none []).setupRepository
          envBranchFailsOnce []).2
            = [⟨.GetRepo, envBranchFailsOnce [] .GetRepo⟩] ++ clones ++ [branch] ∨
        ∃ err, branch.reply.err = some err ∧ err.asRepositoryIsEmptyError = true) ∧
      (lastErr clones = none → branch.reply.err = none →
        (fluxForCluster.mk sampleClient sampleSpec none []).setupRepository envBranchFailsOnce []
          = (.ret none, [⟨.GetRepo, envBranchFailsOnce [] .GetRepo⟩] ++ clones ++ [branch])) ∧
      (lastErr clones = none → ∀ err, branch.reply.err = some err →
        err.asRepositoryIsEmptyError = false →
        (fluxForCluster.mk sampleClient sampleSpec none []).setupRepository envBranchFailsOnce []
          = (.ret (some (.ConfigVersionControlFailedError err)),
            [⟨.GetRepo, envBranchFailsOnce [] .GetRepo⟩] ++ clones ++ [branch])) :=
  setup_clone_retried_branch_once sampleClient sampleGitOpts rfl sampleSpec none []
    sampleConfig rfl envBranchFailsOnce [] [⟨.GetRepo, envBranchFailsOnce [] .GetRepo⟩]
    { Name := "fleet" } (by decide!)

/-! ## C16 -/

/-- C16: with GitOps configured, `Validations` returns exactly one validation.  Every run of
it returns a result named "Flux path" with a non-empty remediation.  For a cluster that is not
self-managed the error is nil and no call is made.  For a self-managed cluster the only call is
`PathExists` for the configured owner, repository, branch and path, and the error is non-nil
exactly when that call fails or reports that the path exists. -/
theorem validations_flux_path (f : FluxAddonClient) (g : GitOptions) (hg : f.gitOpts = some g)
    (clusterSpec : ClusterSpec) (cfg : v1alpha1.GitOpsConfig)
    (hcfg : clusterSpec.GitOpsConfig = some cfg) :
    ∃ v : M ValidationResult, f.Validations clusterSpec = [v] ∧
      ∀ env t, ∃ (res : ValidationResult) (events : List Event),
        v env t = (.ret res, events) ∧ res.Name = "Flux path" ∧ res.Remediation ≠ "" ∧
        (clusterSpec.Cluster.IsSelfManaged = false → res.Err = none ∧ events = []) ∧
        (clusterSpec.Cluster.IsSelfManaged = true →
          ∃ reply : Reply,
            reply = env t (.PathExists cfg.Spec.Flux.Github.Owner cfg.Spec.Flux.Github.Repository
              cfg.Spec.Flux.Github.Branch cfg.Spec.Flux.Github.ClusterConfigPath) ∧
            events = [⟨.PathExists cfg.Spec.Flux.Github.Owner cfg.Spec.Flux.Github.Repository
              cfg.Spec.Flux.Github.Branch cfg.Spec.Flux.Github.ClusterConfigPath, reply⟩] ∧
            (res.Err ≠ none ↔ (reply.err ≠ none ∨ reply.found = true))) := by
  have hv : f.Validations clusterSpec
      = [M.bind (fluxForCluster.mk f clusterSpec none []).validateRemoteConfigPathDoesNotExist
          fun err => M.pure
            { Name := "Flux path",
              Remediation := "Please provide a different path or different cluster name",
              Err := err }] := by
    simp only [FluxAddonClient.Validations, FluxAddonClient.shouldSkipFlux, hg,
      Option.isNone_some, Bool.false_eq_true, if_false]
  refine ⟨_, hv, ?_⟩
  intro env t
  cases hs : clusterSpec.Cluster.IsSelfManaged with
  | false =>
    refine ⟨⟨"Flux path", "Please provide a different path or different cluster name", none⟩,
      [], ?_, rfl, (by simp), (fun _ => ⟨rfl, rfl⟩), (fun h => by cases h)⟩
    simp [fluxForCluster.validateRemoteConfigPathDoesNotExist, hs, M.bind, M.pure]
  | true =>
    cases herr : (env t (.PathExists cfg.Spec.Flux.Github.Owner
        cfg.Spec.Flux.Github.Repository cfg.Spec.Flux.Github.Branch
        cfg.Spec.Flux.Github.ClusterConfigPath)).err with
    | some err =>
      refine ⟨⟨"Flux path", "Please provide a different path or different cluster name",
        some (.formats "failed validating remote flux config path: " err)⟩, _, ?_, rfl,
        (by simp), (fun h => by cases h), fun _ => ⟨_, rfl, rfl, ?_⟩⟩
      · simp [fluxForCluster.validateRemoteConfigPathDoesNotExist, hs, hg, hcfg,
          fluxForCluster.owner, fluxForCluster.repository, fluxForCluster.branch,
          fluxForCluster.path, fluxForCluster.github, M.bind, M.pure, call, deref, herr]
      · simp [herr]
    | none =>
      cases hfound : (env t (.PathExists cfg.Spec.Flux.Github.Owner
          cfg.Spec.Flux.Github.Repository cfg.Spec.Flux.Github.Branch
          cfg.Spec.Flux.Github.ClusterConfigPath)).found with
      | true =>
        refine ⟨⟨"Flux path", "Please provide a different path or different cluster name",
          some (.Errorf ("flux path " ++ cfg.Spec.Flux.Github.ClusterConfigPath ++
            " already exists in remote repository"))⟩, _, ?_, rfl,
          (by simp), (fun h => by cases h), fun _ => ⟨_, rfl, rfl, ?_⟩⟩
        · simp [fluxForCluster.validateRemoteConfigPathDoesNotExist, hs, hg, hcfg,
            fluxForCluster.owner, fluxForCluster.repository, fluxForCluster.branch,
            fluxForCluster.path, fluxForCluster.github, M.bind, M.pure, call, deref, herr,
            hfound]
        · simp [hfound]
      | false =>
        refine ⟨⟨"Flux path", "Please provide a different path or different cluster name",
          none⟩, _, ?_, rfl, (by simp), (fun h => by cases h), fun _ => ⟨_, rfl, rfl, ?_⟩⟩
        · simp [fluxForCluster.validateRemoteConfigPathDoesNotExist, hs, hg, hcfg,
            fluxForCluster.owner, fluxForCluster.repository, fluxForCluster.branch,
            fluxForCluster.path, fluxForCluster.github, M.bind, M.pure, call, deref, herr,
            hfound]
        · simp [herr, hfound]

theorem validations_flux_path_witness :
    ∃ v : M ValidationResult, sampleClient.Validations sampleSpec = [v] ∧
      ∀ env t, ∃ (res : ValidationResult) (events : List Event),
        v env t = (.ret res, events) ∧ res.Name = "Flux path" ∧ res.Remediation ≠ "" ∧
        (sampleSpec.Cluster.IsSelfManaged = false → res.Err = none ∧ events = []) ∧
        (sampleSpec.Cluster.IsSelfManaged = true →
          ∃ reply : Reply,
            reply = env t (.PathExists sampleConfig.Spec.Flux.Github.Owner
              sampleConfig.Spec.Flux.Github.Repository sampleConfig.Spec.Flux.Github.Branch
              sampleConfig.Spec.Flux.Github.ClusterConfigPath) ∧
            events = [⟨.PathExists sampleConfig.Spec.Flux.Github.Owner
              sampleConfig.Spec.Flux.Github.Repository sampleConfig.Spec.Flux.Github.Branch
              sampleConfig.Spec.Flux.Github.ClusterConfigPath, reply⟩] ∧
            (res.Err ≠ none ↔ (reply.err ≠ none ∨ reply.found = true))) :=
  validations_flux_path sampleClient sampleGitOpts rfl sampleSpec sampleConfig rfl

/-! ## C17 -/

/-- C17: `eksaSystemDir` is `<configPath>/<clusterName>/eksa-system` and `fluxSystemDir` is
`<configPath>/<fluxNamespace>`.  In `InstallGitOps` a writer is made for the eksa-system
directory and, only for a self-managed cluster, for the flux directory; for a cluster that is
not self-managed no flux manifest is written.  For the path `clusters`, the cluster `prod1` and
the namespace `flux-system` the files written under the local checkout `prod1/git/fleet` are
the two files of `clusters/prod1/eksa-system` and, for the self-managed cluster, the three
files of `clusters/flux-system`. -/
theorem manifest_directories (f : FluxAddonClient) (cluster : types.Cluster)
    (clusterSpec : ClusterSpec) (datacenterConfig : Option providers.DatacenterConfig)
    (machineConfigs : List providers.MachineConfig)
    (cfg : v1alpha1.GitOpsConfig) (hcfg : clusterSpec.GitOpsConfig = some cfg)
    (env : Env) (t : List Event) :
    (fluxForCluster.mk f clusterSpec datacenterConfig machineConfigs).eksaSystemDir env t
      = (.ret (path.Join [cfg.Spec.Flux.Github.ClusterConfigPath, clusterSpec.Cluster.GetName,
          "eksa-system"]), []) ∧
    (fluxForCluster.mk f clusterSpec datacenterConfig machineConfigs).fluxSystemDir env t
      = (.ret (path.Join [cfg.Spec.Flux.Github.ClusterConfigPath,
          cfg.Spec.Flux.Github.FluxSystemNamespace]), []) ∧
    (∀ e ∈ (f.InstallGitOps cluster clusterSpec datacenterConfig machineConfigs env t).2,
      (∀ w d, e.call = .WithDir w d →
        d = path.Join [cfg.Spec.Flux.Github.ClusterConfigPath, clusterSpec.Cluster.GetName,
          "eksa-system"] ∨
        (clusterSpec.Cluster.IsSelfManaged = true ∧
          d = path.Join [cfg.Spec.Flux.Github.ClusterConfigPath,
            cfg.Spec.Flux.Github.FluxSystemNamespace])) ∧
      (clusterSpec.Cluster.IsSelfManaged = false → e.call.isFluxManifest = false)) ∧
    path.Join ["clusters", "prod1", "eksa-system"] = "clusters/prod1/eksa-system" ∧
    path.Join ["clusters", "flux-system"] = "clusters/flux-system" ∧
    (sampleClient.InstallGitOps sampleCluster sampleSpec none [] envPresent []).2.filterMap
        (fun e => e.call.writtenFile)
      = ["prod1/git/fleet/clusters/prod1/eksa-system/eksa-cluster.yaml",
         "prod1/git/fleet/clusters/prod1/eksa-system/kustomization.yaml",
         "prod1/git/fleet/clusters/flux-system/kustomization.yaml",
         "prod1/git/fleet/clusters/flux-system/gotk-sync.yaml",
         "prod1/git/fleet/clusters/flux-system/gotk-patches.yaml"] ∧
    (sampleClient.InstallGitOps sampleCluster sampleManagedSpec none [] envPresent []).2.filterMap
        (fun e => e.call.writtenFile)
      = ["prod1/git/fleet/clusters/prod1/eksa-system/eksa-cluster.yaml",
         "prod1/git/fleet/clusters/prod1/eksa-system/kustomization.yaml"] := by
  refine ⟨?_, ?_, ?_, by decide!, by decide!, by decide!, by decide!⟩
  · simp [fluxForCluster.eksaSystemDir, fluxForCluster.path, fluxForCluster.github, hcfg,
      M.bind, M.pure, deref, eksaSystemDirName]
  · simp [fluxForCluster.fluxSystemDir, fluxForCluster.namespace, fluxForCluster.path,
      fluxForCluster.github, hcfg, M.bind, M.pure, deref]
  · intro e he
    refine Emits.mem (P := fun c => (∀ w d, c = .WithDir w d →
        d = path.Join [cfg.Spec.Flux.Github.ClusterConfigPath, clusterSpec.Cluster.GetName,
          "eksa-system"] ∨
        (clusterSpec.Cluster.IsSelfManaged = true ∧
          d = path.Join [cfg.Spec.Flux.Github.ClusterConfigPath,
            cfg.Spec.Flux.Github.FluxSystemNamespace])) ∧
      (clusterSpec.Cluster.IsSelfManaged = false → c.isFluxManifest = false)) ?_ env t he
    have hsetup := setupRepository_emits
      (fluxForCluster.mk f clusterSpec datacenterConfig machineConfigs)
    cases hskip : f.shouldSkipFlux
    · cases hs : clusterSpec.Cluster.IsSelfManaged <;>
      · simp only [FluxAddonClient.InstallGitOps, hskip, hs, Bool.false_eq_true, ↓reduceIte,
          fluxForCluster.commitFluxAndClusterConfigToGit, hcfg, deref_some, M.pure_bind,
          M.bind_assoc]
        apply Emits.bind
        · refine Emits.mono hsetup ?_
          intro c hc
          cases c <;> simp [Call.isSetup, Call.isFluxManifest] at hc ⊢
        intro err
        simp only [fluxForCluster.validateLocalConfigPathDoesNotExist,
          fluxForCluster.writeEksaSystemFiles, fluxForCluster.initEksaWriter,
          fluxForCluster.eksaSystemDir, fluxForCluster.generateClusterConfigFile,
          fluxForCluster.generateEksaKustomizeFile, fluxForCluster.writeFluxSystemFiles,
          fluxForCluster.initFluxWriter, fluxForCluster.fluxSystemDir,
          fluxForCluster.generateFluxKustomizeFile, FluxAddonClient.generateFluxSyncFile,
          fluxForCluster.generateFluxPatchFile, FluxAddonClient.Writer,
          FluxAddonClient.pushToRemoteRepo, FluxAddonClient.Git, fluxForCluster.namespace,
          fluxForCluster.path, fluxForCluster.github, hcfg, deref_some, M.pure_bind,
          M.bind_assoc, eksaSystemDirName, FluxAddonClient.uninstallGitOpsToolkits,
          fluxForCluster.branch, hs, Bool.false_eq_true, ↓reduceIte]
        repeat' first
          | apply Emits.pure
          | apply Emits.throwPanic
          | apply Emits.deref
          | apply Emits.Retry
          | exact Emits.callErr (by
              refine ⟨fun w d h => (by cases h), by simp [Call.isFluxManifest]⟩)
          | exact Emits.call (by
              refine ⟨fun w d h => (by cases h <;> simp), by
                simp [Call.isFluxManifest, eksaKustomizeContent, fluxKustomizeContent,
                  fluxSyncContent, fluxPatchContent]⟩)
          | apply Emits.bind
          | intro _
          | split
    · simp only [FluxAddonClient.InstallGitOps, hskip, ↓reduceIte]
      exact Emits.pure _

theorem manifest_directories_witness :
    (fluxForCluster.mk sampleClient sampleSpec none []).eksaSystemDir envPresent []
      = (.ret "clusters/prod1/eksa-system", []) ∧
    (fluxForCluster.mk sampleClient sampleSpec none []).fluxSystemDir envPresent []
      = (.ret "clusters/flux-system", []) :=
  ⟨(manifest_directories sampleClient sampleCluster sampleSpec none [] sampleConfig rfl
      envPresent []).1.trans (by decide!),
    (manifest_directories sampleClient sampleCluster sampleSpec none [] sampleConfig rfl
      envPresent []).2.1.trans (by decide!)⟩

/-! ## C18 -/

/-- C18: every call of `CreateRepo` that `InstallGitOps` makes carries the configured
repository as `Name`, the configured owner as `Owner`, the configured personal-account flag as
`Personal`, the fixed description, and `Privacy = true` whatever the configuration. -/
theorem createRepo_options (f : FluxAddonClient) (cluster : types.Cluster)
    (clusterSpec : ClusterSpec) (datacenterConfig : Option providers.DatacenterConfig)
    (machineConfigs : List providers.MachineConfig)
    (cfg : v1alpha1.GitOpsConfig) (hcfg : clusterSpec.GitOpsConfig = some cfg)
    (env : Env) (t : List Event) (e : Event) (opts : git.CreateRepoOpts)
    (he : e ∈ (f.InstallGitOps cluster clusterSpec datacenterConfig machineConfigs env t).2)
    (hcall : e.call = .CreateRepo opts) :
    opts.Name = cfg.Spec.Flux.Github.Repository ∧ opts.Owner = cfg.Spec.Flux.Github.Owner ∧
    opts.Personal = cfg.Spec.Flux.Github.Personal ∧ opts.Privacy = true ∧
    opts.Description = "EKS-A cluster configuration repository" := by
  refine Emits.mem (P := fun c => ∀ o, c = .CreateRepo o →
    o.Name = cfg.Spec.Flux.Github.Repository ∧ o.Owner = cfg.Spec.Flux.Github.Owner ∧
    o.Personal = cfg.Spec.Flux.Github.Personal ∧ o.Privacy = true ∧
    o.Description = "EKS-A cluster configuration repository") ?_ env t he opts hcall
  cases hskip : f.shouldSkipFlux
  · simp only [FluxAddonClient.InstallGitOps, hskip, Bool.false_eq_true, ↓reduceIte,
      fluxForCluster.commitFluxAndClusterConfigToGit, fluxForCluster.setupRepository,
      fluxForCluster.clone, fluxForCluster.describeRepo, fluxForCluster.createRemoteRepository,
      fluxForCluster.initializeLocalRepository,
      fluxForCluster.validateLocalConfigPathDoesNotExist,
      fluxForCluster.writeEksaSystemFiles, fluxForCluster.initEksaWriter,
      fluxForCluster.eksaSystemDir, fluxForCluster.generateClusterConfigFile,
      fluxForCluster.generateEksaKustomizeFile, fluxForCluster.writeFluxSystemFiles,
      fluxForCluster.initFluxWriter, fluxForCluster.fluxSystemDir,
      fluxForCluster.generateFluxKustomizeFile, FluxAddonClient.generateFluxSyncFile,
      fluxForCluster.generateFluxPatchFile, FluxAddonClient.Writer,
      FluxAddonClient.pushToRemoteRepo, FluxAddonClient.Git, fluxForCluster.namespace,
      fluxForCluster.repository, fluxForCluster.owner, fluxForCluster.personal,
      fluxForCluster.path, fluxForCluster.github, hcfg, deref_some, M.pure_bind,
      M.bind_assoc, FluxAddonClient.uninstallGitOpsToolkits, fluxForCluster.branch]
    repeat' first
      | apply Emits.pure
      | apply Emits.throwPanic
      | apply Emits.deref
      | apply Emits.Retry
      | apply Emits.RetryCapturing
      | exact Emits.callErr (by intro o h; cases h <;> exact ⟨rfl, rfl, rfl, rfl, rfl⟩)
      | exact Emits.call (by intro o h; cases h)
      | apply Emits.bind
      | intro _
      | split
  · simp only [FluxAddonClient.InstallGitOps, hskip, ↓reduceIte]
    exact Emits.pure _

theorem createRepo_options_witness :
    sampleCreateRepoOpts.Name = sampleConfig.Spec.Flux.Github.Repository ∧
    sampleCreateRepoOpts.Owner = sampleConfig.Spec.Flux.Github.Owner ∧
    sampleCreateRepoOpts.Personal = sampleConfig.Spec.Flux.Github.Personal ∧
    sampleCreateRepoOpts.Privacy = true ∧
    sampleCreateRepoOpts.Description = "EKS-A cluster configuration repository" :=
  createRepo_options sampleClient sampleCluster sampleSpec none [] sampleConfig rfl envAbsent []
    ⟨.CreateRepo sampleCreateRepoOpts, okReply⟩ sampleCreateRepoOpts (by decide!) rfl

end addonclients

namespace cloudstack

/-! # Package `cloudstack`: runs of the validator -/

theorem length_eq_zero_iff (s : String) : s.length = 0 ↔ s = "" := by
  cases s with
  | mk data =>
    simp only [String.length, List.length_eq_zero]
    constructor
    · intro h
      rw [h]
    · intro h
      exact congrArg String.data h

/-! ## C19 -/

/-- C19: `ValidateClusterMachineConfigs` returns the message of the first empty field among
the control-plane endpoint host, the datacenter domain, the zone value and the network value,
in that order, and leaves the state as it was: no call of the client is made and neither the
spec nor a machine configuration is changed. -/
theorem rejects_first_empty_field (env : CmkEnv) (st : State) :
    (st.spec.Spec.Cluster.Spec.ControlPlaneConfiguration.Endpoint.Host = "" →
      ValidateClusterMachineConfigs env st
        = (.ret (some "cluster controlPlaneConfiguration.Endpoint.Host is not set or is empty"),
          st)) ∧
    (∀ dc, st.spec.datacenterConfig = some dc →
      st.spec.Spec.Cluster.Spec.ControlPlaneConfiguration.Endpoint.Host ≠ "" →
      (dc.Spec.Domain = "" →
        ValidateClusterMachineConfigs env st
          = (.ret (some "CloudStackDatacenterConfig domain is not set or is empty"), st)) ∧
      (dc.Spec.Domain ≠ "" → dc.Spec.Zone.Value = "" →
        ValidateClusterMachineConfigs env st
          = (.ret (some "CloudStackDatacenterConfig zone is not set or is empty"), st)) ∧
      (dc.Spec.Domain ≠ "" → dc.Spec.Zone.Value ≠ "" → dc.Spec.Network.Value = "" →
        ValidateClusterMachineConfigs env st
          = (.ret (some "CloudStackDatacenterConfig network is not set or is empty"), st))) := by
  refine ⟨?_, ?_⟩
  · intro hhost
    simp [ValidateClusterMachineConfigs, V.bind, V.get, V.pure, length_eq_zero_iff, hhost]
  · intro dc hdc hhost
    refine ⟨?_, ?_, ?_⟩
    · intro hdomain
      simp [ValidateClusterMachineConfigs, V.bind, V.get, V.pure, V.deref, length_eq_zero_iff,
        hhost, hdc, hdomain]
    · intro hdomain hzone
      simp [ValidateClusterMachineConfigs, V.bind, V.get, V.pure, V.deref, length_eq_zero_iff,
        hhost, hdc, hdomain, hzone]
    · intro hdomain hzone hnetwork
      simp [ValidateClusterMachineConfigs, V.bind, V.get, V.pure, V.deref, length_eq_zero_iff,
        hhost, hdc, hdomain, hzone, hnetwork]

theorem rejects_first_empty_field_witness :
    ValidateClusterMachineConfigs cmkOk (stateOf (clusterWithHost "") none)
      = (.ret (some "cluster controlPlaneConfiguration.Endpoint.Host is not set or is empty"),
        stateOf (clusterWithHost "") none) ∧
    ValidateClusterMachineConfigs cmkOk (stateOf sampleCluster (some datacenterNoNetwork))
      = (.ret (some "CloudStackDatacenterConfig network is not set or is empty"),
        stateOf sampleCluster (some datacenterNoNetwork)) :=
  ⟨(rejects_first_empty_field cmkOk (stateOf (clusterWithHost "") none)).1 rfl,
    ((rejects_first_empty_field cmkOk (stateOf sampleCluster (some datacenterNoNetwork))).2
      datacenterNoNetwork rfl (by decide)).2.2 (by decide) (by decide) rfl⟩

/-! ## C20 -/

/-- C20: with the host, the domain, the zone and the network set, a nil `MachineGroupRef` of
the control plane is rejected with its message; otherwise a nil `MachineGroupRef` of the first
worker node group is rejected with its message; otherwise, with the machine configuration of
the control plane found and an external etcd configuration whose `MachineGroupRef` is nil, the
spec is rejected with the message for the etcd machines.  The state is left as it was. -/
theorem rejects_missing_machineGroupRef (env : CmkEnv) (st : State)
    (dc : anywherev1.CloudStackDatacenterConfig) (hdc : st.spec.datacenterConfig = some dc)
    (hhost : st.spec.Spec.Cluster.Spec.ControlPlaneConfiguration.Endpoint.Host ≠ "")
    (hdomain : dc.Spec.Domain ≠ "") (hzone : dc.Spec.Zone.Value ≠ "")
    (hnetwork : dc.Spec.Network.Value ≠ "") :
    (st.spec.Spec.Cluster.Spec.ControlPlaneConfiguration.MachineGroupRef = none →
      ValidateClusterMachineConfigs env st
        = (.ret (some "must specify machineGroupRef for control plane"), st)) ∧
    (∀ controlPlaneRef worker others,
      st.spec.Spec.Cluster.Spec.ControlPlaneConfiguration.MachineGroupRef = some controlPlaneRef →
      st.spec.Spec.Cluster.Spec.WorkerNodeGroupConfigurations = worker :: others →
      worker.MachineGroupRef = none →
      ValidateClusterMachineConfigs env st
        = (.ret (some "must specify machineGroupRef for worker nodes"), st)) ∧
    (∀ controlPlaneRef worker others workerRef controlPlaneMachineConfig etcd,
      st.spec.Spec.Cluster.Spec.ControlPlaneConfiguration.MachineGroupRef = some controlPlaneRef →
      st.spec.Spec.Cluster.Spec.WorkerNodeGroupConfigurations = worker :: others →
      worker.MachineGroupRef = some workerRef →
      st.spec.machineConfigsLookup.index controlPlaneRef.Name = some controlPlaneMachineConfig →
      st.spec.Spec.Cluster.Spec.ExternalEtcdConfiguration = some etcd →
      etcd.MachineGroupRef = none →
      ValidateClusterMachineConfigs env st
        = (.ret (some "must specify machineGroupRef for etcd machines"), st)) := by
  refine ⟨?_, ?_, ?_⟩
  · intro hcp
    simp [ValidateClusterMachineConfigs, V.bind, V.get, V.pure, V.deref, length_eq_zero_iff,
      hhost, hdc, hdomain, hzone, hnetwork, hcp]
  · intro controlPlaneRef worker others hcp hworkers hworker
    simp [ValidateClusterMachineConfigs, V.bind, V.get, V.pure, V.deref, length_eq_zero_iff,
      hhost, hdc, hdomain, hzone, hnetwork, hcp, hworkers, hworker]
  · intro controlPlaneRef worker others workerRef controlPlaneMachineConfig etcd hcp hworkers
      hworker hfound hetcd hetcdRef
    simp [ValidateClusterMachineConfigs, Spec.controlPlaneMachineConfig, validateEtcd, V.bind,
      V.get, V.pure, V.deref, length_eq_zero_iff, hhost, hdc, hdomain, hzone, hnetwork, hcp,
      hworkers, hworker, hfound, hetcd, hetcdRef]

theorem rejects_missing_machineGroupRef_witness :
    ValidateClusterMachineConfigs cmkOk (stateOf clusterEtcdRefNil (some sampleDatacenter))
      = (.ret (some "must specify machineGroupRef for etcd machines"),
        stateOf clusterEtcdRefNil (some sampleDatacenter)) :=
  (rejects_missing_machineGroupRef cmkOk (stateOf clusterEtcdRefNil (some sampleDatacenter))
    sampleDatacenter rfl (by decide) (by decide) (by decide) (by decide)).2.2
    (sampleRef "test-cp") { MachineGroupRef := some (sampleRef "test-md-0") } []
    (sampleRef "test-md-0") 0 { MachineGroupRef := none }
    rfl rfl rfl (by decide) rfl rfl

/-! ## The checks before the loop -/

/-- The checks of the external etcd configuration make no call and change nothing; when they
pass they give no error and the machine configuration of the etcd machines. -/
theorem validateEtcd_of_accepted (st : State) (controlPlaneMachineConfig : Pointer)
    (etcdMachineConfig : Option Pointer)
    (h : EtcdAccepted st controlPlaneMachineConfig etcdMachineConfig) (env : CmkEnv) :
    validateEtcd st.spec controlPlaneMachineConfig env st
      = (.ret (none, etcdMachineConfig), st) := by
  rcases h with ⟨hnone, he⟩ | ⟨etcd, ref, found, hetcd, href, hfound, htemplate, he⟩
  · simp [validateEtcd, hnone, he, V.pure]
  · simp [validateEtcd, Spec.etcdMachineConfig, hetcd, href, hfound, htemplate, he, V.pure,
      V.bind, V.load]

/-- A spec whose four fields and two references are set, whose control-plane machine
configuration is found and whose etcd checks pass reaches the check of the namespaces with
the state it started from. -/
theorem validate_reaches_rest (env : CmkEnv) (st : State)
    (dc : anywherev1.CloudStackDatacenterConfig) (hdc : st.spec.datacenterConfig = some dc)
    (hhost : st.spec.Spec.Cluster.Spec.ControlPlaneConfiguration.Endpoint.Host ≠ "")
    (hdomain : dc.Spec.Domain ≠ "") (hzone : dc.Spec.Zone.Value ≠ "")
    (hnetwork : dc.Spec.Network.Value ≠ "")
    (controlPlaneRef : anywherev1.Ref) (worker : anywherev1.WorkerNodeGroupConfiguration)
    (others : List anywherev1.WorkerNodeGroupConfiguration) (workerRef : anywherev1.Ref)
    (hcp : st.spec.Spec.Cluster.Spec.ControlPlaneConfiguration.MachineGroupRef
      = some controlPlaneRef)
    (hworkers : st.spec.Spec.Cluster.Spec.WorkerNodeGroupConfigurations = worker :: others)
    (hworker : worker.MachineGroupRef = some workerRef)
    (controlPlaneMachineConfig : Pointer)
    (hfound : st.spec.machineConfigsLookup.index controlPlaneRef.Name
      = some controlPlaneMachineConfig)
    (etcdMachineConfig : Option Pointer)
    (hetcd : EtcdAccepted st controlPlaneMachineConfig etcdMachineConfig) :
    ValidateClusterMachineConfigs env st
      = validateRest controlPlaneMachineConfig etcdMachineConfig env st := by
  have he := validateEtcd_of_accepted st controlPlaneMachineConfig etcdMachineConfig hetcd env
  simp [ValidateClusterMachineConfigs, Spec.controlPlaneMachineConfig, V.bind, V.get, V.pure,
    V.deref, length_eq_zero_iff, hhost, hdc, hdomain, hzone, hnetwork, hcp, hworkers, hworker,
    hfound, he]

/-! ## C21 -/

/-- C21: in a spec whose four fields and references are set, a control-plane reference whose
name is not in the lookup of the spec is rejected with the message for the control plane; with
the control-plane machine configuration found, an etcd reference whose name is not in the
lookup of the spec is rejected with the message for the etcd machines; with the etcd checks
passed and equal namespaces, a reference of the first worker node group whose name is not
among the machine configurations of the validator is rejected with the message for the worker
nodes.  Each message carries the name, and the state is left as it was. -/
theorem rejects_unknown_machineGroupRef (env : CmkEnv) (st : State)
    (dc : anywherev1.CloudStackDatacenterConfig) (hdc : st.spec.datacenterConfig = some dc)
    (hhost : st.spec.Spec.Cluster.Spec.ControlPlaneConfiguration.Endpoint.Host ≠ "")
    (hdomain : dc.Spec.Domain ≠ "") (hzone : dc.Spec.Zone.Value ≠ "")
    (hnetwork : dc.Spec.Network.Value ≠ "")
    (controlPlaneRef : anywherev1.Ref) (worker : anywherev1.WorkerNodeGroupConfiguration)
    (others : List anywherev1.WorkerNodeGroupConfiguration) (workerRef : anywherev1.Ref)
    (hcp : st.spec.Spec.Cluster.Spec.ControlPlaneConfiguration.MachineGroupRef
      = some controlPlaneRef)
    (hworkers : st.spec.Spec.Cluster.Spec.WorkerNodeGroupConfigurations = worker :: others)
    (hworker : worker.MachineGroupRef = some workerRef) :
    (st.spec.machineConfigsLookup.index controlPlaneRef.Name = none →
      ValidateClusterMachineConfigs env st
        = (.ret (some ("cannot find CloudStackMachineConfig " ++ controlPlaneRef.Name ++
            " for control plane")), st)) ∧
    (∀ controlPlaneMachineConfig etcd etcdRef,
      st.spec.machineConfigsLookup.index controlPlaneRef.Name = some controlPlaneMachineConfig →
      st.spec.Spec.Cluster.Spec.ExternalEtcdConfiguration = some etcd →
      etcd.MachineGroupRef = some etcdRef →
      st.spec.machineConfigsLookup.index etcdRef.Name = none →
      ValidateClusterMachineConfigs env st
        = (.ret (some ("cannot find CloudStackMachineConfig " ++ etcdRef.Name ++
            " for etcd machines")), st)) ∧
    (∀ controlPlaneMachineConfig etcdMachineConfig,
      st.spec.machineConfigsLookup.index controlPlaneRef.Name = some controlPlaneMachineConfig →
      EtcdAccepted st controlPlaneMachineConfig etcdMachineConfig →
      dc.Namespace = st.spec.Spec.Namespace →
      st.validator.machineConfigs.lookup workerRef.Name = none →
      ValidateClusterMachineConfigs env st
        = (.ret (some ("cannot find CloudStackMachineConfig " ++ workerRef.Name ++
            " for worker nodes")), st)) := by
  refine ⟨?_, ?_, ?_⟩
  · intro hfound
    simp [ValidateClusterMachineConfigs, Spec.controlPlaneMachineConfig, V.bind, V.get, V.pure,
      V.deref, length_eq_zero_iff, hhost, hdc, hdomain, hzone, hnetwork, hcp, hworkers, hworker,
      hfound]
  · intro controlPlaneMachineConfig etcd etcdRef hfound hetcd hetcdRef hmissing
    simp [ValidateClusterMachineConfigs, Spec.controlPlaneMachineConfig, validateEtcd,
      Spec.etcdMachineConfig, V.bind, V.get, V.pure, V.deref, length_eq_zero_iff, hhost, hdc,
      hdomain, hzone, hnetwork, hcp, hworkers, hworker, hfound, hetcd, hetcdRef, hmissing]
  · intro controlPlaneMachineConfig etcdMachineConfig hfound hetcd hns hmissing
    rw [validate_reaches_rest env st dc hdc hhost hdomain hzone hnetwork controlPlaneRef worker
      others workerRef hcp hworkers hworker controlPlaneMachineConfig hfound etcdMachineConfig
      hetcd]
    simp [validateRest, V.bind, V.get, V.pure, V.deref, hdc, hns, hworkers, hworker, hmissing]

theorem rejects_unknown_machineGroupRef_witness :
    ValidateClusterMachineConfigs cmkOk
        (stateOf (clusterWithRefs "nonexistent" "test-md-0" "test-etcd") (some sampleDatacenter))
      = (.ret (some "cannot find CloudStackMachineConfig nonexistent for control plane"),
        stateOf (clusterWithRefs "nonexistent" "test-md-0" "test-etcd") (some sampleDatacenter)) ∧
    ValidateClusterMachineConfigs cmkOk
        (stateOf (clusterWithRefs "test-cp" "test-md-0" "nonexistent") (some sampleDatacenter))
      = (.ret (some "cannot find CloudStackMachineConfig nonexistent for etcd machines"),
        stateOf (clusterWithRefs "test-cp" "test-md-0" "nonexistent") (some sampleDatacenter)) ∧
    ValidateClusterMachineConfigs cmkOk
        (stateOf (clusterWithRefs "test-cp" "nonexistent" "test-etcd") (some sampleDatacenter))
      = (.ret (some "cannot find CloudStackMachineConfig nonexistent for worker nodes"),
        stateOf (clusterWithRefs "test-cp" "nonexistent" "test-etcd") (some sampleDatacenter)) :=
  ⟨(rejects_unknown_machineGroupRef cmkOk
      (stateOf (clusterWithRefs "nonexistent" "test-md-0" "test-etcd") (some sampleDatacenter))
      sampleDatacenter rfl (by decide) (by decide) (by decide) (by decide)
      (sampleRef "nonexistent") { MachineGroupRef := some (sampleRef "test-md-0") } []
      (sampleRef "test-md-0") rfl rfl rfl).1 (by decide!),
   (rejects_unknown_machineGroupRef cmkOk
      (stateOf (clusterWithRefs "test-cp" "test-md-0" "nonexistent") (some sampleDatacenter))
      sampleDatacenter rfl (by decide) (by decide) (by decide) (by decide)
      (sampleRef "test-cp") { MachineGroupRef := some (sampleRef "test-md-0") } []
      (sampleRef "test-md-0") rfl rfl rfl).2.1 0
      { MachineGroupRef := some (sampleRef "nonexistent") } (sampleRef "nonexistent")
      (by decide!) rfl rfl (by decide!),
   (rejects_unknown_machineGroupRef cmkOk
      (stateOf (clusterWithRefs "test-cp" "nonexistent" "test-etcd") (some sampleDatacenter))
      sampleDatacenter rfl (by decide) (by decide) (by decide) (by decide)
      (sampleRef "test-cp") { MachineGroupRef := some (sampleRef "nonexistent") } []
      (sampleRef "nonexistent") rfl rfl rfl).2.2 0 (some 2) (by decide!)
      (Or.inr ⟨{ MachineGroupRef := some (sampleRef "test-etcd") }, sampleRef "test-etcd",
        2, rfl, rfl, by decide!, by decide!, rfl⟩) rfl (by decide!)⟩

/-! ## C22 -/

/-- C22: a spec that passes the checks of the fields, of the references, of the
control-plane and etcd machine configurations and of the namespaces, and whose first worker
node group names a machine configuration of the validator with a template other than the
one of the control-plane machine configuration, is rejected with the message on the templates
of the control plane and the worker nodes; the state is left as it was. -/
theorem rejects_different_worker_template (env : CmkEnv) (st : State)
    (dc : anywherev1.CloudStackDatacenterConfig) (hdc : st.spec.datacenterConfig = some dc)
    (hhost : st.spec.Spec.Cluster.Spec.ControlPlaneConfiguration.Endpoint.Host ≠ "")
    (hdomain : dc.Spec.Domain ≠ "") (hzone : dc.Spec.Zone.Value ≠ "")
    (hnetwork : dc.Spec.Network.Value ≠ "")
    (controlPlaneRef : anywherev1.Ref) (worker : anywherev1.WorkerNodeGroupConfiguration)
    (others : List anywherev1.WorkerNodeGroupConfiguration) (workerRef : anywherev1.Ref)
    (hcp : st.spec.Spec.Cluster.Spec.ControlPlaneConfiguration.MachineGroupRef
      = some controlPlaneRef)
    (hworkers : st.spec.Spec.Cluster.Spec.WorkerNodeGroupConfigurations = worker :: others)
    (hworker : worker.MachineGroupRef = some workerRef)
    (controlPlaneMachineConfig : Pointer)
    (hfound : st.spec.machineConfigsLookup.index controlPlaneRef.Name
      = some controlPlaneMachineConfig)
    (etcdMachineConfig : Option Pointer)
    (hetcd : EtcdAccepted st controlPlaneMachineConfig etcdMachineConfig)
    (hns : dc.Namespace = st.spec.Spec.Namespace)
    (workerNodeGroupMachineConfig : Pointer)
    (hworkerFound : st.validator.machineConfigs.lookup workerRef.Name
      = some (some workerNodeGroupMachineConfig))
    (htemplate : (st.objects controlPlaneMachineConfig).Spec.Template
      ≠ (st.objects workerNodeGroupMachineConfig).Spec.Template) :
    ValidateClusterMachineConfigs env st
      = (.ret (some "control plane and worker nodes must have the same template specified"),
        st) := by
  rw [validate_reaches_rest env st dc hdc hhost hdomain hzone hnetwork controlPlaneRef worker
    others workerRef hcp hworkers hworker controlPlaneMachineConfig hfound etcdMachineConfig
    hetcd]
  simp [validateRest, V.bind, V.get, V.pure, V.deref, V.load, hdc, hns, hworkers, hworker,
    hworkerFound, htemplate]

theorem rejects_different_worker_template_witness :
    ValidateClusterMachineConfigs cmkOk (stateWith workerTemplateDiffers)
      = (.ret (some "control plane and worker nodes must have the same template specified"),
        stateWith workerTemplateDiffers) :=
  rejects_different_worker_template cmkOk (stateWith workerTemplateDiffers)
    sampleDatacenter rfl (by decide) (by decide) (by decide) (by decide)
    (sampleRef "test-cp") { MachineGroupRef := some (sampleRef "test-md-0") } []
    (sampleRef "test-md-0") rfl rfl rfl 0 (by decide!) (some 2)
    (Or.inr ⟨{ MachineGroupRef := some (sampleRef "test-etcd") }, sampleRef "test-etcd",
      2, rfl, rfl, by decide!, by decide!, rfl⟩) rfl 1 (by decide!) (by decide!)

/-! ## The host of the control-plane endpoint -/

theorem lastIndexByte_eq_none {s : List Char} {c : Char} (h : c ∉ s) :
    net.lastIndexByte s c = none := by
  have : List.indexOf? c s.reverse = none := by
    unfold List.indexOf?
    rw [List.findIdx?_eq_none_iff]
    intro x hx
    have hx' : x ∈ s := List.mem_reverse.1 hx
    simp only [beq_eq_false_iff_ne, ne_eq]
    intro hxc
    exact h (hxc ▸ hx')
  simp [net.lastIndexByte, this]

theorem lastIndexByte_append {a b : List Char} {c : Char} (h : c ∉ b) :
    net.lastIndexByte (a ++ c :: b) c = some a.length := by
  have hb : List.findIdx? (fun x => x == c) b.reverse = none := by
    rw [List.findIdx?_eq_none_iff]
    intro x hx
    have hx' : x ∈ b := List.mem_reverse.1 hx
    simp only [beq_eq_false_iff_ne, ne_eq]
    intro hxc
    exact h (hxc ▸ hx')
  have : List.indexOf? c (a ++ c :: b).reverse = some b.length := by
    unfold List.indexOf?
    simp [List.findIdx?_append, hb, List.findIdx?_cons]
  simp only [net.lastIndexByte, this, List.length_append, List.length_cons]
  congr 1
  omega

theorem containsChars_of_infix (pre sub post : List Char) :
    strings.containsChars (pre ++ sub ++ post) sub = true := by
  simp only [strings.containsChars, List.any_eq_true]
  refine ⟨sub ++ post, ?_, ?_⟩
  · rw [List.mem_tails, List.append_assoc]
    exact List.suffix_append _ _
  · rw [List.isPrefixOf_iff_prefix]
    exact List.prefix_append _ _

/-- The text of the error `missing port in address` of any address has the words
`missing port`. -/
theorem missingPort_text (addr : String) :
    strings.Contains (net.AddrError.Error { Err := net.missingPort, Addr := addr })
      "missing port" = true := by
  have hsplit : net.missingPort.data = "missing port".data ++ " in address".data := by decide
  unfold net.AddrError.Error strings.Contains
  split
  · simp only [String.data_append, hsplit]
    have := containsChars_of_infix ("address ".data ++ addr.data ++ ": ".data)
      "missing port".data " in address".data
    simpa [List.append_assoc] using this
  · simpa [hsplit] using containsChars_of_infix [] "missing port".data " in address".data

/-- A host without a colon gets the default port. -/
theorem host_without_colon (host : String) (hcolon : ':' ∉ host.data) :
    validateControlPlaneHostAndApplyDefaultPort host
      = (host ++ ":" ++ controlEndpointDefaultPort, none) := by
  have hsplit : net.SplitHostPort host = .error { Err := net.missingPort, Addr := host } := by
    simp [net.SplitHostPort, lastIndexByte_eq_none hcolon]
  have hport : strconv.Atoi controlEndpointDefaultPort = .ok 6443 := by rfl
  simp [validateControlPlaneHostAndApplyDefaultPort, hsplit, missingPort_text, hport]

/-! ## The loop over the machine configurations -/

theorem V.bind_get {β : Type} (f : State → V β) (env : CmkEnv) (st : State) :
    V.bind V.get f env st = f st env st := rfl

theorem V.bind_pure_run {α β : Type} (a : α) (f : α → V β) (env : CmkEnv) (st : State) :
    V.bind (V.pure a) f env st = f a env st := rfl

theorem V.bind_set {β : Type} (s : State) (f : Unit → V β) (env : CmkEnv) (st : State) :
    V.bind (V.set s) f env st = f () env s := rfl

theorem V.bind_load {β : Type} (p : Pointer) (f : anywherev1.CloudStackMachineConfig → V β)
    (env : CmkEnv) (st : State) : V.bind (V.load p) f env st = f (st.objects p) env st := rfl

theorem V.bind_store {β : Type} (p : Pointer) (mc : anywherev1.CloudStackMachineConfig)
    (f : Unit → V β) (env : CmkEnv) (st : State) :
    V.bind (V.store p mc) f env st
      = f () env { st with objects := fun q => if q = p then mc else st.objects q } := rfl

theorem V.bind_ret {α β : Type} {m : V α} {f : α → V β} {env : CmkEnv} {st st1 : State} {a : α}
    (h : m env st = (.ret a, st1)) : V.bind m f env st = f a env st1 := by
  simp [V.bind, h]

theorem V.bind_panics {α β : Type} {m : V α} {f : α → V β} {env : CmkEnv} {st st1 : State}
    (h : m env st = (.panics, st1)) : V.bind m f env st = (.panics, st1) := by
  simp [V.bind, h]

/-- A run is known by its outcome and the state it leaves. -/
theorem V.run_eq {α : Type} {run : Outcome α × State} {o : Outcome α} (h : run.1 = o) :
    run = (o, run.2) := by
  subst h
  rfl

/-- The method `validateMachineConfig` on a nil machine configuration panics. -/
theorem validateMachineConfig_none (d : anywherev1.CloudStackDatacenterConfigSpec)
    (env : CmkEnv) (st : State) :
    validateMachineConfig d none env st = (.panics, st) := by
  simp [validateMachineConfig, V.bind, V.deref, V.throwPanic]

/-- The method `validateMachineConfig` reads the calls made so far and, of the machine
configuration, the template, the compute offering and the affinity groups; it writes the calls
only. -/
theorem validateMachineConfig_frame (d : anywherev1.CloudStackDatacenterConfigSpec)
    (m : Option Pointer) (env : CmkEnv) (st st0 : State) (hcalls : st.calls = st0.calls)
    (hobjects : ∀ p, SameButUsers (st.objects p) (st0.objects p)) :
    validateMachineConfig d m env st
      = ((validateMachineConfig d m env st0).1,
        { st with calls := (validateMachineConfig d m env st0).2.calls }) := by
  cases m with
  | none =>
    simp only [validateMachineConfig_none]
    rw [← hcalls]
  | some p =>
    obtain ⟨-, -, ht, ho, ha⟩ := hobjects p
    simp only [validateMachineConfig, V.deref, V.bind_pure_run, V.bind_load, ht, ho, ha]
    cases h1 : env st0.calls (.ValidateTemplatePresent d.Domain d.Zone d.Account
      (st0.objects p).Spec.Template)
    case some err => simp [V.bind, V.cmk, V.pure, h1, hcalls]
    case none =>
      cases h2 : env (st0.calls ++ [⟨.ValidateTemplatePresent d.Domain d.Zone d.Account
          (st0.objects p).Spec.Template, none⟩])
        (.ValidateServiceOfferingPresent d.Domain d.Zone d.Account
          (st0.objects p).Spec.ComputeOffering)
      case some err => simp [V.bind, V.cmk, V.pure, h1, h2, hcalls]
      case none =>
        by_cases hl : 0 < (st0.objects p).Spec.AffinityGroupIds.length
        · cases h3 : env (st0.calls ++ [⟨.ValidateTemplatePresent d.Domain d.Zone d.Account
              (st0.objects p).Spec.Template, none⟩, ⟨.ValidateServiceOfferingPresent d.Domain
              d.Zone d.Account (st0.objects p).Spec.ComputeOffering, none⟩])
            (.ValidateAffinityGroupsPresent d.Domain d.Zone d.Account
              (st0.objects p).Spec.AffinityGroupIds) <;>
            simp [V.bind, V.cmk, V.pure, h1, h2, h3, hl, hcalls]
        · simp [V.bind, V.cmk, V.pure, h1, h2, hl, hcalls]

theorem SameButUsers.refl (mc : anywherev1.CloudStackMachineConfig) : SameButUsers mc mc :=
  ⟨rfl, rfl, rfl, rfl, rfl⟩

/-- The method `validateMachineConfig` leaves the state as it was, but for the calls. -/
theorem validateMachineConfig_state (d : anywherev1.CloudStackDatacenterConfigSpec)
    (m : Option Pointer) (env : CmkEnv) (st : State) :
    (validateMachineConfig d m env st).2
      = { st with calls := (validateMachineConfig d m env st).2.calls } :=
  congrArg Prod.snd (validateMachineConfig_frame d m env st st rfl fun _ => SameButUsers.refl _)

/-- The method `validateMachineConfig` on a machine configuration returns. -/
theorem validateMachineConfig_some (d : anywherev1.CloudStackDatacenterConfigSpec)
    (p : Pointer) (env : CmkEnv) (st : State) :
    ∃ err : Error, (validateMachineConfig d (some p) env st).1 = .ret err := by
  simp only [validateMachineConfig, V.deref, V.bind_pure_run, V.bind_load]
  cases h1 : env st.calls (.ValidateTemplatePresent d.Domain d.Zone d.Account
    (st.objects p).Spec.Template)
  case some err => simp [V.bind, V.cmk, V.pure, h1]
  case none =>
    cases h2 : env (st.calls ++ [⟨.ValidateTemplatePresent d.Domain d.Zone d.Account
        (st.objects p).Spec.Template, none⟩])
      (.ValidateServiceOfferingPresent d.Domain d.Zone d.Account
        (st.objects p).Spec.ComputeOffering)
    case some err => simp [V.bind, V.cmk, V.pure, h1, h2]
    case none =>
      by_cases hl : 0 < (st.objects p).Spec.AffinityGroupIds.length
      · cases h3 : env (st.calls ++ [⟨.ValidateTemplatePresent d.Domain d.Zone d.Account
            (st.objects p).Spec.Template, none⟩, ⟨.ValidateServiceOfferingPresent d.Domain
            d.Zone d.Account (st.objects p).Spec.ComputeOffering, none⟩])
          (.ValidateAffinityGroupsPresent d.Domain d.Zone d.Account
            (st.objects p).Spec.AffinityGroupIds) <;>
          simp [V.bind, V.cmk, V.pure, h1, h2, h3, hl]
      · simp [V.bind, V.cmk, V.pure, h1, h2, hl]

/-- A machine configuration with its default users has a first user with a first key, and its
other fields as they were; a machine configuration that has them already is left as it is. -/
theorem withDefaultUsers_spec (mc : anywherev1.CloudStackMachineConfig) :
    HasUserAndKey (withDefaultUsers mc) ∧ SameButUsers (withDefaultUsers mc) mc ∧
    (HasUserAndKey mc → withDefaultUsers mc = mc) := by
  unfold withDefaultUsers
  cases hu : mc.Spec.Users with
  | nil =>
    refine ⟨⟨_, _, rfl, by simp⟩, ⟨rfl, rfl, rfl, rfl, rfl⟩, ?_⟩
    rintro ⟨first, others, h, -⟩
    rw [hu] at h
    simp at h
  | cons first others =>
    by_cases hk : first.SshAuthorizedKeys = []
    · simp only [hk, if_true]
      refine ⟨⟨_, _, rfl, by simp⟩, ⟨rfl, rfl, rfl, rfl, rfl⟩, ?_⟩
      rintro ⟨first1, others1, h, hkey⟩
      rw [hu] at h
      simp only [List.cons.injEq] at h
      rw [← h.1] at hkey
      exact absurd hk hkey
    · simp only [hk, if_false]
      exact ⟨⟨first, others, hu, hk⟩, SameButUsers.refl _, fun _ => trivial⟩

/-- One turn of the loop on a pointer that is not nil: the check of the namespace, then the
write of the default users through the pointer, the check of the template,
`validateMachineConfig` and the next turn. -/
theorem rangeMachineConfigs_cons (e : Option Pointer) (name : String) (p : Pointer)
    (todo : MachineConfigMap) (env : CmkEnv) (st : State) :
    rangeMachineConfigs e ((name, some p) :: todo) env st
      = if (st.objects p).Namespace ≠ st.spec.Spec.Namespace then
          (.ret (some ("CloudStackMachineConfig and Cluster objects must have the same " ++
            "namespace: CloudStackMachineConfig namespace=" ++ (st.objects p).Namespace ++
            "; Cluster namespace=" ++ st.spec.Spec.Namespace)), st)
        else
          (if (st.objects p).Spec.Template.Value = "" then
            V.pure (some ("template is not set for CloudStackMachineConfig " ++
              (st.objects p).Name ++
              ". Default template is not supported in CloudStack, please provide a template name"))
          else
            V.bind (V.deref st.spec.datacenterConfig) fun dc =>
            V.bind (validateMachineConfig dc.Spec e) fun err =>
            match err with
            | some err =>
              V.bind (V.load p) fun mc =>
              V.pure (some ("machine config " ++ mc.Name ++ " validation failed: " ++ err))
            | none => rangeMachineConfigs e todo) env
          { st with objects := fun q =>
              if q = p then withDefaultUsers (st.objects p) else st.objects q } := by
  by_cases hns : (st.objects p).Namespace = st.spec.Spec.Namespace
  swap
  · simp [rangeMachineConfigs, V.bind_get, V.deref, V.bind_pure_run, V.bind_load, hns, V.pure]
  rw [if_neg (not_not.2 hns)]
  simp only [rangeMachineConfigs, V.bind_get, V.deref, V.bind_pure_run, V.bind_load]
  rw [if_neg (not_not.2 hns)]
  have hobj : ∀ a b : anywherev1.CloudStackMachineConfig,
      (fun q => if q = p then a else if q = p then b else st.objects q)
        = fun q => if q = p then a else st.objects q := by
    intro a b
    funext q
    by_cases hq : q = p
    · simp [hq]
    · simp [hq]
  cases hu : (st.objects p).Spec.Users with
  | nil =>
    have hw : withDefaultUsers (st.objects p) = { st.objects p with Spec :=
        { (st.objects p).Spec with Users := [{ Name := "", SshAuthorizedKeys := [""] }] } } := by
      simp [withDefaultUsers, hu]
    rw [hw]
    simp only [List.length_nil, le_refl, if_true, V.bind_store, V.bind_load, if_pos, hobj]
  | cons first others =>
    by_cases hk : first.SshAuthorizedKeys = []
    · have hw : withDefaultUsers (st.objects p) = { st.objects p with Spec :=
          { (st.objects p).Spec with
            Users := { first with SshAuthorizedKeys := [""] } :: others } } := by
        simp [withDefaultUsers, hu, hk]
      rw [hw]
      simp only [List.length_cons, Nat.le_zero_eq, Nat.add_one_ne_zero, if_false,
        V.bind_pure_run, V.bind_load, hu, hk, List.length_nil, if_true, V.bind_store, if_pos]
    · have hkl : ¬ first.SshAuthorizedKeys.length = 0 := by
        simpa [List.length_eq_zero] using hk
      have hw : withDefaultUsers (st.objects p) = st.objects p := by
        simp [withDefaultUsers, hu, hk]
      have hst : ({ st with objects := fun q =>
          if q = p then withDefaultUsers (st.objects p) else st.objects q } : State) = st := by
        rw [hw]
        cases st
        simp only [State.mk.injEq, true_and, and_true]
        funext q
        by_cases hq : q = p
        · simp [hq]
        · simp [hq]
      simp only [List.length_cons, Nat.le_zero_eq, Nat.add_one_ne_zero, if_false,
        V.bind_pure_run, V.bind_load, hu, hkl, hst]

theorem SameButUsers.symm {a b : anywherev1.CloudStackMachineConfig} (h : SameButUsers a b) :
    SameButUsers b a :=
  ⟨h.1.symm, h.2.1.symm, h.2.2.1.symm, h.2.2.2.1.symm, h.2.2.2.2.symm⟩

theorem SameButUsers.trans {a b c : anywherev1.CloudStackMachineConfig} (h : SameButUsers a b)
    (k : SameButUsers b c) : SameButUsers a c :=
  ⟨h.1.trans k.1, h.2.1.trans k.2.1, h.2.2.1.trans k.2.2.1, h.2.2.2.1.trans k.2.2.2.1,
    h.2.2.2.2.trans k.2.2.2.2⟩

/-- A successful loop leaves the spec and the validator as they were, takes the first user and
the first key from no machine configuration, and has left every machine configuration it
visited with a first user and a first key. -/
theorem rangeMachineConfigs_success (e : Option Pointer) :
    ∀ (todo : MachineConfigMap) (env : CmkEnv) (st st1 : State),
      rangeMachineConfigs e todo env st = (.ret none, st1) →
      st1.spec = st.spec ∧ st1.validator = st.validator ∧
      (∀ q, HasUserAndKey (st.objects q) → HasUserAndKey (st1.objects q)) ∧
      ∀ entry ∈ todo, ∃ p, entry.2 = some p ∧ HasUserAndKey (st1.objects p) := by
  intro todo
  induction todo with
  | nil =>
    intro env st st1 h
    simp only [rangeMachineConfigs, V.pure, Prod.mk.injEq, true_and] at h
    subst h
    exact ⟨rfl, rfl, fun _ hq => hq, by simp⟩
  | cons entry todo ih =>
    intro env st st1 h
    obtain ⟨name, pointer⟩ := entry
    cases pointer with
    | none => simp [rangeMachineConfigs, V.get, V.deref, V.throwPanic, V.bind] at h
    | some p =>
      rw [rangeMachineConfigs_cons] at h
      by_cases hns : (st.objects p).Namespace = st.spec.Spec.Namespace
      swap
      · simp [hns] at h
      rw [if_neg (not_not.2 hns)] at h
      by_cases ht : (st.objects p).Spec.Template.Value = ""
      · simp [ht, V.pure] at h
      simp only [ht, if_false] at h
      cases hdc : st.spec.datacenterConfig with
      | none => simp [hdc, V.deref, V.throwPanic, V.bind] at h
      | some dc =>
        simp only [hdc, V.deref, V.bind_pure_run] at h
        have hstate := validateMachineConfig_state dc.Spec e env
          { st with objects := fun q =>
              if q = p then withDefaultUsers (st.objects p) else st.objects q }
        rcases hrun : validateMachineConfig dc.Spec e env
          { st with objects := fun q =>
              if q = p then withDefaultUsers (st.objects p) else st.objects q }
          with ⟨o, st2⟩
        rw [hrun] at hstate
        simp only at hstate
        cases o with
        | panics => simp [V.bind_panics hrun] at h
        | ret err =>
          rw [V.bind_ret hrun] at h
          cases err with
          | some err => simp [V.pure, V.bind_load] at h
          | none =>
            simp only at h
            obtain ⟨hspec, hval, hmono, hall⟩ := ih env st2 st1 h
            have hobjects : st2.objects = fun q =>
                if q = p then withDefaultUsers (st.objects p) else st.objects q := by
              rw [hstate]
            have hp : HasUserAndKey (st2.objects p) := by
              rw [hobjects]
              simpa using (withDefaultUsers_spec (st.objects p)).1
            refine ⟨by rw [hspec, hstate], by rw [hval, hstate], ?_, ?_⟩
            · intro q hq
              apply hmono
              rw [hobjects]
              by_cases hqp : q = p
              · subst hqp
                simpa using (withDefaultUsers_spec (st.objects q)).1
              · simpa [hqp] using hq
            · intro entry hentry
              rcases List.mem_cons.1 hentry with rfl | hentry
              · exact ⟨p, rfl, hmono p hp⟩
              · exact hall entry hentry

/-- A successful `validateRest` has accepted the host, has left it with its port in the spec,
has left the validator as it was, and has left every machine configuration of the validator
with a first user and a first key. -/
theorem validateRest_success (controlPlaneMachineConfig : Pointer) (e : Option Pointer)
    (env : CmkEnv) (st st1 : State)
    (h : validateRest controlPlaneMachineConfig e env st = (.ret none, st1)) :
    (validateControlPlaneHostAndApplyDefaultPort
      st.spec.Spec.Cluster.Spec.ControlPlaneConfiguration.Endpoint.Host).2 = none ∧
    st1.spec.Spec.Cluster.Spec.ControlPlaneConfiguration.Endpoint.Host
      = (validateControlPlaneHostAndApplyDefaultPort
          st.spec.Spec.Cluster.Spec.ControlPlaneConfiguration.Endpoint.Host).1 ∧
    st1.validator = st.validator ∧
    ∀ entry ∈ st1.validator.machineConfigs,
      ∃ p, entry.2 = some p ∧ HasUserAndKey (st1.objects p) := by
  simp only [validateRest, V.bind_get] at h
  cases hdc : st.spec.datacenterConfig with
  | none => simp [hdc, V.deref, V.throwPanic, V.bind] at h
  | some dc =>
    simp only [hdc, V.deref, V.bind_pure_run] at h
    by_cases hns : dc.Namespace = st.spec.Spec.Namespace
    swap
    · simp [hns, V.pure] at h
    simp only [hns, ne_eq, not_true_eq_false, if_false] at h
    cases hworkers : st.spec.Spec.Cluster.Spec.WorkerNodeGroupConfigurations.head? with
    | none => simp [hworkers, V.throwPanic] at h
    | some worker =>
      simp only [hworkers] at h
      cases hworker : worker.MachineGroupRef with
      | none => simp [hworker, V.deref, V.throwPanic, V.bind] at h
      | some workerRef =>
        simp only [hworker, V.deref, V.bind_pure_run] at h
        cases hlookup : st.validator.machineConfigs.lookup workerRef.Name with
        | none => simp [hlookup, V.pure] at h
        | some pointer =>
          simp only [hlookup, V.bind_load] at h
          cases pointer with
          | none => simp [V.deref, V.throwPanic, V.bind] at h
          | some workerMachineConfig =>
            simp only [V.deref, V.bind_pure_run, V.bind_load] at h
            by_cases ht : (st.objects controlPlaneMachineConfig).Spec.Template
              = (st.objects workerMachineConfig).Spec.Template
            swap
            · simp [ht, V.pure] at h
            simp only [ht, ne_eq, not_true_eq_false, if_false] at h
            rcases hhost : validateControlPlaneHostAndApplyDefaultPort
              st.spec.Spec.Cluster.Spec.ControlPlaneConfiguration.Endpoint.Host
              with ⟨hostWithPort, err⟩
            rw [hhost] at h
            cases err with
            | some err => simp [V.pure] at h
            | none =>
              simp only [V.bind_set] at h
              obtain ⟨hspec, hval, -, hall⟩ := rangeMachineConfigs_success e
                st.validator.machineConfigs env _ st1 h
              refine ⟨rfl, by rw [hspec], hval, ?_⟩
              intro entry hentry
              rw [hval] at hentry
              exact hall entry hentry

/-- The checks of the external etcd configuration return and leave the state as it was. -/
theorem validateEtcd_returns (s : Spec) (controlPlaneMachineConfig : Pointer) (env : CmkEnv)
    (st : State) :
    ∃ r, validateEtcd s controlPlaneMachineConfig env st = (.ret r, st) := by
  cases h1 : s.Spec.Cluster.Spec.ExternalEtcdConfiguration with
  | none => exact ⟨(none, none), by simp [validateEtcd, h1, V.pure]⟩
  | some etcd =>
    cases h2 : etcd.MachineGroupRef with
    | none =>
      exact ⟨(some "must specify machineGroupRef for etcd machines", none),
        by simp [validateEtcd, h1, h2, V.pure]⟩
    | some ref =>
      cases h3 : s.etcdMachineConfig with
      | none =>
        exact ⟨(some ("cannot find CloudStackMachineConfig " ++ ref.Name ++ " for etcd machines"),
          none), by simp [validateEtcd, h1, h2, h3, V.pure]⟩
      | some found =>
        by_cases h4 : (st.objects found).Spec.Template
            = (st.objects controlPlaneMachineConfig).Spec.Template
        · exact ⟨(none, some found),
            by simp [validateEtcd, h1, h2, h3, h4, V.pure, V.bind_load]⟩
        · exact ⟨(some "control plane and etcd machines must have the same template specified",
            some found), by simp [validateEtcd, h1, h2, h3, h4, V.pure, V.bind_load]⟩

/-- A successful `ValidateClusterMachineConfigs` has accepted the host, has left it with its
port in the spec, has left the validator as it was, and has left every machine configuration
of the validator with a first user and a first key. -/
theorem validate_success (env : CmkEnv) (st st1 : State)
    (h : ValidateClusterMachineConfigs env st = (.ret none, st1)) :
    (validateControlPlaneHostAndApplyDefaultPort
      st.spec.Spec.Cluster.Spec.ControlPlaneConfiguration.Endpoint.Host).2 = none ∧
    st1.spec.Spec.Cluster.Spec.ControlPlaneConfiguration.Endpoint.Host
      = (validateControlPlaneHostAndApplyDefaultPort
          st.spec.Spec.Cluster.Spec.ControlPlaneConfiguration.Endpoint.Host).1 ∧
    st1.validator = st.validator ∧
    ∀ entry ∈ st1.validator.machineConfigs,
      ∃ p, entry.2 = some p ∧ HasUserAndKey (st1.objects p) := by
  simp only [ValidateClusterMachineConfigs, V.bind_get] at h
  by_cases hhost : st.spec.Spec.Cluster.Spec.ControlPlaneConfiguration.Endpoint.Host.length ≤ 0
  · simp [hhost, V.pure] at h
  simp only [hhost, if_false] at h
  cases hdc : st.spec.datacenterConfig with
  | none => simp [hdc, V.deref, V.throwPanic, V.bind] at h
  | some dc =>
    simp only [hdc, V.deref, V.bind_pure_run] at h
    by_cases hdomain : dc.Spec.Domain.length ≤ 0
    · simp [hdomain, V.pure] at h
    by_cases hzone : dc.Spec.Zone.Value.length ≤ 0
    · simp [hdomain, hzone, V.pure] at h
    by_cases hnetwork : dc.Spec.Network.Value.length ≤ 0
    · simp [hdomain, hzone, hnetwork, V.pure] at h
    simp only [hdomain, hzone, hnetwork, if_false] at h
    cases hcp : st.spec.Spec.Cluster.Spec.ControlPlaneConfiguration.MachineGroupRef with
    | none => simp [hcp, V.pure] at h
    | some controlPlaneRef =>
      simp only [hcp] at h
      cases hworkers : st.spec.Spec.Cluster.Spec.WorkerNodeGroupConfigurations.head? with
      | none => simp [hworkers, V.throwPanic] at h
      | some worker =>
        simp only [hworkers] at h
        cases hworker : worker.MachineGroupRef with
        | none => simp [hworker, V.pure] at h
        | some workerRef =>
          have hlook : st.spec.controlPlaneMachineConfig env st
              = (.ret (st.spec.machineConfigsLookup.index controlPlaneRef.Name), st) := by
            simp [Spec.controlPlaneMachineConfig, hcp, V.deref, V.bind, V.pure]
          simp only [hworker] at h
          rw [V.bind_ret hlook] at h
          cases hfound : st.spec.machineConfigsLookup.index controlPlaneRef.Name with
          | none => simp [hfound, V.pure] at h
          | some controlPlaneMachineConfig =>
            simp only [hfound] at h
            obtain ⟨etcd, hetcd⟩ := validateEtcd_returns st.spec controlPlaneMachineConfig env st
            rw [V.bind_ret hetcd] at h
            cases herr : etcd.1 with
            | some err => simp [herr, V.pure] at h
            | none =>
              simp only [herr] at h
              exact validateRest_success controlPlaneMachineConfig etcd.2 env st st1 h

/-! ## C23 -/

/-- C23: for a host without a colon `validateControlPlaneHostAndApplyDefaultPort` returns the
host followed by `:6443`, and after a successful `ValidateClusterMachineConfigs` the host of
the control-plane endpoint in the spec is that value. -/
theorem host_gets_default_port (host : String) (hcolon : ':' ∉ host.data) :
    validateControlPlaneHostAndApplyDefaultPort host = (host ++ ":6443", none) ∧
    ∀ (env : CmkEnv) (st st1 : State),
      st.spec.Spec.Cluster.Spec.ControlPlaneConfiguration.Endpoint.Host = host →
      ValidateClusterMachineConfigs env st = (.ret none, st1) →
      st1.spec.Spec.Cluster.Spec.ControlPlaneConfiguration.Endpoint.Host = host ++ ":6443" := by
  have happend : host ++ ":" ++ controlEndpointDefaultPort = host ++ ":6443" := by
    rw [String.append_assoc]
    rfl
  have hrun := host_without_colon host hcolon
  rw [happend] at hrun
  refine ⟨hrun, ?_⟩
  intro env st st1 hhost h
  have := (validate_success env st st1 h).2.1
  rw [this, hhost, hrun]

theorem host_gets_default_port_witness :
    validateControlPlaneHostAndApplyDefaultPort "1.2.3.4" = ("1.2.3.4" ++ ":6443", none) ∧
    (ValidateClusterMachineConfigs cmkOk (stateOf sampleCluster (some sampleDatacenter))).1
      = .ret none ∧
    (ValidateClusterMachineConfigs cmkOk (stateOf sampleCluster
      (some sampleDatacenter))).2.spec.Spec.Cluster.Spec.ControlPlaneConfiguration.Endpoint.Host
      = "1.2.3.4" ++ ":6443" :=
  ⟨(host_gets_default_port "1.2.3.4" (by decide)).1, by decide!,
    (host_gets_default_port "1.2.3.4" (by decide)).2 cmkOk
      (stateOf sampleCluster (some sampleDatacenter)) _ rfl (V.run_eq (by decide!))⟩

/-! ## The users of the machine configurations -/

theorem withDefaultUsers_sameButUsers {a b : anywherev1.CloudStackMachineConfig}
    (h : SameButUsers a b) : SameButUsers (withDefaultUsers a) (withDefaultUsers b) :=
  ((withDefaultUsers_spec a).2.1.trans h).trans (withDefaultUsers_spec b).2.1.symm

/-- The loop from two states that differ at most in the users of the machine configurations:
the same outcome, and two states that differ at most in those users. -/
theorem rangeMachineConfigs_sameButUsers (e : Option Pointer) :
    ∀ (todo : MachineConfigMap) (env : CmkEnv) (a b : State), StatesSameButUsers a b →
      (rangeMachineConfigs e todo env a).1 = (rangeMachineConfigs e todo env b).1 ∧
      StatesSameButUsers (rangeMachineConfigs e todo env a).2
        (rangeMachineConfigs e todo env b).2 := by
  intro todo
  induction todo with
  | nil =>
    intro env a b h
    exact ⟨rfl, h⟩
  | cons entry todo ih =>
    intro env a b h
    obtain ⟨name, pointer⟩ := entry
    cases pointer with
    | none =>
      simp only [rangeMachineConfigs, V.bind_get, V.deref, V.throwPanic, V.bind]
      exact ⟨by trivial, h⟩
    | some p =>
      have h0 := h
      obtain ⟨s, v, oa, c⟩ := a
      obtain ⟨sb, vb, ob, cb⟩ := b
      obtain ⟨hs, hv, hc, ho⟩ := h
      simp only at hs hv hc ho
      subst hs hv hc
      obtain ⟨hname, hnamespace, htemplate, -, -⟩ := ho p
      have hstep : StatesSameButUsers
          { spec := s, validator := v, calls := c,
            objects := fun q => if q = p then withDefaultUsers (oa p) else oa q }
          { spec := s, validator := v, calls := c,
            objects := fun q => if q = p then withDefaultUsers (ob p) else ob q } := by
        refine ⟨rfl, rfl, rfl, ?_⟩
        intro q
        by_cases hq : q = p
        · simpa [hq] using withDefaultUsers_sameButUsers (ho p)
        · simpa [hq] using ho q
      rw [rangeMachineConfigs_cons, rangeMachineConfigs_cons]
      simp only [← hname, ← hnamespace, ← htemplate]
      by_cases hns : (oa p).Namespace = s.Spec.Namespace
      swap
      · simp only [hns, ne_eq, not_false_eq_true, if_true]
        exact ⟨by trivial, h0⟩
      simp only [hns, ne_eq, not_true_eq_false, if_false]
      by_cases ht : (oa p).Spec.Template.Value = ""
      · simp only [ht, if_true, V.pure]
        exact ⟨by trivial, hstep⟩
      simp only [ht, if_false]
      cases hdc : s.datacenterConfig with
      | none =>
        simp only [V.deref, V.throwPanic, V.bind]
        exact ⟨by trivial, hstep⟩
      | some dc =>
        simp only [V.deref, V.bind_pure_run]
        have hB := validateMachineConfig_frame dc.Spec e env
          { spec := s, validator := v, calls := c,
            objects := fun q => if q = p then withDefaultUsers (ob p) else ob q }
          { spec := s, validator := v, calls := c,
            objects := fun q => if q = p then withDefaultUsers (oa p) else oa q }
          rfl (fun q => (hstep.2.2.2 q).symm)
        have hA := validateMachineConfig_state dc.Spec e env
          { spec := s, validator := v, calls := c,
            objects := fun q => if q = p then withDefaultUsers (oa p) else oa q }
        rcases hrun : validateMachineConfig dc.Spec e env
          { spec := s, validator := v, calls := c,
            objects := fun q => if q = p then withDefaultUsers (oa p) else oa q } with ⟨o, a2⟩
        rw [hrun] at hA hB
        simp only at hA hB
        have hnext : StatesSameButUsers a2
            { spec := s, validator := v,
              objects := fun q => if q = p then withDefaultUsers (ob p) else ob q,
              calls := a2.calls } := by
          rw [hA]
          exact ⟨rfl, rfl, rfl, hstep.2.2.2⟩
        cases o with
        | panics =>
          rw [V.bind_panics hrun, V.bind_panics hB]
          exact ⟨rfl, hnext⟩
        | ret err =>
          rw [V.bind_ret hrun, V.bind_ret hB]
          cases err with
          | some err =>
            simp only [V.bind_load, V.pure]
            refine ⟨?_, hnext⟩
            rw [(hnext.2.2.2 p).1]
            simp
          | none => exact ih env _ _ hnext

/-- The statements from the check of the namespaces on, from two states that differ at most
in the users of the machine configurations: the same outcome, and two states that differ at
most in those users. -/
theorem validateRest_sameButUsers (controlPlaneMachineConfig : Pointer) (e : Option Pointer)
    (env : CmkEnv) (a b : State) (h : StatesSameButUsers a b) :
    (validateRest controlPlaneMachineConfig e env a).1
      = (validateRest controlPlaneMachineConfig e env b).1 ∧
    StatesSameButUsers (validateRest controlPlaneMachineConfig e env a).2
      (validateRest controlPlaneMachineConfig e env b).2 := by
  have h0 := h
  obtain ⟨s, v, oa, c⟩ := a
  obtain ⟨sb, vb, ob, cb⟩ := b
  obtain ⟨hs, hv, hc, ho⟩ := h
  simp only at hs hv hc ho
  subst hs hv hc
  simp only [validateRest, V.bind_get]
  cases hdc : s.datacenterConfig with
  | none =>
    simp only [V.deref, V.throwPanic, V.bind]
    exact ⟨by trivial, h0⟩
  | some dc =>
    simp only [V.deref, V.bind_pure_run]
    by_cases hns : dc.Namespace = s.Spec.Namespace
    swap
    · simp only [hns, ne_eq, not_false_eq_true, if_true, V.pure]
      exact ⟨by trivial, h0⟩
    simp only [hns, ne_eq, not_true_eq_false, if_false]
    cases hworkers : s.Spec.Cluster.Spec.WorkerNodeGroupConfigurations.head? with
    | none =>
      simp only [V.throwPanic]
      exact ⟨by trivial, h0⟩
    | some worker =>
      simp only []
      cases hworker : worker.MachineGroupRef with
      | none =>
        simp only [V.deref, V.throwPanic, V.bind]
        exact ⟨by trivial, h0⟩
      | some workerRef =>
        simp only [V.deref, V.bind_pure_run]
        cases hlookup : v.machineConfigs.lookup workerRef.Name with
        | none =>
          simp only [V.pure]
          exact ⟨by trivial, h0⟩
        | some pointer =>
          simp only [V.bind_load]
          cases pointer with
          | none =>
            simp only [V.deref, V.throwPanic, V.bind]
            exact ⟨by trivial, h0⟩
          | some workerMachineConfig =>
            simp only [V.deref, V.bind_pure_run, V.bind_load,
              ← (ho controlPlaneMachineConfig).2.2.1, ← (ho workerMachineConfig).2.2.1]
            by_cases ht : (oa controlPlaneMachineConfig).Spec.Template
              = (oa workerMachineConfig).Spec.Template
            swap
            · simp only [ht, ne_eq, not_false_eq_true, if_true, V.pure]
              exact ⟨by trivial, h0⟩
            simp only [ht, ne_eq, not_true_eq_false, if_false]
            rcases hhost : validateControlPlaneHostAndApplyDefaultPort
              s.Spec.Cluster.Spec.ControlPlaneConfiguration.Endpoint.Host
              with ⟨hostWithPort, err⟩
            cases err with
            | some err =>
              simp only [V.pure]
              exact ⟨by trivial, h0⟩
            | none =>
              simp only [V.bind_set]
              exact rangeMachineConfigs_sameButUsers e _ env _ _ ⟨rfl, rfl, rfl, ho⟩

/-- The checks of the external etcd configuration from two states that differ at most in the
users of the machine configurations: the same result, each state left as it was. -/
theorem validateEtcd_sameButUsers (s : Spec) (controlPlaneMachineConfig : Pointer)
    (env : CmkEnv) (a b : State) (h : StatesSameButUsers a b) :
    ∃ r, validateEtcd s controlPlaneMachineConfig env a = (.ret r, a) ∧
      validateEtcd s controlPlaneMachineConfig env b = (.ret r, b) := by
  obtain ⟨-, -, -, ho⟩ := h
  cases h1 : s.Spec.Cluster.Spec.ExternalEtcdConfiguration with
  | none => exact ⟨(none, none), by simp [validateEtcd, h1, V.pure]⟩
  | some etcd =>
    cases h2 : etcd.MachineGroupRef with
    | none =>
      exact ⟨(some "must specify machineGroupRef for etcd machines", none),
        by simp [validateEtcd, h1, h2, V.pure]⟩
    | some ref =>
      cases h3 : s.etcdMachineConfig with
      | none =>
        exact ⟨(some ("cannot find CloudStackMachineConfig " ++ ref.Name ++ " for etcd machines"),
          none), by simp [validateEtcd, h1, h2, h3, V.pure]⟩
      | some found =>
        have hf := (ho found).2.2.1
        have hcp := (ho controlPlaneMachineConfig).2.2.1
        by_cases h4 : (a.objects found).Spec.Template
            = (a.objects controlPlaneMachineConfig).Spec.Template
        · have h5 : (b.objects found).Spec.Template
              = (b.objects controlPlaneMachineConfig).Spec.Template := by
            rw [← hf, ← hcp, h4]
          exact ⟨(none, some found),
            by simp [validateEtcd, h1, h2, h3, h4, h5, V.pure, V.bind_load]⟩
        · have h5 : ¬ (b.objects found).Spec.Template
              = (b.objects controlPlaneMachineConfig).Spec.Template := by
            rw [← hf, ← hcp]
            exact h4
          exact ⟨(some "control plane and etcd machines must have the same template specified",
            some found), by simp [validateEtcd, h1, h2, h3, h4, h5, V.pure, V.bind_load]⟩

/-- The method `ValidateClusterMachineConfigs` from two states that differ at most in the
users of the machine configurations: the same outcome, and two states that differ at most in
those users. -/
theorem validate_sameButUsers (env : CmkEnv) (a b : State) (h : StatesSameButUsers a b) :
    (ValidateClusterMachineConfigs env a).1 = (ValidateClusterMachineConfigs env b).1 ∧
    StatesSameButUsers (ValidateClusterMachineConfigs env a).2
      (ValidateClusterMachineConfigs env b).2 := by
  have h0 := h
  obtain ⟨s, v, oa, c⟩ := a
  obtain ⟨sb, vb, ob, cb⟩ := b
  obtain ⟨hs, hv, hc, ho⟩ := h
  simp only at hs hv hc ho
  subst hs hv hc
  simp only [ValidateClusterMachineConfigs, V.bind_get]
  by_cases hhost : s.Spec.Cluster.Spec.ControlPlaneConfiguration.Endpoint.Host.length ≤ 0
  · simp only [hhost, if_true, V.pure]
    exact ⟨by trivial, h0⟩
  simp only [hhost, if_false]
  cases hdc : s.datacenterConfig with
  | none =>
    simp only [V.deref, V.throwPanic, V.bind]
    exact ⟨by trivial, h0⟩
  | some dc =>
    simp only [V.deref, V.bind_pure_run]
    by_cases hdomain : dc.Spec.Domain.length ≤ 0
    · simp only [hdomain, if_true, V.pure]
      exact ⟨by trivial, h0⟩
    by_cases hzone : dc.Spec.Zone.Value.length ≤ 0
    · simp only [hdomain, hzone, if_true, if_false, V.pure]
      exact ⟨by trivial, h0⟩
    by_cases hnetwork : dc.Spec.Network.Value.length ≤ 0
    · simp only [hdomain, hzone, hnetwork, if_true, if_false, V.pure]
      exact ⟨by trivial, h0⟩
    simp only [hdomain, hzone, hnetwork, if_false]
    cases hcp : s.Spec.Cluster.Spec.ControlPlaneConfiguration.MachineGroupRef with
    | none =>
      simp only [V.pure]
      exact ⟨by trivial, h0⟩
    | some controlPlaneRef =>
      simp only []
      cases hworkers : s.Spec.Cluster.Spec.WorkerNodeGroupConfigurations.head? with
      | none =>
        simp only [V.throwPanic]
        exact ⟨by trivial, h0⟩
      | some worker =>
        simp only []
        cases hworker : worker.MachineGroupRef with
        | none =>
          simp only [V.pure]
          exact ⟨by trivial, h0⟩
        | some workerRef =>
          have hlook : ∀ st : State, s.controlPlaneMachineConfig env st
              = (.ret (s.machineConfigsLookup.index controlPlaneRef.Name), st) := by
            intro st
            simp [Spec.controlPlaneMachineConfig, hcp, V.deref, V.bind, V.pure]
          simp only []
          rw [V.bind_ret (hlook _), V.bind_ret (hlook _)]
          cases hfound : s.machineConfigsLookup.index controlPlaneRef.Name with
          | none =>
            simp only [V.pure]
            exact ⟨by trivial, h0⟩
          | some controlPlaneMachineConfig =>
            simp only []
            obtain ⟨etcd, hetcd, hetcdB⟩ := validateEtcd_sameButUsers s controlPlaneMachineConfig
              env _ _ h0
            rw [V.bind_ret hetcd, V.bind_ret hetcdB]
            cases herr : etcd.1 with
            | some err =>
              simp only [V.pure]
              exact ⟨by trivial, h0⟩
            | none =>
              simp only []
              exact validateRest_sameButUsers controlPlaneMachineConfig etcd.2 env _ _ h0

/-! ## C25 -/

/-- C25: the users of the machine configurations have no part in the result of
`ValidateClusterMachineConfigs`: two runs on machine configurations that differ at most in
their users (one may have none, or a first user without keys) have the same outcome, whether
the machine configurations are reached through the map of the validator, through the lookup of
the spec or through both.  After every successful run each entry of the map of the validator,
which is left as it was, points to a machine configuration that has a first user, and that
user a first entry of `SshAuthorizedKeys`. -/
theorem users_take_no_part_and_get_defaults (env : CmkEnv) (st : State) :
    (∀ objects1, ObjectsSameButUsers st.objects objects1 →
      (ValidateClusterMachineConfigs env { st with objects := objects1 }).1
        = (ValidateClusterMachineConfigs env st).1) ∧
    (∀ st1, ValidateClusterMachineConfigs env st = (.ret none, st1) →
      st1.validator = st.validator ∧
      ∀ entry ∈ st1.validator.machineConfigs,
        ∃ p, entry.2 = some p ∧ HasUserAndKey (st1.objects p)) :=
  ⟨fun objects1 h =>
      (validate_sameButUsers env st { st with objects := objects1 } ⟨rfl, rfl, rfl, h⟩).1.symm,
    fun st1 h => (validate_success env st st1 h).2.2⟩

theorem users_take_no_part_and_get_defaults_witness :
    (ValidateClusterMachineConfigs cmkOk (stateWith usersMissing)).1
      = (ValidateClusterMachineConfigs cmkOk (stateOf sampleCluster (some sampleDatacenter))).1 ∧
    (ValidateClusterMachineConfigs cmkOk (stateWith usersMissing)).1 = .ret none ∧
    ((ValidateClusterMachineConfigs cmkOk (stateWith usersMissing)).2.validator
        = (stateWith usersMissing).validator ∧
      ∀ entry ∈ (ValidateClusterMachineConfigs cmkOk
          (stateWith usersMissing)).2.validator.machineConfigs,
        ∃ p, entry.2 = some p ∧ HasUserAndKey
          ((ValidateClusterMachineConfigs cmkOk (stateWith usersMissing)).2.objects p)) ∧
    (stateWith usersMissing).spec.machineConfigsLookup.index "test-cp" = some 0 ∧
    (stateWith usersMissing).validator.machineConfigs.lookup "test-cp" = some (some 0) ∧
    ((stateWith usersMissing).objects 0).Spec.Users = [] ∧
    ((ValidateClusterMachineConfigs cmkOk (stateWith usersMissing)).2.objects 0).Spec.Users
      = [{ Name := "", SshAuthorizedKeys := [""] }] :=
  ⟨(users_take_no_part_and_get_defaults cmkOk (stateOf sampleCluster (some sampleDatacenter))).1
      (objectsOf usersMissing)
      (fun p => match p with
        | 0 => ⟨rfl, rfl, rfl, rfl, rfl⟩
        | 1 => ⟨rfl, rfl, rfl, rfl, rfl⟩
        | 2 => ⟨rfl, rfl, rfl, rfl, rfl⟩
        | _ + 3 => ⟨rfl, rfl, rfl, rfl, rfl⟩),
    by decide!,
    (users_take_no_part_and_get_defaults cmkOk (stateWith usersMissing)).2 _
      (V.run_eq (by decide!)),
    by decide!, by decide!, by decide!, by decide!⟩

/-! ## C24 -/

/-- C24, as the code has it: three machine configurations with the compute offerings
`cp-large`, `md-large` and `etcd-small`.  The validation succeeds after three calls of
`ValidateTemplatePresent` and three of `ValidateServiceOfferingPresent`, every one of them
made with the template and the offering of the machine configuration of the etcd machines:
the offerings `cp-large` and `md-large` are never checked. -/
theorem every_turn_checks_the_etcd_config :
    (ValidateClusterMachineConfigs cmkOk (stateWith offeringsDiffer)).1 = .ret none ∧
    (ValidateClusterMachineConfigs cmkOk (stateWith offeringsDiffer)).2.calls.map
        (fun e => e.call)
      = [.ValidateTemplatePresent "domain1" testZone "admin" testTemplate,
         .ValidateServiceOfferingPresent "domain1" testZone "admin"
            { ResourceType := "name", Value := "etcd-small" },
         .ValidateTemplatePresent "domain1" testZone "admin" testTemplate,
         .ValidateServiceOfferingPresent "domain1" testZone "admin"
            { ResourceType := "name", Value := "etcd-small" },
         .ValidateTemplatePresent "domain1" testZone "admin" testTemplate,
         .ValidateServiceOfferingPresent "domain1" testZone "admin"
            { ResourceType := "name", Value := "etcd-small" }] := by
  decide!

/-! ## C28 -/

/-- A turn of the loop with a nil `etcdMachineConfig`, on a machine configuration that has a
template and the namespace of the cluster: the run panics without a call. -/
theorem rangeMachineConfigs_nil_etcd (rest : MachineConfigMap) (name : String)
    (first : Pointer) (env : CmkEnv) (s : State)
    (dc : anywherev1.CloudStackDatacenterConfig) (hdc : s.spec.datacenterConfig = some dc)
    (hfirstNs : (s.objects first).Namespace = s.spec.Spec.Namespace)
    (hfirstTemplate : (s.objects first).Spec.Template.Value ≠ "") :
    (rangeMachineConfigs none ((name, some first) :: rest) env s).1 = .panics ∧
    (rangeMachineConfigs none ((name, some first) :: rest) env s).2.calls = s.calls := by
  rw [rangeMachineConfigs_cons]
  simp [hfirstNs, hfirstTemplate, hdc, V.deref, V.bind_pure_run, V.bind_panics
    (validateMachineConfig_none _ _ _)]

/-- C28, as the code has it: a spec without an external etcd configuration that passes the
checks of the fields, the references, the namespaces, the templates and the host, and a
validator whose first machine configuration is of the namespace of the cluster and has a
template.  The loop hands the nil `etcdMachineConfig` to `validateMachineConfig`, which
dereferences it: the run panics, before any call of the client. -/
theorem nil_etcd_config_is_dereferenced (env : CmkEnv) (st : State)
    (dc : anywherev1.CloudStackDatacenterConfig) (hdc : st.spec.datacenterConfig = some dc)
    (hhost : st.spec.Spec.Cluster.Spec.ControlPlaneConfiguration.Endpoint.Host ≠ "")
    (hdomain : dc.Spec.Domain ≠ "") (hzone : dc.Spec.Zone.Value ≠ "")
    (hnetwork : dc.Spec.Network.Value ≠ "")
    (controlPlaneRef : anywherev1.Ref) (worker : anywherev1.WorkerNodeGroupConfiguration)
    (others : List anywherev1.WorkerNodeGroupConfiguration) (workerRef : anywherev1.Ref)
    (hcp : st.spec.Spec.Cluster.Spec.ControlPlaneConfiguration.MachineGroupRef
      = some controlPlaneRef)
    (hworkers : st.spec.Spec.Cluster.Spec.WorkerNodeGroupConfigurations = worker :: others)
    (hworker : worker.MachineGroupRef = some workerRef)
    (controlPlaneMachineConfig : Pointer)
    (hfound : st.spec.machineConfigsLookup.index controlPlaneRef.Name
      = some controlPlaneMachineConfig)
    (hetcd : st.spec.Spec.Cluster.Spec.ExternalEtcdConfiguration = none)
    (hns : dc.Namespace = st.spec.Spec.Namespace)
    (workerNodeGroupMachineConfig : Pointer)
    (hworkerFound : st.validator.machineConfigs.lookup workerRef.Name
      = some (some workerNodeGroupMachineConfig))
    (htemplate : (st.objects controlPlaneMachineConfig).Spec.Template
      = (st.objects workerNodeGroupMachineConfig).Spec.Template)
    (hostWithPort : String)
    (hhostOk : validateControlPlaneHostAndApplyDefaultPort
      st.spec.Spec.Cluster.Spec.ControlPlaneConfiguration.Endpoint.Host = (hostWithPort, none))
    (name : String) (first : Pointer) (rest : MachineConfigMap)
    (hknown : st.validator.machineConfigs = (name, some first) :: rest)
    (hfirstNs : (st.objects first).Namespace = st.spec.Spec.Namespace)
    (hfirstTemplate : (st.objects first).Spec.Template.Value ≠ "") :
    (ValidateClusterMachineConfigs env st).1 = .panics ∧
    (ValidateClusterMachineConfigs env st).2.calls = st.calls := by
  rw [validate_reaches_rest env st dc hdc hhost hdomain hzone hnetwork controlPlaneRef worker
    others workerRef hcp hworkers hworker controlPlaneMachineConfig hfound none
    (Or.inl ⟨hetcd, rfl⟩)]
  simp only [validateRest, V.bind_get, hdc, V.deref, V.bind_pure_run, hns, ne_eq,
    not_true_eq_false, if_false, hworkers, List.head?_cons, hworker, hworkerFound, V.bind_load,
    htemplate, hhostOk, V.bind_set]
  have h := rangeMachineConfigs_nil_etcd rest name first env
    { st with spec := { st.spec with Spec := { Cluster := { st.spec.Spec.Cluster with
      Spec := { st.spec.Spec.Cluster.Spec with ControlPlaneConfiguration :=
        { st.spec.Spec.Cluster.Spec.ControlPlaneConfiguration with
          Endpoint := { Host := hostWithPort } } } } } } } dc hdc hfirstNs hfirstTemplate
  rw [← hknown] at h
  simpa [hdc, hworkers, hcp, hetcd] using h

theorem nil_etcd_config_is_dereferenced_witness :
    (ValidateClusterMachineConfigs cmkOk (stateOf clusterWithoutEtcd (some sampleDatacenter))).1
      = .panics ∧
    (ValidateClusterMachineConfigs cmkOk
      (stateOf clusterWithoutEtcd (some sampleDatacenter))).2.calls
      = (stateOf clusterWithoutEtcd (some sampleDatacenter)).calls :=
  nil_etcd_config_is_dereferenced cmkOk (stateOf clusterWithoutEtcd (some sampleDatacenter))
    sampleDatacenter rfl (by decide) (by decide) (by decide) (by decide)
    (sampleRef "test-cp") { MachineGroupRef := some (sampleRef "test-md-0") } []
    (sampleRef "test-md-0") rfl rfl rfl 0 (by decide!) rfl rfl
    1 (by decide!) rfl "1.2.3.4:6443" (by decide!)
    "test-cp" 0 [("test-md-0", some 1), ("test-etcd", some 2)] rfl rfl (by decide)

/-! ## C29 -/

/-- C29, as the code has it: with the host, the domain, the zone and the network set and a
`MachineGroupRef` on the control plane, an empty list of worker node group configurations is
indexed at `[0]`: the run panics, the state as it was. -/
theorem empty_worker_list_is_indexed (env : CmkEnv) (st : State)
    (dc : anywherev1.CloudStackDatacenterConfig) (hdc : st.spec.datacenterConfig = some dc)
    (hhost : st.spec.Spec.Cluster.Spec.ControlPlaneConfiguration.Endpoint.Host ≠ "")
    (hdomain : dc.Spec.Domain ≠ "") (hzone : dc.Spec.Zone.Value ≠ "")
    (hnetwork : dc.Spec.Network.Value ≠ "") (controlPlaneRef : anywherev1.Ref)
    (hcp : st.spec.Spec.Cluster.Spec.ControlPlaneConfiguration.MachineGroupRef
      = some controlPlaneRef)
    (hworkers : st.spec.Spec.Cluster.Spec.WorkerNodeGroupConfigurations = []) :
    ValidateClusterMachineConfigs env st = (.panics, st) := by
  simp [ValidateClusterMachineConfigs, V.bind, V.get, V.pure, V.deref, V.throwPanic,
    length_eq_zero_iff, hhost, hdc, hdomain, hzone, hnetwork, hcp, hworkers]

theorem empty_worker_list_is_indexed_witness :
    ValidateClusterMachineConfigs cmkOk (stateOf clusterWithoutWorkers (some sampleDatacenter))
      = (.panics, stateOf clusterWithoutWorkers (some sampleDatacenter)) :=
  empty_worker_list_is_indexed cmkOk (stateOf clusterWithoutWorkers (some sampleDatacenter))
    sampleDatacenter rfl (by decide) (by decide) (by decide) (by decide) (sampleRef "test-cp")
    rfl rfl

/-! ## C26 -/

/-- C26, as the code has it: the host `1.2.3.4]` has no colon, so it gets the default port
without an error; the result `1.2.3.4]:6443` is then rejected by `net.SplitHostPort` for its
bracket, and a second validation fails. -/
theorem default_port_on_invalid_host :
    validateControlPlaneHostAndApplyDefaultPort "1.2.3.4]" = ("1.2.3.4]:6443", none) ∧
    validateControlPlaneHostAndApplyDefaultPort "1.2.3.4]:6443"
      = ("", some ("host 1.2.3.4]:6443 is invalid: " ++
          "address 1.2.3.4]:6443: unexpected ']' in address")) := by
  decide!

/-- The port `net.SplitHostPort` gives is what follows the last colon. -/
theorem SplitHostPort_port {hostport host port : String}
    (h : net.SplitHostPort hostport = .ok (host, port)) :
    ∃ i, net.lastIndexByte hostport.data ':' = some i ∧
      port = String.mk (hostport.data.drop (i + 1)) := by
  unfold net.SplitHostPort at h
  simp only at h
  cases hi : net.lastIndexByte hostport.data ':' with
  | none => simp [hi] at h
  | some i =>
    refine ⟨i, rfl, ?_⟩
    simp only [hi] at h
    have htail : ∀ hst j k, net.splitTail hostport hst i j k = .ok (host, port) →
        port = String.mk (hostport.data.drop (i + 1)) := by
      intro hst j k ht
      unfold net.splitTail at ht
      split at ht
      · cases ht
      · split at ht
        · cases ht
        · injection ht with ht
          exact (congrArg Prod.snd ht).symm
    split at h
    · split at h
      · cases h
      · split at h
        · cases h
        · split at h
          · exact htail _ _ _ h
          · split at h <;> cases h
    · split at h
      · cases h
      · exact htail _ _ _ h

/-- A host without colon or bracket, followed by the default port, is split into the host and
that port. -/
theorem SplitHostPort_default (h : String) (hc : ':' ∉ h.data) (hl : '[' ∉ h.data)
    (hr : ']' ∉ h.data) :
    net.SplitHostPort (h ++ ":6443") = .ok (h, "6443") := by
  have hdata : (h ++ ":6443").data = h.data ++ ':' :: "6443".data := by
    simp [String.data_append]
  have hi : net.lastIndexByte (h.data ++ ':' :: "6443".data) ':' = some h.data.length :=
    lastIndexByte_append (by decide)
  have hhead : (h.data ++ ':' :: "6443".data).head? ≠ some '[' := by
    cases hd : h.data with
    | nil => simp
    | cons c cs =>
      simp only [List.cons_append, List.head?_cons, ne_eq, Option.some.injEq]
      intro hcl
      exact hl (by rw [hd, hcl]; exact List.mem_cons_self _ _)
  have htake : List.take h.data.length (h.data ++ ':' :: "6443".data) = h.data := by
    simp
  have hdrop : List.drop (h.data.length + 1) (h.data ++ ':' :: "6443".data) = "6443".data := by
    have happ : h.data ++ ':' :: "6443".data = (h.data ++ [':']) ++ "6443".data := by simp
    rw [happ]
    exact List.drop_left' (by simp)
  have hnl : (h.data ++ ':' :: "6443".data).contains '[' = false := by
    simp [hl]
  have hnr : (h.data ++ ':' :: "6443".data).contains ']' = false := by
    simp [hr]
  have hnc : h.data.contains ':' = false := by
    simp [hc]
  unfold net.SplitHostPort
  simp only [hdata, hi, hhead, if_false, htake, hnc, Bool.false_eq_true, net.splitTail,
    List.drop_zero, hnl, hnr, hdrop]

/-- C26, amended: `validateControlPlaneHostAndApplyDefaultPort` is idempotent on the successes
whose result `net.SplitHostPort` can split: if it returns `h1` for `h` without error and
`net.SplitHostPort` accepts `h1`, then applied to `h1` it returns `h1` again without error.
That is the case of every host without colon or bracket: it gets the default port once. -/
theorem host_validation_idempotent (h : String) :
    (∀ h1 host port, validateControlPlaneHostAndApplyDefaultPort h = (h1, none) →
      net.SplitHostPort h1 = .ok (host, port) →
      validateControlPlaneHostAndApplyDefaultPort h1 = (h1, none)) ∧
    (':' ∉ h.data → '[' ∉ h.data → ']' ∉ h.data →
      validateControlPlaneHostAndApplyDefaultPort h = (h ++ ":6443", none) ∧
      validateControlPlaneHostAndApplyDefaultPort (h ++ ":6443") = (h ++ ":6443", none)) := by
  have hdefault : strconv.Atoi controlEndpointDefaultPort = .ok 6443 := by rfl
  have key : ∀ h1 host port, validateControlPlaneHostAndApplyDefaultPort h = (h1, none) →
      net.SplitHostPort h1 = .ok (host, port) →
      validateControlPlaneHostAndApplyDefaultPort h1 = (h1, none) := by
    intro h1 host port hrun hsplit
    cases hs : net.SplitHostPort h with
    | ok hp =>
      obtain ⟨hst, p⟩ := hp
      have hcopy := hrun
      simp only [validateControlPlaneHostAndApplyDefaultPort, hs] at hcopy
      have hh : h1 = h := by
        cases ha : strconv.Atoi p with
        | error e => simp [ha] at hcopy
        | ok n =>
          simp only [ha, Prod.mk.injEq] at hcopy
          exact hcopy.1.symm
      rw [hh]
      exact hh ▸ hrun
    | error err =>
      have hcopy := hrun
      simp only [validateControlPlaneHostAndApplyDefaultPort, hs] at hcopy
      by_cases hc : strings.Contains err.Error "missing port" = true
      · simp only [hc, if_true, hdefault, Prod.mk.injEq, and_true] at hcopy
        obtain ⟨i, hi, hport⟩ := SplitHostPort_port hsplit
        have hdata : h1.data = h.data ++ ':' :: controlEndpointDefaultPort.data := by
          rw [← hcopy]
          simp [String.data_append]
        rw [hdata, lastIndexByte_append (by decide)] at hi
        have hi1 : i = h.data.length := (Option.some.inj hi).symm
        have hdrop : List.drop (h.data.length + 1)
            (h.data ++ ':' :: controlEndpointDefaultPort.data)
              = controlEndpointDefaultPort.data := by
          have happ : h.data ++ ':' :: controlEndpointDefaultPort.data
              = (h.data ++ [':']) ++ controlEndpointDefaultPort.data := by simp
          rw [happ]
          exact List.drop_left' (by simp)
        have hport1 : port = controlEndpointDefaultPort := by
          rw [hport, hdata, hi1, hdrop]
        simp [validateControlPlaneHostAndApplyDefaultPort, hsplit, hport1, hdefault]
      · simp [hc] at hcopy
  refine ⟨key, ?_⟩
  intro hc hl hr
  have happend : h ++ ":" ++ controlEndpointDefaultPort = h ++ ":6443" := by
    rw [String.append_assoc]
    rfl
  have hfirst := host_without_colon h hc
  rw [happend] at hfirst
  exact ⟨hfirst, key _ _ _ hfirst (SplitHostPort_default h hc hl hr)⟩

theorem host_validation_idempotent_witness :
    validateControlPlaneHostAndApplyDefaultPort "1.2.3.4:6443" = ("1.2.3.4:6443", none) ∧
    validateControlPlaneHostAndApplyDefaultPort ("1.2.3.4" ++ ":6443")
      = ("1.2.3.4" ++ ":6443", none) :=
  ⟨(host_validation_idempotent "1.2.3.4").1 "1.2.3.4:6443" "1.2.3.4" "6443" (by decide!)
      (by rfl),
    ((host_validation_idempotent "1.2.3.4").2 (by decide) (by decide) (by decide)).2⟩

/-! ## C27 -/

/-- C27, as the code has it: `net.SplitHostPort` rejects the host `missing port:1:2` for its
colons; the text of that error carries the host, and so the words `missing port`: the host is
returned with the default port appended and no error. -/
theorem address_text_read_as_missing_port :
    net.SplitHostPort "missing port:1:2"
      = .error { Err := "too many colons in address", Addr := "missing port:1:2" } ∧
    validateControlPlaneHostAndApplyDefaultPort "missing port:1:2"
      = ("missing port:1:2:6443", none) :=
  ⟨by rfl, by decide!⟩

end cloudstack

namespace cluster

/-! # Package `cluster`: runs of `processAWSIam` -/

theorem lookup_filter_ne (key k : String) (m : AWSIamConfigMap) :
    List.lookup k (m.filter (fun entry => entry.1 != key))
      = if k = key then none else List.lookup k m := by
  induction m with
  | nil => simp [List.lookup]
  | cons entry m ih =>
    obtain ⟨name, value⟩ := entry
    by_cases hname : name = key
    · have hdrop : ((name, value).1 != key) = false := by simpa using hname
      rw [List.filter_cons, hdrop]
      simp only [Bool.false_eq_true, if_false, ih]
      by_cases hk : k = key
      · simp [hk]
      · have hk1 : (k == name) = false := by rw [hname]; simpa using hk
        simp [hk, List.lookup, hk1]
    · have hkeep : ((name, value).1 != key) = true := by simpa using hname
      rw [List.filter_cons, hkeep]
      simp only [if_true]
      by_cases hk : k = name
      · subst hk
        simp [List.lookup, hname]
      · have hk1 : (k == name) = false := by simpa using hk
        simp [List.lookup, hk1, ih]

/-- After `m[key] = value` the key gives the value, every other key what it gave. -/
theorem lookup_assign (m : AWSIamConfigMap) (key k : String) (value : anywherev1.AWSIamConfig) :
    List.lookup k (m.assign key value) = if k = key then some value else List.lookup k m := by
  by_cases hk : k = key
  · subst hk
    simp [AWSIamConfigMap.assign, List.lookup]
  · have hk1 : (k == key) = false := by simpa using hk
    simp [AWSIamConfigMap.assign, List.lookup, hk1, lookup_filter_ne, hk]

/-- A key that is the name of no stored object gives what it gave. -/
theorem lookup_foldl_assign_other (key : String) :
    ∀ (added : List anywherev1.AWSIamConfig) (m : AWSIamConfigMap),
      (∀ a ∈ added, a.Name ≠ key) →
      List.lookup key (added.foldl (fun acc config => AWSIamConfigMap.assign acc config.Name config) m)
        = List.lookup key m := by
  intro added
  induction added with
  | nil => intro m _; rfl
  | cons a added ih =>
    intro m h
    have ha : key ≠ a.Name := fun hk => h a (List.mem_cons_self _ _) hk.symm
    rw [List.foldl_cons, ih _ (fun x hx => h x (List.mem_cons_of_mem _ hx)), lookup_assign]
    simp [ha]

/-- The name of a stored object gives a stored object of that name. -/
theorem lookup_foldl_assign_stored :
    ∀ (added : List anywherev1.AWSIamConfig) (m : AWSIamConfigMap),
      ∀ a ∈ added, ∃ b ∈ added, b.Name = a.Name ∧
        List.lookup a.Name (added.foldl (fun acc config => AWSIamConfigMap.assign acc config.Name config) m)
          = some b := by
  intro added
  induction added with
  | nil => intro m a ha; cases ha
  | cons x added ih =>
    intro m a ha
    by_cases hlater : ∃ y ∈ added, y.Name = a.Name
    · obtain ⟨y, hy, hname⟩ := hlater
      obtain ⟨b, hb, hbname, hlookup⟩ := ih (m.assign x.Name x) y hy
      exact ⟨b, List.mem_cons_of_mem _ hb, hbname.trans hname, by
        rw [List.foldl_cons, ← hname]
        exact hlookup⟩
    · have hax : a = x := by
        rcases List.mem_cons.1 ha with h | h
        · exact h
        · exact absurd ⟨a, h, rfl⟩ hlater
      subst hax
      refine ⟨a, List.mem_cons_self _ _, rfl, ?_⟩
      rw [List.foldl_cons, lookup_foldl_assign_other a.Name added _
        (fun y hy hname => hlater ⟨y, hy, hname⟩), lookup_assign]
      simp

/-- The loop stores the objects of the references of the kind `AWSIamConfig` that come before
the first unresolved reference, in their order. -/
theorem processIdentityProviderRefs_run (apiVersion : String) (objects : ObjectLookup)
    (cluster : Option anywherev1.Cluster) :
    ∀ (refs : List anywherev1.Ref) (m : AWSIamConfigMap),
      (∀ idr ∈ refsBeforeFirstUnresolved apiVersion objects refs,
        idr.Kind = anywherev1.AWSIamConfigKind →
        ∃ config, objects.GetFromRef apiVersion idr = some (.AWSIamConfig config)) →
      processIdentityProviderRefs apiVersion objects refs
          { Cluster := cluster, AWSIAMConfigs := some m }
        = (.returns, Config.mk cluster (some
            ((resolvedAWSIamConfigs apiVersion objects
              (refsBeforeFirstUnresolved apiVersion objects refs)).foldl
                (fun acc config => AWSIamConfigMap.assign acc config.Name config) m))) := by
  intro refs
  induction refs with
  | nil =>
    intro m _
    simp [processIdentityProviderRefs, refsBeforeFirstUnresolved, resolvedAWSIamConfigs]
  | cons idr refs ih =>
    intro m h
    cases hget : objects.GetFromRef apiVersion idr with
    | none =>
      simp [processIdentityProviderRefs, refsBeforeFirstUnresolved, resolvedAWSIamConfigs, hget]
    | some idp =>
      have hpre : refsBeforeFirstUnresolved apiVersion objects (idr :: refs)
          = idr :: refsBeforeFirstUnresolved apiVersion objects refs := by
        simp [refsBeforeFirstUnresolved, List.takeWhile, hget]
      have hrest : ∀ r ∈ refsBeforeFirstUnresolved apiVersion objects refs,
          r.Kind = anywherev1.AWSIamConfigKind →
          ∃ config, objects.GetFromRef apiVersion r = some (.AWSIamConfig config) := by
        intro r hr
        exact h r (by rw [hpre]; exact List.mem_cons_of_mem _ hr)
      by_cases hkind : idr.Kind = anywherev1.AWSIamConfigKind
      · obtain ⟨config, hconfig⟩ := h idr (by rw [hpre]; exact List.mem_cons_self _ _) hkind
        rw [hget] at hconfig
        cases hconfig
        have hadded : resolvedAWSIamConfigs apiVersion objects
            (idr :: refsBeforeFirstUnresolved apiVersion objects refs)
            = config :: resolvedAWSIamConfigs apiVersion objects
              (refsBeforeFirstUnresolved apiVersion objects refs) := by
          simp [resolvedAWSIamConfigs, List.filterMap_cons, hkind, hget]
        rw [hpre, hadded, List.foldl_cons]
        simp only [processIdentityProviderRefs, hget, hkind, if_true, APIObject.GetName]
        exact ih _ hrest
      · have hadded : resolvedAWSIamConfigs apiVersion objects
            (idr :: refsBeforeFirstUnresolved apiVersion objects refs)
            = resolvedAWSIamConfigs apiVersion objects
              (refsBeforeFirstUnresolved apiVersion objects refs) := by
          simp [resolvedAWSIamConfigs, List.filterMap_cons, hkind]
        rw [hpre, hadded]
        simp only [processIdentityProviderRefs, hget, hkind, if_false]
        exact ih _ hrest

/-! ## C30 -/

/-- C30, as the code has it: the map holds an entry `iam` and the reference to `iam` resolves
to another object of that name; after `processAWSIam` the key `iam` gives the resolved object,
the entry that was there before is gone, and the entry `other` is kept. -/
theorem entry_of_same_name_replaced :
    processAWSIam sampleConfig sampleObjects
      = (.returns, Config.mk (some sampleCluster)
          (some [("iam", parsedIam), ("other", keptOther)])) ∧
    sampleConfig.AWSIAMConfigs = some [("iam", earlierIam), ("other", keptOther)] ∧
    earlierIam ≠ parsedIam := by
  decide

/-- C30, amended: when every reference of the kind `AWSIamConfig` that comes before the first
unresolved reference resolves to an `AWSIamConfig` object, `processAWSIam` returns and leaves
a non-nil map in which a key that is the name of none of those objects gives what it gave
before, and the name of each of those objects gives such an object of that name: the object
itself when their names are distinct.  Nothing else of the `Config` is changed. -/
theorem processAWSIam_stores_resolved (c : Config) (objects : ObjectLookup)
    (cluster : anywherev1.Cluster) (hcluster : c.Cluster = some cluster)
    (htyped : ∀ idr ∈ refsBeforeFirstUnresolved cluster.APIVersion objects
        cluster.Spec.IdentityProviderRefs,
      idr.Kind = anywherev1.AWSIamConfigKind →
      ∃ config, objects.GetFromRef cluster.APIVersion idr = some (.AWSIamConfig config)) :
    ∃ m : AWSIamConfigMap,
      processAWSIam c objects = (.returns, { c with AWSIAMConfigs := some m }) ∧
      (∀ key, (∀ a ∈ resolvedAWSIamConfigs cluster.APIVersion objects
            (refsBeforeFirstUnresolved cluster.APIVersion objects
              cluster.Spec.IdentityProviderRefs), a.Name ≠ key) →
        m.lookup key = (c.AWSIAMConfigs.getD []).lookup key) ∧
      (∀ a ∈ resolvedAWSIamConfigs cluster.APIVersion objects
            (refsBeforeFirstUnresolved cluster.APIVersion objects
              cluster.Spec.IdentityProviderRefs),
        ∃ b ∈ resolvedAWSIamConfigs cluster.APIVersion objects
            (refsBeforeFirstUnresolved cluster.APIVersion objects
              cluster.Spec.IdentityProviderRefs),
          b.Name = a.Name ∧ m.lookup a.Name = some b) ∧
      (((resolvedAWSIamConfigs cluster.APIVersion objects
            (refsBeforeFirstUnresolved cluster.APIVersion objects
              cluster.Spec.IdentityProviderRefs)).map (fun a => a.Name)).Nodup →
        ∀ a ∈ resolvedAWSIamConfigs cluster.APIVersion objects
            (refsBeforeFirstUnresolved cluster.APIVersion objects
              cluster.Spec.IdentityProviderRefs),
          m.lookup a.Name = some a) := by
  have hrun := processIdentityProviderRefs_run cluster.APIVersion objects (some cluster)
    cluster.Spec.IdentityProviderRefs (c.AWSIAMConfigs.getD []) htyped
  refine ⟨_, ?_, (fun key h => lookup_foldl_assign_other key _ _ h), lookup_foldl_assign_stored _ _, ?_⟩
  · obtain ⟨cl, configs⟩ := c
    simp only at hcluster
    subst hcluster
    cases configs with
    | none => simpa [processAWSIam] using hrun
    | some m0 => simpa [processAWSIam] using hrun
  · intro hnodup a ha
    obtain ⟨b, hb, hname, hlookup⟩ := lookup_foldl_assign_stored _
      (c.AWSIAMConfigs.getD []) a ha
    have hba : b = a := List.inj_on_of_nodup_map hnodup hb ha hname
    rw [hlookup, hba]

theorem processAWSIam_stores_resolved_witness :
    ∃ m : AWSIamConfigMap,
      processAWSIam sampleConfig sampleObjects
        = (.returns, { sampleConfig with AWSIAMConfigs := some m }) ∧
      m.lookup "other" = some keptOther ∧ m.lookup "iam" = some parsedIam := by
  have hadded : resolvedAWSIamConfigs sampleCluster.APIVersion sampleObjects
      (refsBeforeFirstUnresolved sampleCluster.APIVersion sampleObjects
        sampleCluster.Spec.IdentityProviderRefs) = [parsedIam] := by
    decide
  obtain ⟨m, hrun, hother, -, hstored⟩ := processAWSIam_stores_resolved sampleConfig
    sampleObjects sampleCluster rfl (by
      intro idr hidr _
      have hrefs : refsBeforeFirstUnresolved sampleCluster.APIVersion sampleObjects
          sampleCluster.Spec.IdentityProviderRefs = [{ Kind := "AWSIamConfig", Name := "iam" }] := by
        decide
      rw [hrefs, List.mem_singleton] at hidr
      subst hidr
      exact ⟨parsedIam, rfl⟩)
  rw [hadded] at hother hstored
  refine ⟨m, hrun, ?_, ?_⟩
  · rw [hother "other" (by
      intro a ha
      rw [List.mem_singleton] at ha
      subst ha
      decide)]
    rfl
  · exact hstored (by decide) parsedIam (List.mem_singleton.2 rfl)

end cluster
